import Mathlib

/-!
DS18B20 1-Wire driver for the MSP430: shallow embedding and verified properties.

The embedding follows `src/DS18B20/DS18B20.c` and `src/DS18B20/DS18B20.h`.

Conventions of the target (MSP430 EABI, as used by the `msp430.h` tool chains):
* plain `char` is an unsigned 8-bit integer, modelled as a `Nat` reduced `% 256`
  wherever the C code stores into a `char`;
* `int` is a 16-bit two's-complement integer, modelled as an `Int`, with the bit
  pattern reduced `% 65536` wherever the C code stores into an `int`;
* the port registers `P2IN`, `P2OUT`, `P2DIR` are 8-bit.

The outside world (the 1-Wire line and whatever is attached to it) is a function
from the history of bus events to the value read from `P2IN`: every
deterministic bus, reactive or not, is such a function.
-/

namespace DS18B20Driver

/-! ## Constants (`msp430.h` bit masks and `DS18B20.h`) -/

def BIT0 : Nat := 0x01
def BIT2 : Nat := 0x04
def BIT3 : Nat := 0x08
def BIT7 : Nat := 0x80

def TS_OUTBIT : Nat := BIT2
def TS_INBIT : Nat := BIT3

def TS_TEMP_LSB : Nat := 0
def TS_TEMP_MSB : Nat := 1
def TS_ALARM_HI : Nat := 2
def TS_ALARM_LO : Nat := 3
def TS_CONFIG : Nat := 4
def TS_CRC : Nat := 8

def TS_60us : Nat := 63
def TS_480us : Nat := 503
def TS_RST_DELAY : Nat := TS_480us - 3

def READ_ROM : Nat := 0x33
def MATCH_ROM : Nat := 0x55
def SKIP_ROM : Nat := 0xCC
def CONVERT_T : Nat := 0x44
def WRITE_SPAD : Nat := 0x4E
def READ_SPAD : Nat := 0xBE
def COPY_SPAD : Nat := 0x48

/-! ## Data model -/

/-- The handle `struct DS18B20`: `char addr[8]; char scrPad[9]; int temp;`. -/
structure DS18B20 where
  addr : List Nat
  scrPad : List Nat
  temp : Int
deriving DecidableEq

/-- Value of a 16-bit pattern read as a two's-complement `int`. -/
def toInt16 (n : Nat) : Int :=
  if n % 65536 < 32768 then ((n % 65536 : Nat) : Int) else ((n % 65536 : Nat) : Int) - 65536

/-- Bit pattern of a 16-bit `int`. -/
def bits16 (t : Int) : Nat := (t % 65536).toNat

/-- The C statement `t |= x` on an `int` `t`, with `x` the bit pattern of the right operand. -/
def orAssign16 (t : Int) (x : Nat) : Int := toInt16 (bits16 t ||| (x % 65536))

/-! ## CRC check: `tsValidateData` -/

/-- Body of the inner loop of `tsValidateData` for bit `j` of `byte`. -/
def crcStep (byte : Nat) (shiftRegister : Nat) (j : Nat) : Nat :=
  let input := ((byte >>> j) ^^^ shiftRegister) % 256
  if input &&& BIT0 ≠ 0 then
    let sr1 := (shiftRegister >>> 1) % 256
    let sr2 := (sr1 ||| BIT7) % 256
    (sr2 ^^^ (BIT2 ||| BIT3)) % 256
  else
    (shiftRegister >>> 1) % 256

/-- The inner loop `for(j = 0; j < 8; j++)` of `tsValidateData`. -/
def crcByte (shiftRegister : Nat) (byte : Nat) : Nat :=
  (List.range 8).foldl (crcStep byte) shiftRegister

/-- The outer loop `for(i = 0; i < 9; i++)`: the shift register after all nine bytes. -/
def crcRegister (scrPad : List Nat) : Nat :=
  (List.range 9).foldl (fun sr i => crcByte sr (scrPad.getD i 0)) 0

/-- The function `tsValidateData`: `return (shiftRegister == 0 ? 0 : -1)`. -/
def tsValidateData (sensor : DS18B20) : Int :=
  if crcRegister sensor.scrPad = 0 then 0 else -1

/-! ### The CRC as the specification words it -/

/-- One right shift of the CRC register with the reflected constant `0x8C`. -/
def crc8Shift (c : Nat) : Nat :=
  if c % 2 = 1 then (c >>> 1) ^^^ 0x8C else c >>> 1

/-- Dallas/Maxim CRC-8, one byte: the register is combined with the byte, then
shifted right eight times, the reflected constant `0x8C` being applied whenever
a one is shifted out. -/
def crc8Update (crc : Nat) (byte : Nat) : Nat :=
  (List.range 8).foldl (fun c _ => crc8Shift c) (crc ^^^ byte)

/-- Dallas/Maxim CRC-8 of a byte string, initial register `0`. -/
def crc8Maxim (data : List Nat) : Nat := data.foldl crc8Update 0

/-- Bits of a byte, least significant first. -/
def byteBits (byte : Nat) : List Bool := (List.range 8).map (fun j => byte.testBit j)

/-- One clock of the bit-serial shift register with feedback taps `0x8C`. -/
def lfsrClock (reg : Nat) (bit : Bool) : Nat :=
  if xor bit (reg.testBit 0) then (reg >>> 1) ^^^ 0x8C else reg >>> 1

/-- The bit-serial shift register after a bit string, starting from `0`. -/
def lfsrRun (bits : List Bool) : Nat := bits.foldl lfsrClock 0

/-- A buffer with bit `pos % 8` of byte `pos / 8` inverted. -/
def flipBit (buf : List Nat) (pos : Nat) : List Nat :=
  buf.set (pos / 8) ((buf.getD (pos / 8) 0) ^^^ (1 <<< (pos % 8)))

/-- A payload of eight bytes followed by its CRC byte. -/
def withCrc (payload : List Nat) : List Nat := payload ++ [crc8Maxim payload]

/-- The scratchpad contents used as the example of the DS18B20 data sheet
(85 degrees, power-on alarm values, 12-bit resolution). -/
def dataSheetPad : DS18B20 :=
  ⟨[0x28, 0, 0, 0, 0, 0, 0, 0x1E], [0x50, 0x05, 0x4B, 0x46, 0x7F, 0xFF, 0x0C, 0x10, 0x1C], 0⟩

/-! ## The bus: registers, line events and the attached world -/

/-- Events on the line: what the master does to it and what it samples from it. -/
inductive BusEvent where
  /-- Macro `TS_BUS_L`: the pull-down transistor is switched on. -/
  | driveLow
  /-- Macro `TS_BUS_H`: the line is released. -/
  | release
  /-- Intrinsic `__delay_cycles(cycles)`. -/
  | delay (cycles : Nat)
  /-- A read of `P2IN` through the macro `TS_BUS_IS_LOW` that returned `p2in`. -/
  | sample (p2in : Nat)
  /-- The pulse of one write time slot, `polarity` being the bit sent. -/
  | writeSlot (polarity : Nat)
  /-- The pulse that opens one read time slot. -/
  | readSlot
  /-- The read of `P2IN` that closes a read time slot and returned `p2in`. -/
  | readSample (p2in : Nat)
deriving DecidableEq

/-- The world attached to the line: the value a read of `P2IN` returns after a
given history of events. -/
abbrev World := List BusEvent → Nat

/-- Port 2 output and direction registers, and the history of the line. -/
structure Bus where
  P2OUT : Nat
  P2DIR : Nat
  trace : List BusEvent
deriving DecidableEq

/-- Macro `TS_BUS_L`: `TS_OUT |= TS_OUTBIT`. -/
def TS_BUS_L (bus : Bus) : Bus :=
  { bus with P2OUT := (bus.P2OUT ||| TS_OUTBIT) % 256, trace := bus.trace ++ [.driveLow] }

/-- Macro `TS_BUS_H`: `TS_OUT &= ~TS_OUTBIT`. -/
def TS_BUS_H (bus : Bus) : Bus :=
  { bus with P2OUT := (bus.P2OUT &&& (0xFFFF ^^^ TS_OUTBIT)) % 256,
             trace := bus.trace ++ [.release] }

/-- The intrinsic `__delay_cycles`. -/
def delayCycles (cycles : Nat) (bus : Bus) : Bus :=
  { bus with trace := bus.trace ++ [.delay cycles] }

/-- A read of the input register `TS_BUS` (`P2IN`). -/
def readP2IN (w : World) (bus : Bus) : Nat × Bus :=
  (w bus.trace % 256, { bus with trace := bus.trace ++ [.sample (w bus.trace % 256)] })

/-- Macro `TS_BUS_IS_LOW`: `!(TS_BUS & TS_INBIT)`. -/
def TS_BUS_IS_LOW (w : World) (bus : Bus) : Bool × Bus :=
  (((readP2IN w bus).1 &&& TS_INBIT) == 0, (readP2IN w bus).2)

/-- The function `tsInit`. -/
def tsInit (bus : Bus) : Bus :=
  let bus := TS_BUS_H bus
  let bus := { bus with P2DIR := (bus.P2DIR &&& (0xFFFF ^^^ TS_INBIT)) % 256 }
  { bus with P2DIR := (bus.P2DIR ||| TS_OUTBIT) % 256 }

/-- The function `tsMstRst`. -/
def tsMstRst (w : World) (bus : Bus) : Int × Bus :=
  let bus := TS_BUS_L bus
  let bus := delayCycles TS_RST_DELAY bus
  let bus := TS_BUS_H bus
  let bus := delayCycles TS_60us bus
  if (TS_BUS_IS_LOW w bus).1 then
    (0, delayCycles TS_RST_DELAY (TS_BUS_IS_LOW w bus).2)
  else
    (-1, (TS_BUS_IS_LOW w bus).2)

/-! ### Bit and byte transfer

`tsWriteBit`, `tsReadBit`, `tsWriteByte` and `tsReadData` are declared in
`DS18B20.h`; their bodies are not part of the C sources. -/

/-- Modelled from the spec: the body of `tsWriteBit` is missing. Section 4.3:
drive low, hold for a duration fixed by the polarity, release, wait out the
rest of the time slot. The pulse is one `writeSlot` event carrying the bit; the
line is released when it ends. -/
def tsWriteBit (polarity : Nat) (bus : Bus) : Bus :=
  { bus with P2OUT := (bus.P2OUT &&& (0xFFFF ^^^ TS_OUTBIT)) % 256,
             trace := bus.trace ++ [.writeSlot (if polarity % 256 = 0 then 0 else 1)] }

/-- Modelled from the spec: the body of `tsReadBit` is missing. Section 4.3:
drive low briefly, release, wait a short sampling offset, then sample the line;
a sampled low is bit 0, a sampled high is bit 1. The opening pulse is one
`readSlot` event, the sample a `readSample` event; the line stays released. -/
def tsReadBit (w : World) (bus : Bus) : Nat × Bus :=
  (if (w (bus.trace ++ [.readSlot]) % 256) &&& TS_INBIT = 0 then 0 else 1,
   { bus with P2OUT := (bus.P2OUT &&& (0xFFFF ^^^ TS_OUTBIT)) % 256,
              trace := bus.trace ++ [.readSlot, .readSample (w (bus.trace ++ [.readSlot]) % 256)] })

/-- Modelled from the spec: the body of `tsWriteByte` is missing. Section 4.4:
exactly 8 write-bit calls, least significant bit first; returns the byte. -/
def tsWriteByte (byte : Nat) (bus : Bus) : Nat × Bus :=
  (byte % 256, (List.range 8).foldl (fun b i => tsWriteBit ((byte >>> i) &&& 1) b) bus)

/-- Modelled from the spec: one byte of `tsReadData`, whose body is missing.
Section 4.4: eight read-bit calls packed least significant bit first. -/
def readByte (w : World) (bus : Bus) : Nat × Bus :=
  (List.range 8).foldl
    (fun (st : Nat × Bus) i => (st.1 ||| ((tsReadBit w st.2).1 <<< i), (tsReadBit w st.2).2))
    (0, bus)

/-- Modelled from the spec: the body of `tsReadData` is missing. Section 4.4:
`bufLen` times 8 read-bit calls packed least significant bit first into each
output byte `byte[0]`, ..., `byte[bufLen - 1]`. -/
def tsReadData (w : World) (byte : List Nat) (bufLen : Nat) (bus : Bus) : List Nat × Bus :=
  (List.range bufLen).foldl
    (fun (st : List Nat × Bus) i => (st.1.set i (readByte w st.2).1, (readByte w st.2).2))
    (byte, bus)

/-- The loop `while(!tsReadBit());`, run for at most `fuel` read slots. -/
def waitReady (w : World) : Nat → Bus → Option Bus
  | 0, _ => none
  | fuel + 1, bus =>
    if (tsReadBit w bus).1 ≠ 0 then some (tsReadBit w bus).2
    else waitReady w fuel (tsReadBit w bus).2

/-! ## The driver functions of `DS18B20.c` -/

/-- The function `tsWrite`: the `char` returned by `tsWriteByte` is converted to `int`. -/
def tsWrite (w : World) (byte : Nat) (bus : Bus) : Int × Bus :=
  if (tsMstRst w bus).1 = 0 then
    (((tsWriteByte byte (tsMstRst w bus).2).1 : Nat), (tsWriteByte byte (tsMstRst w bus).2).2)
  else (-1, (tsMstRst w bus).2)

/-- The function `tsGetAddr`. -/
def tsGetAddr (w : World) (sensor : DS18B20) (bus : Bus) : Int × DS18B20 × Bus :=
  if (tsMstRst w bus).1 = 0 then
    let bus := (tsWriteByte READ_ROM (tsMstRst w bus).2).2
    (0, { sensor with addr := (tsReadData w sensor.addr 8 bus).1 },
      (tsReadData w sensor.addr 8 bus).2)
  else (-1, sensor, (tsMstRst w bus).2)

/-- The function `tsMatchAddr` (the handle is passed by value). -/
def tsMatchAddr (sensor : DS18B20) (bus : Bus) : Bus :=
  (List.range 8).foldl (fun b i => (tsWriteByte (sensor.addr.getD i 0) b).2)
    (tsWriteByte MATCH_ROM bus).2

/-- The function `tsConvertTemp`, of return type `void`. -/
def tsConvertTemp (w : World) (bus : Bus) : Unit × Bus :=
  if (tsMstRst w bus).1 = 0 then
    ((), (tsWriteByte CONVERT_T (tsWriteByte SKIP_ROM (tsMstRst w bus).2).2).2)
  else ((), (tsMstRst w bus).2)

/-- The three statements `sensor->temp = 0; sensor->temp |= sensor->scrPad[0];
sensor->temp |= sensor->scrPad[1]<<8;` that close every scratchpad read. -/
def decodeTemp (sensor : DS18B20) : DS18B20 :=
  let sensor := { sensor with temp := 0 }
  let sensor := { sensor with temp := orAssign16 sensor.temp (sensor.scrPad.getD 0 0) }
  { sensor with temp := orAssign16 sensor.temp ((sensor.scrPad.getD 1 0) <<< 8) }

/-- The function `tsReadTemp`; `fuel` bounds the read slots of the ready poll. -/
def tsReadTemp (w : World) (fuel : Nat) (sensor : DS18B20) (bus : Bus) :
    Option (Int × DS18B20 × Bus) :=
  if (tsMstRst w bus).1 = 0 then
    let bus := tsMatchAddr sensor (tsMstRst w bus).2
    let bus := (tsWriteByte CONVERT_T bus).2
    match waitReady w fuel bus with
    | none => none
    | some bus =>
      if (tsMstRst w bus).1 = 0 then
        let bus := tsMatchAddr sensor (tsMstRst w bus).2
        let bus := (tsWriteByte READ_SPAD bus).2
        some (0, decodeTemp { sensor with scrPad := (tsReadData w sensor.scrPad 9 bus).1 },
          (tsReadData w sensor.scrPad 9 bus).2)
      else some (-1, sensor, (tsMstRst w bus).2)
  else some (-1, sensor, (tsMstRst w bus).2)

/-- The function `tsReadTemp_sS`; `fuel` bounds the read slots of the ready poll. -/
def tsReadTemp_sS (w : World) (fuel : Nat) (sensor : DS18B20) (bus : Bus) :
    Option (Int × DS18B20 × Bus) :=
  if (tsMstRst w bus).1 = 0 then
    let bus := (tsWriteByte SKIP_ROM (tsMstRst w bus).2).2
    let bus := (tsWriteByte CONVERT_T bus).2
    match waitReady w fuel bus with
    | none => none
    | some bus =>
      if (tsMstRst w bus).1 = 0 then
        let bus := (tsWriteByte READ_ROM (tsMstRst w bus).2).2
        let sensor1 := { sensor with addr := (tsReadData w sensor.addr 8 bus).1 }
        let bus := (tsReadData w sensor.addr 8 bus).2
        let bus := (tsWriteByte READ_SPAD bus).2
        some (0, decodeTemp { sensor1 with scrPad := (tsReadData w sensor1.scrPad 9 bus).1 },
          (tsReadData w sensor1.scrPad 9 bus).2)
      else some (-1, sensor, (tsMstRst w bus).2)
  else some (-1, sensor, (tsMstRst w bus).2)

/-- The function `tsReadSPad`. -/
def tsReadSPad (w : World) (sensor : DS18B20) (bus : Bus) : Int × DS18B20 × Bus :=
  if (tsMstRst w bus).1 = 0 then
    let bus := tsMatchAddr sensor (tsMstRst w bus).2
    let bus := (tsWriteByte READ_SPAD bus).2
    (0, decodeTemp { sensor with scrPad := (tsReadData w sensor.scrPad 9 bus).1 },
      (tsReadData w sensor.scrPad 9 bus).2)
  else (-1, sensor, (tsMstRst w bus).2)

/-- The function `tsReadSPad_sS`. -/
def tsReadSPad_sS (w : World) (sensor : DS18B20) (bus : Bus) : Int × DS18B20 × Bus :=
  if (tsMstRst w bus).1 = 0 then
    let bus := (tsWriteByte SKIP_ROM (tsMstRst w bus).2).2
    let bus := (tsWriteByte READ_SPAD bus).2
    (0, decodeTemp { sensor with scrPad := (tsReadData w sensor.scrPad 9 bus).1 },
      (tsReadData w sensor.scrPad 9 bus).2)
  else (-1, sensor, (tsMstRst w bus).2)

/-- The statements of `tsWriteSpad` and `tsWriteSpad_sS` that follow the ROM
addressing: the command byte, then each store into the handle followed by the
transmission of the same byte. -/
def writeSpadBody (sensor : DS18B20) (alarmHi alarmLo config : Nat) (bus : Bus) :
    DS18B20 × Bus :=
  let bus := (tsWriteByte WRITE_SPAD bus).2
  let sensor := { sensor with scrPad := sensor.scrPad.set TS_ALARM_HI (alarmHi % 256) }
  let bus := (tsWriteByte alarmHi bus).2
  let sensor := { sensor with scrPad := sensor.scrPad.set TS_ALARM_LO (alarmLo % 256) }
  let bus := (tsWriteByte alarmLo bus).2
  let sensor := { sensor with scrPad := sensor.scrPad.set TS_CONFIG (config % 256) }
  let bus := (tsWriteByte config bus).2
  (sensor, bus)

/-- The function `tsWriteSpad`. -/
def tsWriteSpad (w : World) (sensor : DS18B20) (alarmHi alarmLo config : Nat) (bus : Bus) :
    Int × DS18B20 × Bus :=
  if (tsMstRst w bus).1 = 0 then
    (0, writeSpadBody sensor alarmHi alarmLo config (tsMatchAddr sensor (tsMstRst w bus).2))
  else (-1, sensor, (tsMstRst w bus).2)

/-- The function `tsWriteSpad_sS`. -/
def tsWriteSpad_sS (w : World) (sensor : DS18B20) (alarmHi alarmLo config : Nat) (bus : Bus) :
    Int × DS18B20 × Bus :=
  if (tsMstRst w bus).1 = 0 then
    (0, writeSpadBody sensor alarmHi alarmLo config
      (tsWriteByte SKIP_ROM (tsMstRst w bus).2).2)
  else (-1, sensor, (tsMstRst w bus).2)

/-- The function `tsConfig`. -/
def tsConfig (w : World) (sensor : DS18B20) (config : Nat) (bus : Bus) : Int × DS18B20 × Bus :=
  let r := tsReadSPad w sensor bus
  if r.1 = 0 then
    let r2 := tsWriteSpad w r.2.1 (r.2.1.scrPad.getD TS_ALARM_HI 0)
      (r.2.1.scrPad.getD TS_ALARM_LO 0) config r.2.2
    if r2.1 = 0 then
      (0, { r2.2.1 with scrPad := r2.2.1.scrPad.set TS_CONFIG (config % 256) }, r2.2.2)
    else (-1, r2.2.1, r2.2.2)
  else (-1, r.2.1, r.2.2)

/-- The function `tsConfig_sS`. -/
def tsConfig_sS (w : World) (sensor : DS18B20) (config : Nat) (bus : Bus) :
    Int × DS18B20 × Bus :=
  let r := tsReadSPad_sS w sensor bus
  if r.1 = 0 then
    let r2 := tsWriteSpad_sS w r.2.1 (r.2.1.scrPad.getD TS_ALARM_HI 0)
      (r.2.1.scrPad.getD TS_ALARM_LO 0) config r.2.2
    if r2.1 = 0 then
      (0, { r2.2.1 with scrPad := r2.2.1.scrPad.set TS_CONFIG (config % 256) }, r2.2.2)
    else (-1, r2.2.1, r2.2.2)
  else (-1, r.2.1, r.2.2)

/-- The function `tsSetAlarm`. -/
def tsSetAlarm (w : World) (sensor : DS18B20) (alarmHi alarmLo : Nat) (bus : Bus) :
    Int × DS18B20 × Bus :=
  let r := tsReadSPad w sensor bus
  if r.1 = 0 then
    let r2 := tsWriteSpad w r.2.1 alarmHi alarmLo (r.2.1.scrPad.getD TS_CONFIG 0) r.2.2
    if r2.1 = 0 then (0, r2.2.1, r2.2.2) else (-1, r2.2.1, r2.2.2)
  else (-1, r.2.1, r.2.2)

/-- The function `tsSetAlarm_sS`. -/
def tsSetAlarm_sS (w : World) (sensor : DS18B20) (alarmHi alarmLo : Nat) (bus : Bus) :
    Int × DS18B20 × Bus :=
  let r := tsReadSPad_sS w sensor bus
  if r.1 = 0 then
    let r2 := tsWriteSpad_sS w r.2.1 alarmHi alarmLo (r.2.1.scrPad.getD TS_CONFIG 0) r.2.2
    if r2.1 = 0 then (0, r2.2.1, r2.2.2) else (-1, r2.2.1, r2.2.2)
  else (-1, r.2.1, r.2.2)

/-- The function `tsCopySpad` (the handle is passed by value); `fuel` bounds the
read slots of the ready poll. -/
def tsCopySpad (w : World) (fuel : Nat) (sensor : DS18B20) (bus : Bus) : Option (Int × Bus) :=
  if (tsMstRst w bus).1 = 0 then
    let bus := tsMatchAddr sensor (tsMstRst w bus).2
    let bus := (tsWriteByte COPY_SPAD bus).2
    match waitReady w fuel bus with
    | none => none
    | some bus => some (0, bus)
  else some (-1, (tsMstRst w bus).2)

/-- The function `tsCopySpad_sS` (the handle is passed by value and not used);
`fuel` bounds the read slots of the ready poll. -/
def tsCopySpad_sS (w : World) (fuel : Nat) (_sensor : DS18B20) (bus : Bus) :
    Option (Int × Bus) :=
  if (tsMstRst w bus).1 = 0 then
    let bus := (tsWriteByte SKIP_ROM (tsMstRst w bus).2).2
    let bus := (tsWriteByte COPY_SPAD bus).2
    match waitReady w fuel bus with
    | none => none
    | some bus => some (0, bus)
  else some (-1, (tsMstRst w bus).2)

/-! ## Vocabulary for describing bus transactions -/

/-- The bit that a read slot delivers when its sample of `P2IN` is `p2in`. -/
def bitOf (p2in : Nat) : Nat := if p2in &&& TS_INBIT = 0 then 0 else 1

/-- The write slots of one byte on the line, least significant bit first. -/
def wrEvents (byte : Nat) : List BusEvent :=
  (List.range 8).map (fun i => BusEvent.writeSlot (byte.testBit i).toNat)

/-- The write slots of a sequence of bytes, in order. -/
def wrBytes (bytes : List Nat) : List BusEvent := bytes.flatMap wrEvents

/-- The read slots that sampled the given values of `P2IN`, in order. -/
def rdEvents (samples : List Nat) : List BusEvent :=
  samples.flatMap (fun v => [BusEvent.readSlot, BusEvent.readSample v])

/-- The byte whose bits, least significant first, are those of the samples. -/
def packByte (samples : List Nat) : Nat :=
  samples.foldr (fun v acc => bitOf v + 2 * acc) 0

/-- The `n` bytes delivered by `8 * n` samples, eight samples per byte. -/
def packBytes : Nat → List Nat → List Nat
  | 0, _ => []
  | n + 1, samples => packByte (samples.take 8) :: packBytes n (samples.drop 8)

/-- The reset pulse up to the moment the line is sampled. -/
def resetPulse : List BusEvent :=
  [.driveLow, .delay TS_RST_DELAY, .release, .delay TS_60us]

/-- The events of one call of `tsMstRst` that sampled `p2in`. -/
def resetEvents (p2in : Nat) : List BusEvent :=
  resetPulse ++ [.sample p2in] ++ (if p2in &&& TS_INBIT = 0 then [.delay TS_RST_DELAY] else [])

/-- The values sampled by the presence checks recorded in a history. -/
def presenceSamples (t : List BusEvent) : List Nat :=
  t.filterMap (fun e => match e with
    | .sample v => some v
    | _ => none)

/-- Whether an event is a write or read time slot (or the sample closing one). -/
def isSlotEvent : BusEvent → Bool
  | .writeSlot _ => true
  | .readSlot => true
  | .readSample _ => true
  | _ => false

/-- Whether a ready poll that starts after history `t` ends within `fuel` read
slots: one of them samples the line high. -/
def pollEnds (w : World) : Nat → List BusEvent → Bool
  | 0, _ => false
  | fuel + 1, t =>
    if bitOf (w (t ++ [.readSlot]) % 256) = 1 then true
    else pollEnds w fuel (t ++ [.readSlot, .readSample (w (t ++ [.readSlot]) % 256)])

/-- What a temperature read that returned `r` has done, read off the history:
at most two reset pulses, each sampled once; `-1` exactly when one of the
presence samples is high, with the handle untouched; no time slot at all when
the first sample is high. -/
def FailFastOutcome (sensor : DS18B20) (bus : Bus) (r : Int × DS18B20 × Bus) : Prop :=
  ∃ evs : List BusEvent, r.2.2.trace = bus.trace ++ evs ∧
    evs.count .driveLow ≤ 2 ∧ (presenceSamples evs).length = evs.count .driveLow ∧
    (r.1 = 0 ∨ r.1 = -1) ∧
    (r.1 = -1 ↔ ∃ v ∈ presenceSamples evs, v &&& TS_INBIT ≠ 0) ∧
    (r.1 = 0 → (presenceSamples evs).length = 2) ∧
    (r.1 = -1 → r.2.1 = sensor) ∧
    (∀ v, (presenceSamples evs).head? = some v → v &&& TS_INBIT ≠ 0 →
      ∀ e ∈ evs, isSlotEvent e = false)

/-- The history grew from `bus` to `bus2` by write and read time slots only. -/
def SlotsOnly (bus bus2 : Bus) : Prop :=
  ∃ S : List BusEvent, bus2.trace = bus.trace ++ S ∧ ∀ e ∈ S, isSlotEvent e = true

/-- The status `val` of an operation that took the bus from `bus` to `bus2` is
`-1` exactly when one of the presence samples taken in between was high. -/
def ReportsNoPresence (bus : Bus) (val : Int) (bus2 : Bus) : Prop :=
  ∃ evs : List BusEvent, bus2.trace = bus.trace ++ evs ∧
    (val = -1 ↔ ∃ v ∈ presenceSamples evs, v &&& TS_INBIT ≠ 0)

/-- A bus on which every reset is answered by a presence pulse and whose read
slots deliver the given bits in order, then ones. -/
def simWorld (bits : List Nat) : World := fun h =>
  match h.getLast? with
  | some (.delay _) => 0
  | _ => if bits.getD (h.count .readSlot - 1) 1 = 1 then 0xFF else 0

/-- The register left by the 9-byte buffer whose only set bit is bit `pos % 8`
of byte `pos / 8`. -/
def bitSyndrome (pos : Nat) : Nat :=
  ((List.replicate 9 0).set (pos / 8) (1 <<< (pos % 8))).foldl crc8Update 0

/-- A bus whose line is stuck low: every sample reads 0. -/
def stuckLowWorld : World := fun _ => 0

/-- A bus with nothing attached: the pull-up keeps the line high. -/
def idleWorld : World := fun _ => 0xFF

/-- The 72 bits of the data sheet scratchpad, in transmission order. -/
def dataSheetBits : List Nat := (dataSheetPad.scrPad.flatMap byteBits).map (fun b => b.toNat)

/-- The 16 bits of the bytes `0x91`, `0x01`, in transmission order. -/
def bits401 : List Nat := [1, 0, 0, 0, 1, 0, 0, 1, 1, 0, 0, 0, 0, 0, 0, 0]

/-- The bus before any transaction: registers cleared, empty history. -/
def bus0 : Bus := ⟨0, 0, []⟩

/-- A handle with the data sheet address and an all-zero scratch buffer. -/
def blankHandle : DS18B20 := ⟨dataSheetPad.addr, [0, 0, 0, 0, 0, 0, 0, 0, 0], 0⟩

/-! ## A simulated bus with exactly one device -/

/-- The bits of a byte as numbers, least significant first. -/
def byteBitsNat (b : Nat) : List Nat := (List.range 8).map (fun i => (b.testBit i).toNat)

/-- The bits of a byte sequence in transmission order. -/
def bitsOfBytes (l : List Nat) : List Nat := l.flatMap byteBitsNat

/-- Modelled from the spec: the simulated device of section 8 is not part of the
sources. It has an 8-byte ROM code and a 9-byte scratch buffer holding the last
conversion result (section 3, glossary); `tempLo`, `tempHi` are the two bytes
the next conversion produces, `convTime` the time a conversion takes, `busy`
the time the running conversion still needs (0: none running), `rx` the bits
the master has written since the last reset and `tx` the bits the device still
has to send. -/
structure Device where
  rom : List Nat
  pad : List Nat
  tempLo : Nat
  tempHi : Nat
  convTime : Nat
  busy : Nat
  rx : List Nat
  tx : List Nat
deriving DecidableEq

/-- Modelled from the spec: the simulated device finishes a conversion. The
result goes to bytes 0 and 1 of the scratch buffer and the device computes the
CRC byte itself (section 4.7); bytes 2 to 7 stay. -/
def Device.finish (d : Device) : Device :=
  { d with busy := 0, pad := withCrc ([d.tempLo, d.tempHi] ++ (d.pad.drop 2).take 6) }

/-- Modelled from the spec: the time `t` passes for the simulated device; a
running conversion finishes once the time it still needed has passed. -/
def Device.advance (t : Nat) (d : Device) : Device :=
  if d.busy = 0 then d else if d.busy ≤ t then d.finish else { d with busy := d.busy - t }

/-- Modelled from the spec: the simulated device starts a conversion. -/
def Device.start (d : Device) : Device :=
  if d.convTime = 0 then d.finish else { d with busy := d.convTime }

/-- Modelled from the spec: what the simulated device does when the bits
received since the last reset spell a complete command (sections 4.6, 4.7,
4.9): SkipROM or MatchROM with its own ROM code, followed by
convert-temperature (start a conversion) or read-scratchpad (queue the nine
scratch bytes, least significant bit first). -/
def Device.act (d : Device) : Device :=
  if d.rx = bitsOfBytes [SKIP_ROM, CONVERT_T] ∨
      d.rx = bitsOfBytes (MATCH_ROM :: d.rom ++ [CONVERT_T]) then d.start
  else if d.rx = bitsOfBytes [SKIP_ROM, READ_SPAD] ∨
      d.rx = bitsOfBytes (MATCH_ROM :: d.rom ++ [READ_SPAD]) then
    { d with tx := bitsOfBytes d.pad }
  else d

/-- Modelled from the spec: the bit the simulated device puts on the line when
a read slot is sampled: the next queued bit if there is one; otherwise 0 while
a conversion is running and 1 when none is (section 4.9). -/
def Device.nextBit (d : Device) : Nat :=
  match d.tx with
  | b :: _ => b
  | [] => if d.busy = 0 then 1 else 0

/-- Modelled from the spec: a reset pulse makes the simulated device forget the
bits it has received and the bits it has queued; a running conversion goes on. -/
def Device.clear (d : Device) : Device := { d with rx := [], tx := [] }

/-- Modelled from the spec: the simulated device sees one bus event. The spec
fixes no durations, so the time each event takes is a parameter, `dur`, in the
unit of `convTime`. The event lasts `dur e`, then takes effect: a reset pulse
clears the command state, a write slot delivers one bit, a read slot takes one
queued bit; delays, releases and samples only let time pass. -/
def Device.step (dur : BusEvent → Nat) (d : Device) (e : BusEvent) : Device :=
  match e with
  | .driveLow => (d.advance (dur e)).clear
  | .writeSlot p => ({ d.advance (dur e) with rx := (d.advance (dur e)).rx ++ [p] }).act
  | .readSlot => { d.advance (dur e) with tx := (d.advance (dur e)).tx.tail }
  | _ => d.advance (dur e)

/-- The state of the simulated device after a history of bus events. -/
def devState (dur : BusEvent → Nat) (d0 : Device) (t : List BusEvent) : Device :=
  t.foldl (Device.step dur) d0

/-- Modelled from the spec: the simulated bus with exactly one device, started
in state `d0`, on which each event `e` takes the time `dur e`. The sample that
closes a read slot sees the bit of the device once the opening pulse has
passed; any other sample (the one after a reset pulse) sees the line held low
by the presence pulse of the device (section 4.5). -/
def simDevice (dur : BusEvent → Nat) (d0 : Device) : World := fun h =>
  match h.getLast? with
  | some .readSlot =>
    if ((devState dur d0 h.dropLast).advance (dur .readSlot)).nextBit = 0 then 0 else TS_INBIT
  | _ => 0

/-- The master writes the bits `bs` to the simulated device. -/
def Device.feed (dur : BusEvent → Nat) (d : Device) (bs : List Nat) : Device :=
  bs.foldl (fun e p => Device.step dur e (.writeSlot p)) d

/-- The time a sequence of bus events takes. -/
def elapsed (dur : BusEvent → Nat) (evs : List BusEvent) : Nat := (evs.map dur).sum

/-- The number whose bits, least significant first, are `bs`. -/
def bitsValue (bs : List Nat) : Nat := bs.foldr (fun x acc => x + 2 * acc) 0

/-- A sample clock in CPU cycles: a delay lasts its cycles and a write or read
time slot 70 cycles; the register accesses take no time. -/
def sampleClock : BusEvent → Nat
  | .delay cycles => cycles
  | .writeSlot _ => 70
  | .readSlot => 70
  | _ => 0

/-- The events of `tsReadSPad` up to the end of its read-scratchpad command, on
a bus that answers the reset: reset, MatchROM with the ROM code, `0xBE`. -/
def readCommand (rom : List Nat) : List BusEvent :=
  resetEvents 0 ++ wrBytes (MATCH_ROM :: rom ++ [READ_SPAD])

/-- A simulated device in its idle state: it holds the data sheet scratchpad
(85 degrees), the next conversion gives `0x0191`, and a conversion takes the
time `convTime`. -/
def sampleDevice (convTime : Nat) : Device :=
  ⟨dataSheetPad.addr, dataSheetPad.scrPad, 0x91, 0x01, convTime, 0, [], []⟩

/-- What `tsReadTemp` returns for the blank handle on a bus whose device is
ready at the third read slot and then sends the data sheet scratchpad. -/
def readDataSheet : Int × DS18B20 × Bus :=
  (tsReadTemp (simWorld ([0, 0, 1] ++ dataSheetBits)) 3 blankHandle bus0).getD
    (-1, blankHandle, bus0)

/-- What `tsReadTemp` returns on a bus whose device is present, ready at once,
and then leaves the line high. -/
def readAllOnes : Int × DS18B20 × Bus :=
  (tsReadTemp (simWorld [1]) 1 dataSheetPad bus0).getD (-1, dataSheetPad, bus0)

/-! ## Properties of the CRC check -/

theorem lfsrClock_lt (reg : Nat) (bit : Bool) (h : reg < 256) : lfsrClock reg bit < 256 := by
  have h1 : reg >>> 1 < 2 ^ 8 := by
    rw [Nat.shiftRight_eq_div_pow]; omega
  unfold lfsrClock
  split
  · exact Nat.xor_lt_two_pow h1 (by norm_num)
  · exact h1

theorem crcStep_eq_lfsrClock (byte sr j : Nat) (h : sr < 256) :
    crcStep byte sr j = lfsrClock sr (byte.testBit j) := by
  have hc : ((((byte >>> j) ^^^ sr) % 256) &&& BIT0 ≠ 0) ↔
      xor (byte.testBit j) (sr.testBit 0) = true := by
    have e : ∀ x : Nat, (x &&& BIT0 ≠ 0) ↔ x.testBit 0 = true := by
      intro x
      rw [BIT0, Nat.and_one_is_mod, Nat.testBit_zero]
      simp
    have h256 : (256 : Nat) = 2 ^ 8 := by norm_num
    rw [e, h256, Nat.testBit_mod_two_pow, Nat.testBit_xor, Nat.testBit_shiftRight]
    simp
  have hv : ∀ s < 256, ((((s >>> 1) % 256 ||| BIT7) % 256) ^^^ (BIT2 ||| BIT3)) % 256
      = (s >>> 1) ^^^ 0x8C ∧ (s >>> 1) % 256 = s >>> 1 := by decide!
  unfold crcStep lfsrClock
  simp only [hc]
  split
  · exact (hv sr h).1
  · exact (hv sr h).2

theorem foldl_lfsrClock_lt (bits : List Bool) (reg : Nat) (h : reg < 256) :
    bits.foldl lfsrClock reg < 256 := by
  induction bits generalizing reg with
  | nil => simpa using h
  | cons b bs ih => exact ih _ (lfsrClock_lt reg b h)

theorem crcByte_eq_lfsr (sr byte : Nat) (h : sr < 256) :
    crcByte sr byte = (byteBits byte).foldl lfsrClock sr := by
  have key : ∀ n, (List.range n).foldl (crcStep byte) sr
      = ((List.range n).map (fun j => byte.testBit j)).foldl lfsrClock sr := by
    intro n
    induction n with
    | zero => simp
    | succ n ih =>
      rw [List.range_succ, List.foldl_append, List.map_append, List.foldl_append, ih]
      simp only [List.foldl_cons, List.foldl_nil, List.map_cons, List.map_nil]
      exact crcStep_eq_lfsrClock _ _ _ (foldl_lfsrClock_lt _ _ h)
  exact key 8

theorem crcByte_lt (sr byte : Nat) (h : sr < 256) : crcByte sr byte < 256 := by
  rw [crcByte_eq_lfsr sr byte h]
  exact foldl_lfsrClock_lt _ _ h

/-- The byte-wise update of the specification, run for `n` shifts, is the
bit-serial register run on the low `n` bits, combined with the unconsumed bits. -/
theorem specShifts_eq_lfsr (n s b : Nat) :
    (List.range n).foldl (fun c _ => crc8Shift c) (s ^^^ b)
      = ((List.range n).map (fun j => b.testBit j)).foldl lfsrClock s ^^^ (b >>> n) := by
  induction n with
  | zero => simp
  | succ n ih =>
    rw [List.range_succ, List.foldl_append, List.map_append, List.foldl_append, ih]
    simp only [List.foldl_cons, List.foldl_nil, List.map_cons, List.map_nil]
    generalize ((List.range n).map (fun j => b.testBit j)).foldl lfsrClock s = r
    have hbit : ((r ^^^ b >>> n) % 2 = 1) ↔ xor (b.testBit n) (r.testBit 0) = true := by
      have e : ∀ x : Nat, (x % 2 = 1) ↔ x.testBit 0 = true := by
        intro x; rw [Nat.testBit_zero]; simp
      rw [e, Nat.testBit_xor, Nat.testBit_shiftRight]
      simp [Bool.xor_comm]
    have hsh : (r ^^^ b >>> n) >>> 1 = (r >>> 1) ^^^ (b >>> (n + 1)) := by
      apply Nat.eq_of_testBit_eq
      intro i
      simp [Nat.testBit_xor, Nat.testBit_shiftRight, Nat.add_comm, Nat.add_left_comm]
    unfold lfsrClock crc8Shift
    simp only [hbit, hsh]
    split
    · apply Nat.eq_of_testBit_eq
      intro i
      simp only [Nat.testBit_xor]
      cases (r >>> 1).testBit i <;> cases (b >>> (n + 1)).testBit i <;>
        cases (140 : Nat).testBit i <;> rfl
    · rfl

theorem crc8Update_eq_lfsr (crc byte : Nat) (hb : byte < 256) :
    crc8Update crc byte = (byteBits byte).foldl lfsrClock crc := by
  have h := specShifts_eq_lfsr 8 crc byte
  have hz : byte >>> 8 = 0 := by
    rw [Nat.shiftRight_eq_div_pow]; omega
  rw [hz, Nat.xor_zero] at h
  exact h

theorem crcByte_eq_crc8Update (sr byte : Nat) (h : sr < 256) (hb : byte < 256) :
    crcByte sr byte = crc8Update sr byte := by
  rw [crcByte_eq_lfsr sr byte h, crc8Update_eq_lfsr sr byte hb]

theorem foldl_range_getD {α : Type} (f : α → Nat → α) (l : List Nat) (d : Nat) (a : α) :
    (List.range l.length).foldl (fun sr i => f sr (l.getD i d)) a = l.foldl f a := by
  have hm : (List.range l.length).map (fun i => l.getD i d) = l := by
    apply List.ext_getElem
    · simp
    · intro n h1 h2
      simp [List.getD_eq_getElem?_getD, List.getElem?_eq_getElem h2]
  conv_rhs => rw [← hm]
  rw [List.foldl_map]

theorem crcRegister_eq_foldl (scrPad : List Nat) (hlen : scrPad.length = 9) :
    crcRegister scrPad = scrPad.foldl crcByte 0 := by
  unfold crcRegister
  rw [← hlen]
  exact foldl_range_getD crcByte scrPad 0 0

theorem foldl_crcByte_eq_lfsr (l : List Nat) (sr : Nat) (h : sr < 256) :
    l.foldl crcByte sr = (l.flatMap byteBits).foldl lfsrClock sr := by
  induction l generalizing sr with
  | nil => simp
  | cons b bs ih =>
    rw [List.foldl_cons, List.flatMap_cons, List.foldl_append, ih _ (crcByte_lt sr b h),
      crcByte_eq_lfsr sr b h]

theorem foldl_crcByte_eq_crc8 (l : List Nat) (sr : Nat) (h : sr < 256)
    (hb : ∀ b ∈ l, b < 256) :
    l.foldl crcByte sr = l.foldl crc8Update sr ∧ l.foldl crcByte sr < 256 := by
  induction l generalizing sr with
  | nil => simpa using h
  | cons b bs ih =>
    have hb0 : b < 256 := hb b (List.mem_cons_self _ _)
    have hbs : ∀ x ∈ bs, x < 256 := fun x hx => hb x (List.mem_cons_of_mem _ hx)
    have h1 := ih (crcByte sr b) (crcByte_lt sr b h) hbs
    rw [List.foldl_cons, List.foldl_cons, ← crcByte_eq_crc8Update sr b h hb0]
    exact h1

theorem crc8Update_eq_zero_iff (crc byte : Nat) (hc : crc < 256) (hb : byte < 256) :
    crc8Update crc byte = 0 ↔ crc = byte := by
  have hx : crc ^^^ byte < 2 ^ 8 := Nat.xor_lt_two_pow hc hb
  have hd : ∀ d < 256, (crc8Update d 0 = 0 ↔ d = 0) := by decide!
  have e : crc8Update crc byte = crc8Update (crc ^^^ byte) 0 := by
    simp [crc8Update]
  rw [e, hd _ hx, Nat.xor_eq_zero]

theorem byteBits_length (b : Nat) : (byteBits b).length = 8 := by
  simp [byteBits]

theorem flatMap_byteBits_length (l : List Nat) : (l.flatMap byteBits).length = 8 * l.length := by
  induction l with
  | nil => simp
  | cons b bs ih =>
    rw [List.flatMap_cons, List.length_append, ih, byteBits_length, List.length_cons]
    omega

/-- The register of the C loops and the byte-wise CRC of the first eight bytes. -/
theorem crcRegister_eq_zero_iff (scrPad : List Nat) (hlen : scrPad.length = 9)
    (hbytes : ∀ b ∈ scrPad, b < 256) :
    crcRegister scrPad = 0 ↔ crc8Maxim (scrPad.take 8) = scrPad.getD 8 0 := by
  have hsplit : scrPad = scrPad.take 8 ++ [scrPad.getD 8 0] := by
    have h8 : 8 < scrPad.length := by omega
    have hd : scrPad.drop 8 = [scrPad.getD 8 0] := by
      rw [List.drop_eq_getElem_cons h8, List.drop_of_length_le (by omega)]
      simp [List.getD_eq_getElem?_getD, List.getElem?_eq_getElem h8]
    conv_lhs => rw [← List.take_append_drop 8 scrPad, hd]
  have htake : ∀ b ∈ scrPad.take 8, b < 256 := fun b hb => hbytes b (List.mem_of_mem_take hb)
  have hlast : scrPad.getD 8 0 < 256 := by
    have h8 : 8 < scrPad.length := by omega
    rw [List.getD_eq_getElem?_getD, List.getElem?_eq_getElem h8]
    exact hbytes _ (List.getElem_mem _)
  have h1 := foldl_crcByte_eq_crc8 (scrPad.take 8) 0 (by norm_num) htake
  rw [crcRegister_eq_foldl scrPad hlen]
  conv_lhs => rw [hsplit]
  rw [List.foldl_append, List.foldl_cons, List.foldl_nil,
    crcByte_eq_crc8Update _ _ h1.2 hlast, h1.1]
  exact crc8Update_eq_zero_iff _ _ (h1.1 ▸ h1.2) hlast

theorem tsValidateData_eq_zero_iff (sensor : DS18B20) :
    tsValidateData sensor = 0 ↔ crcRegister sensor.scrPad = 0 := by
  unfold tsValidateData
  split <;> simp_all

theorem tsValidateData_eq_neg_one_iff (sensor : DS18B20) :
    tsValidateData sensor = -1 ↔ crcRegister sensor.scrPad ≠ 0 := by
  unfold tsValidateData
  split <;> simp_all

/-- C1: on every 9-byte scratch buffer `tsValidateData` returns `0` exactly when
the Dallas/Maxim CRC-8 of bytes 0..7 equals byte 8 and `-1` exactly when it does
not; and it returns `0` exactly when the bit-serial shift register is zero after
the 72 bits of the nine bytes, each byte taken least significant bit first. -/
theorem tsValidateData_crc8 (sensor : DS18B20) (hlen : sensor.scrPad.length = 9)
    (hbytes : ∀ b ∈ sensor.scrPad, b < 256) :
    (tsValidateData sensor = 0 ↔
        crc8Maxim (sensor.scrPad.take 8) = sensor.scrPad.getD 8 0) ∧
    (tsValidateData sensor = -1 ↔
        crc8Maxim (sensor.scrPad.take 8) ≠ sensor.scrPad.getD 8 0) ∧
    (sensor.scrPad.flatMap byteBits).length = 72 ∧
    (tsValidateData sensor = 0 ↔ lfsrRun (sensor.scrPad.flatMap byteBits) = 0) := by
  have h := crcRegister_eq_zero_iff sensor.scrPad hlen hbytes
  refine ⟨?_, ?_, ?_, ?_⟩
  · rw [tsValidateData_eq_zero_iff, h]
  · rw [tsValidateData_eq_neg_one_iff, Ne, h]
  · rw [flatMap_byteBits_length, hlen]
  · rw [tsValidateData_eq_zero_iff, crcRegister_eq_foldl _ hlen,
      foldl_crcByte_eq_lfsr _ 0 (by norm_num)]
    rfl

/-- Witness for C1 on the scratchpad example of the DS18B20 data sheet. -/
theorem tsValidateData_crc8_witness :
    dataSheetPad.scrPad.length = 9 ∧ (∀ b ∈ dataSheetPad.scrPad, b < 256) ∧
    ((tsValidateData dataSheetPad = 0 ↔
        crc8Maxim (dataSheetPad.scrPad.take 8) = dataSheetPad.scrPad.getD 8 0) ∧
    (tsValidateData dataSheetPad = -1 ↔
        crc8Maxim (dataSheetPad.scrPad.take 8) ≠ dataSheetPad.scrPad.getD 8 0) ∧
    (dataSheetPad.scrPad.flatMap byteBits).length = 72 ∧
    (tsValidateData dataSheetPad = 0 ↔ lfsrRun (dataSheetPad.scrPad.flatMap byteBits) = 0)) :=
  ⟨by decide, by decide, tsValidateData_crc8 dataSheetPad (by decide) (by decide)⟩

/-! ### Linearity of the CRC register and single-bit errors -/

theorem crc8Shift_xor (x y : Nat) : crc8Shift (x ^^^ y) = crc8Shift x ^^^ crc8Shift y := by
  have e : ∀ c : Nat, crc8Shift c = (c >>> 1) ^^^ (if c.testBit 0 then 0x8C else 0) := by
    intro c
    unfold crc8Shift
    rw [Nat.testBit_zero]
    by_cases h : c % 2 = 1 <;> simp [h]
  rw [e, e, e]
  apply Nat.eq_of_testBit_eq
  intro i
  simp only [Nat.testBit_xor, Nat.testBit_shiftRight]
  cases x.testBit 0 <;> cases y.testBit 0 <;> simp <;>
    cases x.testBit (1 + i) <;> cases y.testBit (1 + i) <;> simp

theorem crc8Shifts_xor (n x y : Nat) :
    (List.range n).foldl (fun c _ => crc8Shift c) (x ^^^ y)
      = (List.range n).foldl (fun c _ => crc8Shift c) x
        ^^^ (List.range n).foldl (fun c _ => crc8Shift c) y := by
  induction n with
  | zero => simp
  | succ n ih =>
    simp only [List.range_succ, List.foldl_append, List.foldl_cons, List.foldl_nil, ih,
      crc8Shift_xor]

theorem crc8Update_xor (s1 s2 b1 b2 : Nat) :
    crc8Update (s1 ^^^ s2) (b1 ^^^ b2) = crc8Update s1 b1 ^^^ crc8Update s2 b2 := by
  unfold crc8Update
  rw [← crc8Shifts_xor]
  congr 1
  apply Nat.eq_of_testBit_eq
  intro i
  simp only [Nat.testBit_xor]
  cases s1.testBit i <;> cases s2.testBit i <;> cases b1.testBit i <;> cases b2.testBit i <;> rfl

theorem foldl_crc8Update_xor_state (l : List Nat) (u v : Nat) :
    l.foldl crc8Update (u ^^^ v)
      = l.foldl crc8Update u ^^^ (List.replicate l.length 0).foldl crc8Update v := by
  induction l generalizing u v with
  | nil => simp
  | cons b bs ih =>
    have h := crc8Update_xor u v b 0
    rw [Nat.xor_zero] at h
    simp only [List.foldl_cons, List.length_cons, List.replicate_succ, h, ih]

theorem crc8Update_zero_zero : crc8Update 0 0 = 0 := by decide

/-- Inverting bits `m` of byte `k` changes the register by the register of the
error pattern alone. -/
theorem foldl_crc8Update_set (l : List Nat) (k m s : Nat) (hk : k < l.length) :
    (l.set k (l.getD k 0 ^^^ m)).foldl crc8Update s
      = l.foldl crc8Update s
        ^^^ ((List.replicate l.length 0).set k m).foldl crc8Update 0 := by
  induction l generalizing k s with
  | nil => simp at hk
  | cons b bs ih =>
    cases k with
    | zero =>
      have h := crc8Update_xor s 0 b m
      rw [Nat.xor_zero] at h
      simp only [List.set_cons_zero, List.foldl_cons, List.getD_cons_zero, List.length_cons,
        List.replicate_succ, h]
      exact foldl_crc8Update_xor_state bs _ _
    | succ k =>
      have hk2 : k < bs.length := by simpa using hk
      simp only [List.set_cons_succ, List.foldl_cons, List.getD_cons_succ, List.length_cons,
        List.replicate_succ, crc8Update_zero_zero]
      exact ih k (crc8Update s b) hk2

theorem crcRegister_eq_crc8 (buf : List Nat) (hlen : buf.length = 9)
    (hbytes : ∀ b ∈ buf, b < 256) : crcRegister buf = buf.foldl crc8Update 0 := by
  rw [crcRegister_eq_foldl buf hlen]
  exact (foldl_crcByte_eq_crc8 buf 0 (by norm_num) hbytes).1

theorem crc8Maxim_lt (data : List Nat) (h : ∀ b ∈ data, b < 256) : crc8Maxim data < 256 := by
  have h1 := foldl_crcByte_eq_crc8 data 0 (by norm_num) h
  unfold crc8Maxim
  rw [← h1.1]
  exact h1.2

theorem flipBit_length (buf : List Nat) (pos : Nat) : (flipBit buf pos).length = buf.length := by
  simp [flipBit]

theorem flipBit_bytes (buf : List Nat) (pos : Nat) (hbytes : ∀ b ∈ buf, b < 256)
    (hpos : pos / 8 < buf.length) : ∀ b ∈ flipBit buf pos, b < 256 := by
  intro b hb
  rcases List.mem_or_eq_of_mem_set hb with h | h
  · exact hbytes b h
  · have h1 : buf.getD (pos / 8) 0 < 2 ^ 8 := by
      rw [List.getD_eq_getElem?_getD, List.getElem?_eq_getElem hpos]
      exact hbytes _ (List.getElem_mem _)
    have h2 : 1 <<< (pos % 8) < 2 ^ 8 := by
      have h3 : pos % 8 < 8 := Nat.mod_lt _ (by norm_num)
      have h4 : ∀ k < 8, 1 <<< k < 2 ^ 8 := by decide
      exact h4 _ h3
    rw [h]
    exact Nat.xor_lt_two_pow h1 h2

/-- The register left by a single inverted bit in an all-zero buffer is never zero. -/
theorem singleBit_syndrome_ne_zero : ∀ pos < 72,
    ((List.replicate 9 0).set (pos / 8) (1 <<< (pos % 8))).foldl crc8Update 0 ≠ 0 := by
  decide!

/-- Inverting one bit of a buffer the check accepts gives a buffer it rejects. -/
theorem crcRegister_flipBit_ne_zero (buf : List Nat) (hlen : buf.length = 9)
    (hbytes : ∀ b ∈ buf, b < 256) (hok : crcRegister buf = 0) (pos : Nat) (hpos : pos < 72) :
    crcRegister (flipBit buf pos) ≠ 0 := by
  have hk : pos / 8 < buf.length := by omega
  rw [crcRegister_eq_crc8 _ (by rw [flipBit_length, hlen]) (flipBit_bytes buf pos hbytes hk)]
  rw [crcRegister_eq_crc8 buf hlen hbytes] at hok
  unfold flipBit
  rw [foldl_crc8Update_set buf _ _ 0 hk, hok, Nat.zero_xor, hlen]
  exact singleBit_syndrome_ne_zero pos hpos

theorem crcRegister_withCrc (payload : List Nat) (hlen : payload.length = 8)
    (hbytes : ∀ b ∈ payload, b < 256) :
    (withCrc payload).length = 9 ∧ (∀ b ∈ withCrc payload, b < 256) ∧
      crcRegister (withCrc payload) = 0 := by
  have h9 : (withCrc payload).length = 9 := by simp [withCrc, hlen]
  have hb : ∀ b ∈ withCrc payload, b < 256 := by
    intro b hb
    rcases List.mem_append.mp hb with h | h
    · exact hbytes b h
    · rw [List.mem_singleton.mp h]
      exact crc8Maxim_lt payload hbytes
  refine ⟨h9, hb, ?_⟩
  rw [crcRegister_eq_zero_iff _ h9 hb]
  have ht : (withCrc payload).take 8 = payload := by
    unfold withCrc
    rw [← hlen, List.take_left]
  have hg : (withCrc payload).getD 8 0 = crc8Maxim payload := by
    unfold withCrc
    rw [List.getD_eq_getElem?_getD, List.getElem?_append_right (by omega)]
    simp [hlen]
  rw [ht, hg]

/-- C2: a buffer made of any eight payload bytes followed by their correctly
computed CRC-8 byte is accepted by `tsValidateData` (result `0`), and inverting
any single one of its 72 bits gives a buffer that is rejected (result `-1`). -/
theorem tsValidateData_single_bit_error (addr : List Nat) (temp : Int) (payload : List Nat)
    (hlen : payload.length = 8) (hbytes : ∀ b ∈ payload, b < 256)
    (pos : Nat) (hpos : pos < 72) :
    tsValidateData ⟨addr, withCrc payload, temp⟩ = 0 ∧
    tsValidateData ⟨addr, flipBit (withCrc payload) pos, temp⟩ = -1 := by
  obtain ⟨h9, hb, h0⟩ := crcRegister_withCrc payload hlen hbytes
  constructor
  · rw [tsValidateData_eq_zero_iff]
    exact h0
  · rw [tsValidateData_eq_neg_one_iff]
    exact crcRegister_flipBit_ne_zero _ h9 hb h0 pos hpos

/-- Witness for C2: the data sheet payload with bit 5 of byte 4 inverted. -/
theorem tsValidateData_single_bit_error_witness :
    ([0x50, 0x05, 0x4B, 0x46, 0x7F, 0xFF, 0x0C, 0x10] : List Nat).length = 8 ∧
    (∀ b ∈ ([0x50, 0x05, 0x4B, 0x46, 0x7F, 0xFF, 0x0C, 0x10] : List Nat), b < 256) ∧
    37 < 72 ∧
    tsValidateData ⟨[], withCrc [0x50, 0x05, 0x4B, 0x46, 0x7F, 0xFF, 0x0C, 0x10], 0⟩ = 0 ∧
    tsValidateData ⟨[], flipBit (withCrc [0x50, 0x05, 0x4B, 0x46, 0x7F, 0xFF, 0x0C, 0x10]) 37, 0⟩
      = -1 :=
  ⟨by decide, by decide, by decide,
   tsValidateData_single_bit_error [] 0 [0x50, 0x05, 0x4B, 0x46, 0x7F, 0xFF, 0x0C, 0x10]
     (by decide) (by decide) 37 (by decide)⟩

/-! ## Temperature decoding -/

theorem bits16_ofNat (n : Nat) (h : n < 32768) : bits16 (n : Int) = n := by
  unfold bits16
  have h1 : ((n : Int) % 65536) = (n : Int) := Int.emod_eq_of_lt (by omega) (by omega)
  rw [h1]
  simp

theorem toInt16_small (n : Nat) (h : n < 32768) : toInt16 n = (n : Int) := by
  unfold toInt16
  have h1 : n % 65536 = n := Nat.mod_eq_of_lt (by omega)
  rw [h1, if_pos h]

/-- The three decoding statements build the little-endian 16-bit value. -/
theorem decodeTemp_eq (sensor : DS18B20) (h0 : sensor.scrPad.getD 0 0 < 256)
    (h1 : sensor.scrPad.getD 1 0 < 256) :
    decodeTemp sensor = { sensor with
      temp := toInt16 (sensor.scrPad.getD 0 0 + 256 * sensor.scrPad.getD 1 0) } := by
  unfold decodeTemp
  simp only
  congr 1
  generalize sensor.scrPad.getD 0 0 = b0 at h0
  generalize sensor.scrPad.getD 1 0 = b1 at h1
  have e1 : orAssign16 0 b0 = (b0 : Int) := by
    unfold orAssign16
    have : bits16 0 = 0 := by decide
    rw [this, Nat.zero_or, Nat.mod_eq_of_lt (by omega), toInt16_small b0 (by omega)]
  rw [e1]
  unfold orAssign16
  rw [bits16_ofNat b0 (by omega)]
  have e2 : (b1 <<< 8) % 65536 = 2 ^ 8 * b1 := by
    rw [Nat.shiftLeft_eq, Nat.mod_eq_of_lt (by omega)]; ring
  have e3 : b0 ||| 2 ^ 8 * b1 = b0 + 256 * b1 := by
    rw [Nat.or_comm, ← Nat.mul_add_lt_is_or (by simpa using h0) b1]; ring
  rw [e2, e3]

theorem toInt16_neg_of_high (b0 b1 : Nat) (h0 : b0 < 256) (h1 : b1 < 256) (hh : 0x80 ≤ b1) :
    toInt16 (b0 + 256 * b1) < 0 := by
  unfold toInt16
  have h2 : (b0 + 256 * b1) % 65536 = b0 + 256 * b1 := Nat.mod_eq_of_lt (by omega)
  rw [h2, if_neg (by omega)]
  omega

/-! ## Traces of the bus primitives -/

theorem tsMstRst_val (w : World) (bus : Bus) :
    (tsMstRst w bus).1 =
      if (w (bus.trace ++ resetPulse) % 256) &&& TS_INBIT = 0 then 0 else -1 := by
  simp only [tsMstRst, TS_BUS_IS_LOW, readP2IN, delayCycles, TS_BUS_H, TS_BUS_L, resetPulse,
    List.append_assoc, List.cons_append, List.nil_append, beq_iff_eq]
  split <;> rfl

theorem tsMstRst_trace (w : World) (bus : Bus) :
    (tsMstRst w bus).2.trace =
      bus.trace ++ resetEvents (w (bus.trace ++ resetPulse) % 256) := by
  simp only [tsMstRst, TS_BUS_IS_LOW, readP2IN, delayCycles, TS_BUS_H, TS_BUS_L, resetPulse,
    resetEvents, List.append_assoc, List.cons_append, List.nil_append, beq_iff_eq]
  split <;> rfl

theorem tsMstRst_val_cases (w : World) (bus : Bus) :
    (tsMstRst w bus).1 = 0 ∨ (tsMstRst w bus).1 = -1 := by
  rw [tsMstRst_val]
  split
  · exact Or.inl rfl
  · exact Or.inr rfl

theorem tsWriteBit_trace (p : Nat) (bus : Bus) :
    (tsWriteBit p bus).trace = bus.trace ++ [.writeSlot (if p % 256 = 0 then 0 else 1)] := rfl

theorem tsWriteByte_trace (byte : Nat) (bus : Bus) :
    (tsWriteByte byte bus).2.trace = bus.trace ++ wrEvents byte := by
  have key : ∀ n, ((List.range n).foldl (fun b i => tsWriteBit ((byte >>> i) &&& 1) b) bus).trace
      = bus.trace ++ (List.range n).map (fun i => BusEvent.writeSlot (byte.testBit i).toNat) := by
    intro n
    induction n with
    | zero => simp
    | succ n ih =>
      rw [List.range_succ, List.foldl_append, List.map_append, List.foldl_cons, List.foldl_nil,
        tsWriteBit_trace, ih, List.append_assoc]
      congr 2
      simp only [List.map_cons, List.map_nil, List.cons.injEq, and_true, BusEvent.writeSlot.injEq]
      have hb : (byte >>> n) &&& 1 = (byte.testBit n).toNat := by
        rw [Nat.and_one_is_mod, Nat.shiftRight_eq_div_pow, Nat.toNat_testBit]
      rw [hb]
      cases byte.testBit n <;> rfl
  exact key 8

theorem tsWriteByte_val (byte : Nat) (bus : Bus) : (tsWriteByte byte bus).1 = byte % 256 := rfl

theorem foldl_tsWriteByte_trace (l : List Nat) (bus : Bus) :
    (l.foldl (fun b x => (tsWriteByte x b).2) bus).trace = bus.trace ++ wrBytes l := by
  induction l generalizing bus with
  | nil => simp [wrBytes]
  | cons x xs ih =>
    rw [List.foldl_cons, ih, tsWriteByte_trace, List.append_assoc]
    simp [wrBytes]

theorem range_map_getD (l : List Nat) (d : Nat) :
    (List.range l.length).map (fun i => l.getD i d) = l := by
  apply List.ext_getElem
  · simp
  · intro n h1 h2
    simp [List.getD_eq_getElem?_getD, List.getElem?_eq_getElem h2]

theorem tsMatchAddr_trace (sensor : DS18B20) (bus : Bus) (h : sensor.addr.length = 8) :
    (tsMatchAddr sensor bus).trace = bus.trace ++ wrBytes (MATCH_ROM :: sensor.addr) := by
  unfold tsMatchAddr
  have e : (List.range 8).foldl (fun b i => (tsWriteByte (sensor.addr.getD i 0) b).2)
        (tsWriteByte MATCH_ROM bus).2
      = (((List.range 8).map (fun i => sensor.addr.getD i 0)).foldl
          (fun b x => (tsWriteByte x b).2) (tsWriteByte MATCH_ROM bus).2) := by
    rw [List.foldl_map]
  rw [e, ← h, range_map_getD, foldl_tsWriteByte_trace, tsWriteByte_trace, List.append_assoc]
  simp [wrBytes]

theorem rdEvents_append (a b : List Nat) : rdEvents (a ++ b) = rdEvents a ++ rdEvents b := by
  simp [rdEvents]

theorem tsReadBit_val (w : World) (bus : Bus) :
    (tsReadBit w bus).1 = bitOf (w (bus.trace ++ [.readSlot]) % 256) := rfl

theorem tsReadBit_trace (w : World) (bus : Bus) :
    (tsReadBit w bus).2.trace = bus.trace ++ rdEvents [w (bus.trace ++ [.readSlot]) % 256] := by
  simp [tsReadBit, rdEvents]

theorem bitOf_le_one (v : Nat) : bitOf v ≤ 1 := by
  unfold bitOf; split <;> omega

theorem packByte_append (a : List Nat) (v : Nat) :
    packByte (a ++ [v]) = packByte a + 2 ^ a.length * bitOf v := by
  induction a with
  | nil => simp [packByte]
  | cons x xs ih =>
    have e : ∀ l : List Nat, packByte (x :: l) = bitOf x + 2 * packByte l := fun _ => rfl
    rw [List.cons_append, e, e, ih, List.length_cons, pow_succ]
    ring

theorem packByte_lt (a : List Nat) : packByte a < 2 ^ a.length := by
  induction a with
  | nil => simp [packByte]
  | cons x xs ih =>
    have e : packByte (x :: xs) = bitOf x + 2 * packByte xs := rfl
    have h1 := bitOf_le_one x
    rw [e, List.length_cons, pow_succ]
    omega

/-- Eight read slots deliver the byte packed from their samples. -/
theorem readByte_spec (w : World) (bus : Bus) :
    ∃ samples : List Nat, samples.length = 8 ∧
      (readByte w bus).2.trace = bus.trace ++ rdEvents samples ∧
      (readByte w bus).1 = packByte samples := by
  have key : ∀ n, ∃ samples : List Nat, samples.length = n ∧
      ((List.range n).foldl (fun (st : Nat × Bus) i =>
          (st.1 ||| ((tsReadBit w st.2).1 <<< i), (tsReadBit w st.2).2)) (0, bus)).2.trace
        = bus.trace ++ rdEvents samples ∧
      ((List.range n).foldl (fun (st : Nat × Bus) i =>
          (st.1 ||| ((tsReadBit w st.2).1 <<< i), (tsReadBit w st.2).2)) (0, bus)).1
        = packByte samples := by
    intro n
    induction n with
    | zero => exact ⟨[], rfl, by simp [rdEvents], by simp [packByte]⟩
    | succ n ih =>
      obtain ⟨samples, hlen, htr, hval⟩ := ih
      rw [List.range_succ, List.foldl_append, List.foldl_cons, List.foldl_nil]
      generalize (List.range n).foldl (fun (st : Nat × Bus) i =>
          (st.1 ||| ((tsReadBit w st.2).1 <<< i), (tsReadBit w st.2).2)) (0, bus) = st at htr hval
      refine ⟨samples ++ [w (st.2.trace ++ [.readSlot]) % 256], by simp [hlen], ?_, ?_⟩
      · simp only [tsReadBit_trace, htr, rdEvents_append, List.append_assoc]
      · simp only [tsReadBit_val]
        rw [packByte_append, hval, hlen, Nat.shiftLeft_eq, Nat.or_comm, Nat.mul_comm,
          ← Nat.mul_add_lt_is_or (by rw [← hlen]; exact packByte_lt samples)]
        ring
  exact key 8

theorem readByte_lt (w : World) (bus : Bus) : (readByte w bus).1 < 256 := by
  obtain ⟨samples, hlen, _, hval⟩ := readByte_spec w bus
  rw [hval]
  have h := packByte_lt samples
  rw [hlen] at h
  exact h

theorem packBytes_length (n : Nat) (samples : List Nat) : (packBytes n samples).length = n := by
  induction n generalizing samples with
  | zero => rfl
  | succ n ih => simp [packBytes, ih]

theorem packBytes_lt (n : Nat) (samples : List Nat) : ∀ b ∈ packBytes n samples, b < 256 := by
  induction n generalizing samples with
  | zero => intro b hb; simp [packBytes] at hb
  | succ n ih =>
    intro b hb
    simp only [packBytes, List.mem_cons] at hb
    rcases hb with h | h
    · have h1 := packByte_lt (samples.take 8)
      have h2 : (samples.take 8).length ≤ 8 := by simp
      have h3 : 2 ^ (samples.take 8).length ≤ 2 ^ 8 := Nat.pow_le_pow_right (by norm_num) h2
      rw [h]; omega
    · exact ih _ b h

theorem packBytes_append (n : Nat) (a b : List Nat) (ha : a.length = 8 * n) :
    packBytes (n + 1) (a ++ b) = packBytes n a ++ [packByte (b.take 8)] := by
  induction n generalizing a with
  | zero =>
    have h0 : a = [] := List.eq_nil_of_length_eq_zero (by simpa using ha)
    subst h0
    simp [packBytes]
  | succ n ih =>
    have h8 : 8 ≤ a.length := by omega
    have e1 : packBytes (n + 1 + 1) (a ++ b)
        = packByte ((a ++ b).take 8) :: packBytes (n + 1) ((a ++ b).drop 8) := rfl
    have e2 : packBytes (n + 1) a = packByte (a.take 8) :: packBytes n (a.drop 8) := rfl
    rw [e1, e2, List.take_append_of_le_length h8, List.drop_append_of_le_length h8,
      ih (a.drop 8) (by rw [List.length_drop]; omega)]
    rfl

/-- Reading `n` bytes into a buffer of `n` bytes: `8 * n` read slots, and the
buffer receives the bytes packed from their samples, in order. -/
theorem tsReadData_spec (w : World) (buf : List Nat) (bus : Bus) :
    ∃ samples : List Nat, samples.length = 8 * buf.length ∧
      (tsReadData w buf buf.length bus).2.trace = bus.trace ++ rdEvents samples ∧
      (tsReadData w buf buf.length bus).1 = packBytes buf.length samples := by
  have key : ∀ n, n ≤ buf.length → ∃ samples : List Nat, samples.length = 8 * n ∧
      ((List.range n).foldl (fun (st : List Nat × Bus) i =>
          (st.1.set i (readByte w st.2).1, (readByte w st.2).2)) (buf, bus)).2.trace
        = bus.trace ++ rdEvents samples ∧
      ((List.range n).foldl (fun (st : List Nat × Bus) i =>
          (st.1.set i (readByte w st.2).1, (readByte w st.2).2)) (buf, bus)).1
        = packBytes n samples ++ buf.drop n := by
    intro n
    induction n with
    | zero => intro _; exact ⟨[], rfl, by simp [rdEvents], by simp [packBytes]⟩
    | succ n ih =>
      intro hn
      obtain ⟨samples, hlen, htr, hval⟩ := ih (by omega)
      rw [List.range_succ, List.foldl_append, List.foldl_cons, List.foldl_nil]
      generalize (List.range n).foldl (fun (st : List Nat × Bus) i =>
          (st.1.set i (readByte w st.2).1, (readByte w st.2).2)) (buf, bus) = st at htr hval
      obtain ⟨s8, h8, htr8, hval8⟩ := readByte_spec w st.2
      refine ⟨samples ++ s8, by simp [hlen, h8]; omega, ?_, ?_⟩
      · simp only [htr8, htr, rdEvents_append, List.append_assoc]
      · simp only [hval, hval8]
        have hl : (packBytes n samples).length ≤ n := le_of_eq (packBytes_length n samples)
        rw [List.set_append_right n _ hl, packBytes_length, Nat.sub_self,
          List.drop_eq_getElem_cons (show n < buf.length by omega), List.set_cons_zero,
          packBytes_append n samples s8 hlen, List.append_assoc, List.singleton_append]
        have ht : s8.take 8 = s8 := List.take_of_length_le (le_of_eq h8)
        rw [ht]
  obtain ⟨samples, hlen, htr, hval⟩ := key buf.length le_rfl
  refine ⟨samples, hlen, htr, ?_⟩
  rw [tsReadData, hval, List.drop_length, List.append_nil]

/-- The ready poll, when it ends: read slots that all delivered 0, then one
that delivered 1. -/
theorem waitReady_spec (w : World) (fuel : Nat) (bus bus2 : Bus)
    (h : waitReady w fuel bus = some bus2) :
    ∃ (zeros : List Nat) (last : Nat), zeros.length < fuel ∧
      (∀ z ∈ zeros, bitOf z = 0) ∧ bitOf last = 1 ∧
      bus2.trace = bus.trace ++ rdEvents (zeros ++ [last]) := by
  induction fuel generalizing bus with
  | zero => simp [waitReady] at h
  | succ fuel ih =>
    unfold waitReady at h
    by_cases hb : (tsReadBit w bus).1 ≠ 0
    · rw [if_pos hb] at h
      have h2 : (tsReadBit w bus).2 = bus2 := Option.some.inj h
      refine ⟨[], w (bus.trace ++ [.readSlot]) % 256, by simp, by simp, ?_, ?_⟩
      · rw [tsReadBit_val] at hb
        have := bitOf_le_one (w (bus.trace ++ [.readSlot]) % 256)
        omega
      · rw [← h2, tsReadBit_trace]; rfl
    · rw [if_neg hb] at h
      obtain ⟨zeros, last, hz, hall, hlast, htr⟩ := ih _ h
      refine ⟨(w (bus.trace ++ [.readSlot]) % 256) :: zeros, last, by simp; omega, ?_, hlast, ?_⟩
      · intro z hz
        rcases List.mem_cons.mp hz with h1 | h1
        · rw [h1, ← tsReadBit_val]
          simpa using hb
        · exact hall z h1
      · rw [htr, tsReadBit_trace, List.append_assoc, ← rdEvents_append]
        rfl

/-! ## Scratchpad reads and the temperature field -/

theorem tsReadData_nine (w : World) (buf : List Nat) (bus : Bus) (hlen : buf.length = 9) :
    ∃ samples : List Nat, samples.length = 72 ∧
      (tsReadData w buf 9 bus).2.trace = bus.trace ++ rdEvents samples ∧
      (tsReadData w buf 9 bus).1 = packBytes 9 samples := by
  have h := tsReadData_spec w buf bus
  rw [hlen] at h
  exact h

theorem getD_lt_of_all_lt (l : List Nat) (i : Nat) (h : ∀ b ∈ l, b < 256) : l.getD i 0 < 256 := by
  rw [List.getD_eq_getElem?_getD]
  by_cases hi : i < l.length
  · rw [List.getElem?_eq_getElem hi]
    exact h _ (List.getElem_mem _)
  · rw [List.getElem?_eq_none (by omega)]
    simp

/-- The handle after the read-and-decode tail shared by the four scratchpad reads. -/
theorem decode_after_read (w : World) (s : DS18B20) (bus : Bus) (hlen : s.scrPad.length = 9)
    (s2 : DS18B20) (hs : s2 = decodeTemp { s with scrPad := (tsReadData w s.scrPad 9 bus).1 }) :
    s2.temp = toInt16 (s2.scrPad.getD 0 0 + 256 * s2.scrPad.getD 1 0) ∧
    s2.scrPad.getD 0 0 < 256 ∧ s2.scrPad.getD 1 0 < 256 ∧
    (s2.scrPad.getD 0 0 = 0x91 → s2.scrPad.getD 1 0 = 0x01 → s2.temp = 401) ∧
    (0x80 ≤ s2.scrPad.getD 1 0 → s2.temp < 0) := by
  obtain ⟨samples, _, _, hval⟩ := tsReadData_nine w s.scrPad bus hlen
  have hb := packBytes_lt 9 samples
  rw [← hval] at hb
  have h0 := getD_lt_of_all_lt _ 0 hb
  have h1 := getD_lt_of_all_lt _ 1 hb
  have e := decodeTemp_eq { s with scrPad := (tsReadData w s.scrPad 9 bus).1 } h0 h1
  rw [← hs] at e
  have hpad : s2.scrPad = (tsReadData w s.scrPad 9 bus).1 := by rw [e]
  have htemp : s2.temp = toInt16 (s2.scrPad.getD 0 0 + 256 * s2.scrPad.getD 1 0) := by
    rw [hpad]; rw [e]
  rw [← hpad] at h0 h1
  refine ⟨htemp, h0, h1, ?_, ?_⟩
  · intro ha hb2
    rw [htemp, ha, hb2]
    decide
  · intro hh
    rw [htemp]
    exact toInt16_neg_of_high _ _ h0 h1 hh

/-- C3: whenever `tsReadSPad`, `tsReadSPad_sS`, `tsReadTemp` or `tsReadTemp_sS`
returns `0`, the `temp` field of the handle is the 16-bit two's-complement value
with low byte `scrPad[0]` and high byte `scrPad[1]`, whatever `temp` held
before; the bytes `0x91`, `0x01` give `401`, and a high byte of `0x80` or more
gives a negative `temp`. -/
theorem scratchpad_read_sets_temp (w : World) (fuel : Nat) (sensor : DS18B20) (bus : Bus)
    (hlen : sensor.scrPad.length = 9) (r : Int × DS18B20 × Bus)
    (hr : r = tsReadSPad w sensor bus ∨ r = tsReadSPad_sS w sensor bus ∨
      tsReadTemp w fuel sensor bus = some r ∨ tsReadTemp_sS w fuel sensor bus = some r)
    (h0 : r.1 = 0) :
    r.2.1.temp = toInt16 (r.2.1.scrPad.getD 0 0 + 256 * r.2.1.scrPad.getD 1 0) ∧
    r.2.1.scrPad.getD 0 0 < 256 ∧ r.2.1.scrPad.getD 1 0 < 256 ∧
    (r.2.1.scrPad.getD 0 0 = 0x91 → r.2.1.scrPad.getD 1 0 = 0x01 → r.2.1.temp = 401) ∧
    (0x80 ≤ r.2.1.scrPad.getD 1 0 → r.2.1.temp < 0) := by
  rcases hr with hr | hr | hr | hr
  · unfold tsReadSPad at hr
    by_cases h1 : (tsMstRst w bus).1 = 0
    · rw [if_pos h1] at hr
      exact decode_after_read w sensor _ hlen r.2.1 (by rw [hr])
    · rw [if_neg h1] at hr
      rw [hr] at h0
      simp at h0
  · unfold tsReadSPad_sS at hr
    by_cases h1 : (tsMstRst w bus).1 = 0
    · rw [if_pos h1] at hr
      exact decode_after_read w sensor _ hlen r.2.1 (by rw [hr])
    · rw [if_neg h1] at hr
      rw [hr] at h0
      simp at h0
  · unfold tsReadTemp at hr
    by_cases h1 : (tsMstRst w bus).1 = 0
    · rw [if_pos h1] at hr
      simp only at hr
      split at hr
      · exact absurd hr (by simp)
      · rename_i b2 _
        by_cases h2 : (tsMstRst w b2).1 = 0
        · rw [if_pos h2] at hr
          have hr2 := Option.some.inj hr
          exact decode_after_read w sensor _ hlen r.2.1 (by rw [← hr2])
        · rw [if_neg h2] at hr
          have hr2 := Option.some.inj hr
          rw [← hr2] at h0
          simp at h0
    · rw [if_neg h1] at hr
      have hr2 := Option.some.inj hr
      rw [← hr2] at h0
      simp at h0
  · unfold tsReadTemp_sS at hr
    by_cases h1 : (tsMstRst w bus).1 = 0
    · rw [if_pos h1] at hr
      simp only at hr
      split at hr
      · exact absurd hr (by simp)
      · rename_i b2 _
        by_cases h2 : (tsMstRst w b2).1 = 0
        · rw [if_pos h2] at hr
          have hr2 := Option.some.inj hr
          exact decode_after_read w
            { sensor with addr := (tsReadData w sensor.addr 8
                (tsWriteByte READ_ROM (tsMstRst w b2).2).2).1 } _ hlen r.2.1 (by rw [← hr2])
        · rw [if_neg h2] at hr
          have hr2 := Option.some.inj hr
          rw [← hr2] at h0
          simp at h0
    · rw [if_neg h1] at hr
      have hr2 := Option.some.inj hr
      rw [← hr2] at h0
      simp at h0

/-- Witness for C3: a device that answers the reset and sends `0x91`, `0x01`. -/
theorem scratchpad_read_sets_temp_witness :
    dataSheetPad.scrPad.length = 9 ∧
    (tsReadSPad (simWorld bits401) dataSheetPad bus0).1 = 0 ∧
    (tsReadSPad (simWorld bits401) dataSheetPad bus0).2.1.temp = 401 :=
  ⟨by decide, by decide!,
   (scratchpad_read_sets_temp (simWorld bits401) 0 dataSheetPad bus0 (by decide)
      (tsReadSPad (simWorld bits401) dataSheetPad bus0) (Or.inl rfl) (by decide!)).2.2.2.1
      (by decide!) (by decide!)⟩

/-! ## Reset and presence detection -/

/-- C4: `tsMstRst` samples the line exactly once, after the reset pulse and the
release-and-settle wait; it returns `0` exactly when that sample is low and `-1`
exactly when it is high, with no second pulse; on a bus that answers every
reset pulse, two resets issued back to back both return `0`. -/
theorem tsMstRst_presence (w : World) (bus : Bus) :
    (tsMstRst w bus).2.trace =
      bus.trace ++ resetPulse ++ [.sample (w (bus.trace ++ resetPulse) % 256)] ++
        (if (w (bus.trace ++ resetPulse) % 256) &&& TS_INBIT = 0
          then [.delay TS_RST_DELAY] else []) ∧
    presenceSamples (resetEvents (w (bus.trace ++ resetPulse) % 256))
      = [w (bus.trace ++ resetPulse) % 256] ∧
    ((tsMstRst w bus).1 = 0 ↔ (w (bus.trace ++ resetPulse) % 256) &&& TS_INBIT = 0) ∧
    ((tsMstRst w bus).1 = -1 ↔ (w (bus.trace ++ resetPulse) % 256) &&& TS_INBIT ≠ 0) ∧
    ((∀ h, (w (h ++ resetPulse) % 256) &&& TS_INBIT = 0) →
      (tsMstRst w bus).1 = 0 ∧ (tsMstRst w (tsMstRst w bus).2).1 = 0) := by
  refine ⟨?_, ?_, ?_, ?_, ?_⟩
  · rw [tsMstRst_trace, resetEvents]
    simp only [List.append_assoc]
  · unfold resetEvents presenceSamples resetPulse
    split <;> rfl
  · rw [tsMstRst_val]
    split <;> simp_all
  · rw [tsMstRst_val]
    split <;> simp_all
  · intro h
    constructor
    · rw [tsMstRst_val, if_pos (h _)]
    · rw [tsMstRst_val, if_pos (h _)]

/-- Witness for C4: a bus that answers every reset pulse. -/
theorem tsMstRst_presence_witness :
    (∀ h, (simWorld [] (h ++ resetPulse) % 256) &&& TS_INBIT = 0) ∧
    (tsMstRst (simWorld []) bus0).1 = 0 ∧
    (tsMstRst (simWorld []) (tsMstRst (simWorld []) bus0).2).1 = 0 :=
  ⟨fun h => by simp [simWorld, resetPulse],
   (tsMstRst_presence (simWorld []) bus0).2.2.2.2 (fun h => by simp [simWorld, resetPulse])⟩

/-! ## Shape of histories -/

theorem presenceSamples_append (a b : List BusEvent) :
    presenceSamples (a ++ b) = presenceSamples a ++ presenceSamples b := by
  simp [presenceSamples]

theorem slots_no_reset (S : List BusEvent) (h : ∀ e ∈ S, isSlotEvent e = true) :
    S.count .driveLow = 0 ∧ presenceSamples S = [] := by
  induction S with
  | nil => exact ⟨rfl, rfl⟩
  | cons e es ih =>
    have he := h e (List.mem_cons_self _ _)
    have ih2 := ih (fun x hx => h x (List.mem_cons_of_mem _ hx))
    cases e <;> simp_all [isSlotEvent, presenceSamples]

theorem wrEvents_slots (b : Nat) : ∀ e ∈ wrEvents b, isSlotEvent e = true := by
  intro e he
  simp only [wrEvents, List.mem_map] at he
  obtain ⟨i, _, rfl⟩ := he
  rfl

theorem wrBytes_slots (l : List Nat) : ∀ e ∈ wrBytes l, isSlotEvent e = true := by
  intro e he
  simp only [wrBytes, List.mem_flatMap] at he
  obtain ⟨b, _, hb⟩ := he
  exact wrEvents_slots b e hb

theorem rdEvents_slots (l : List Nat) : ∀ e ∈ rdEvents l, isSlotEvent e = true := by
  intro e he
  simp only [rdEvents, List.mem_flatMap] at he
  obtain ⟨b, _, hb⟩ := he
  simp only [List.mem_cons, List.mem_singleton] at hb
  rcases hb with rfl | rfl | hb
  · rfl
  · rfl
  · simp at hb

theorem slots_append (a b : List BusEvent) (ha : ∀ e ∈ a, isSlotEvent e = true)
    (hb : ∀ e ∈ b, isSlotEvent e = true) : ∀ e ∈ a ++ b, isSlotEvent e = true := by
  intro e he
  rcases List.mem_append.mp he with h | h
  · exact ha e h
  · exact hb e h

theorem resetEvents_count (v : Nat) : (resetEvents v).count .driveLow = 1 := by
  unfold resetEvents resetPulse
  split <;> simp

theorem resetEvents_presence (v : Nat) : presenceSamples (resetEvents v) = [v] := by
  unfold resetEvents resetPulse presenceSamples
  split <;> rfl

theorem resetEvents_not_slot (v : Nat) : ∀ e ∈ resetEvents v, isSlotEvent e = false := by
  intro e he
  unfold resetEvents resetPulse at he
  split at he <;> simp at he <;> rcases he with rfl | rfl | rfl | rfl | he <;>
    first | rfl | (rcases he with rfl | rfl <;> rfl)

theorem wrBytes_append (a b : List Nat) : wrBytes (a ++ b) = wrBytes a ++ wrBytes b := by
  simp [wrBytes]

theorem wrBytes_singleton (b : Nat) : wrBytes [b] = wrEvents b := by
  simp [wrBytes]

/-! ## The ready poll -/

theorem waitReady_none_iff (w : World) (fuel : Nat) (bus : Bus) :
    waitReady w fuel bus = none ↔ pollEnds w fuel bus.trace = false := by
  induction fuel generalizing bus with
  | zero => simp [waitReady, pollEnds]
  | succ fuel ih =>
    unfold waitReady pollEnds
    have hle := bitOf_le_one (w (bus.trace ++ [.readSlot]) % 256)
    by_cases hb : bitOf (w (bus.trace ++ [.readSlot]) % 256) = 1
    · have hb2 : (tsReadBit w bus).1 ≠ 0 := by rw [tsReadBit_val, hb]; decide
      rw [if_pos hb2, if_pos hb]
      simp
    · have hb2 : ¬ (tsReadBit w bus).1 ≠ 0 := by rw [tsReadBit_val]; omega
      rw [if_neg hb2, if_neg hb, ih]
      rfl

theorem waitReady_mono (w : World) (fuel fuel2 : Nat) (bus b2 : Bus) (hle : fuel ≤ fuel2)
    (h : waitReady w fuel bus = some b2) : waitReady w fuel2 bus = some b2 := by
  induction fuel generalizing bus fuel2 with
  | zero => simp [waitReady] at h
  | succ fuel ih =>
    cases fuel2 with
    | zero => omega
    | succ fuel2 =>
      unfold waitReady at h ⊢
      by_cases hb : (tsReadBit w bus).1 ≠ 0
      · rw [if_pos hb] at h ⊢
        exact h
      · rw [if_neg hb] at h ⊢
        exact ih _ _ (by omega) h

/-! ## The temperature reads, path by path -/

theorem tsMstRst_zero_iff (w : World) (bus : Bus) :
    (tsMstRst w bus).1 = 0 ↔ (w (bus.trace ++ resetPulse) % 256) &&& TS_INBIT = 0 := by
  rw [tsMstRst_val]
  split <;> simp_all

theorem tsMstRst_neg_of_ne (w : World) (bus : Bus) (h : ¬ (tsMstRst w bus).1 = 0) :
    (tsMstRst w bus).1 = -1 := by
  rcases tsMstRst_val_cases w bus with h1 | h1
  · exact absurd h1 h
  · exact h1

/-- Every way `tsReadTemp` can return, with the history it leaves. -/
theorem tsReadTemp_cases (w : World) (fuel : Nat) (sensor : DS18B20) (bus : Bus)
    (r : Int × DS18B20 × Bus) (haddr : sensor.addr.length = 8)
    (hpad : sensor.scrPad.length = 9) (hr : tsReadTemp w fuel sensor bus = some r) :
    ∃ v1, v1 = w (bus.trace ++ resetPulse) % 256 ∧
      ((v1 &&& TS_INBIT ≠ 0 ∧ r.1 = -1 ∧ r.2.1 = sensor ∧
          r.2.2.trace = bus.trace ++ resetEvents v1) ∨
       (v1 &&& TS_INBIT = 0 ∧ ∃ (zeros : List Nat) (last v2 : Nat),
          zeros.length < fuel ∧ (∀ z ∈ zeros, bitOf z = 0) ∧ bitOf last = 1 ∧
          ((v2 &&& TS_INBIT ≠ 0 ∧ r.1 = -1 ∧ r.2.1 = sensor ∧
              r.2.2.trace = bus.trace ++ resetEvents v1 ++
                wrBytes (MATCH_ROM :: sensor.addr ++ [CONVERT_T]) ++
                rdEvents (zeros ++ [last]) ++ resetEvents v2) ∨
           (v2 &&& TS_INBIT = 0 ∧ r.1 = 0 ∧ ∃ samples : List Nat, samples.length = 72 ∧
              r.2.1 = decodeTemp { sensor with scrPad := packBytes 9 samples } ∧
              r.2.2.trace = bus.trace ++ resetEvents v1 ++
                wrBytes (MATCH_ROM :: sensor.addr ++ [CONVERT_T]) ++
                rdEvents (zeros ++ [last]) ++ resetEvents v2 ++
                wrBytes (MATCH_ROM :: sensor.addr ++ [READ_SPAD]) ++ rdEvents samples)))) := by
  refine ⟨_, rfl, ?_⟩
  unfold tsReadTemp at hr
  by_cases h1 : (tsMstRst w bus).1 = 0
  · right
    rw [if_pos h1] at hr
    simp only at hr
    refine ⟨(tsMstRst_zero_iff w bus).mp h1, ?_⟩
    cases hw : waitReady w fuel (tsWriteByte CONVERT_T (tsMatchAddr sensor (tsMstRst w bus).2)).2 with
    | none => rw [hw] at hr; simp at hr
    | some b2 =>
      rw [hw] at hr
      simp only at hr
      obtain ⟨zeros, last, hz, hall, hlast, htr⟩ := waitReady_spec _ _ _ _ hw
      have hb2 : b2.trace = bus.trace ++ resetEvents (w (bus.trace ++ resetPulse) % 256) ++
          wrBytes (MATCH_ROM :: sensor.addr ++ [CONVERT_T]) ++ rdEvents (zeros ++ [last]) := by
        rw [htr, tsWriteByte_trace, tsMatchAddr_trace _ _ haddr, tsMstRst_trace, wrBytes_append,
          wrBytes_singleton]
        simp only [List.append_assoc]
      refine ⟨zeros, last, w (b2.trace ++ resetPulse) % 256, hz, hall, hlast, ?_⟩
      by_cases h2 : (tsMstRst w b2).1 = 0
      · right
        rw [if_pos h2] at hr
        have hr2 := Option.some.inj hr
        obtain ⟨samples, hlen, htr9, hval9⟩ := tsReadData_nine w sensor.scrPad
          (tsWriteByte READ_SPAD (tsMatchAddr sensor (tsMstRst w b2).2)).2 hpad
        refine ⟨(tsMstRst_zero_iff w b2).mp h2, by rw [← hr2], samples, hlen, ?_, ?_⟩
        · rw [← hr2, ← hval9]
        · rw [← hr2]
          simp only
          rw [htr9, tsWriteByte_trace, tsMatchAddr_trace _ _ haddr, tsMstRst_trace, hb2,
            wrBytes_append, wrBytes_singleton, wrBytes_append, wrBytes_singleton]
          simp only [List.append_assoc]
      · left
        rw [if_neg h2] at hr
        have hr2 := Option.some.inj hr
        refine ⟨fun h => h2 ((tsMstRst_zero_iff w b2).mpr h), by rw [← hr2], by rw [← hr2], ?_⟩
        rw [← hr2]
        simp only
        rw [tsMstRst_trace, hb2]
  · left
    rw [if_neg h1] at hr
    have hr2 := Option.some.inj hr
    refine ⟨fun h => h1 ((tsMstRst_zero_iff w bus).mpr h), by rw [← hr2], by rw [← hr2], ?_⟩
    rw [← hr2]
    simp only
    rw [tsMstRst_trace]

theorem tsReadData_eight (w : World) (buf : List Nat) (bus : Bus) (hlen : buf.length = 8) :
    ∃ samples : List Nat, samples.length = 64 ∧
      (tsReadData w buf 8 bus).2.trace = bus.trace ++ rdEvents samples ∧
      (tsReadData w buf 8 bus).1 = packBytes 8 samples := by
  have h := tsReadData_spec w buf bus
  rw [hlen] at h
  exact h

/-- Every way `tsReadTemp_sS` can return, with the history it leaves. -/
theorem tsReadTemp_sS_cases (w : World) (fuel : Nat) (sensor : DS18B20) (bus : Bus)
    (r : Int × DS18B20 × Bus) (haddr : sensor.addr.length = 8)
    (hpad : sensor.scrPad.length = 9) (hr : tsReadTemp_sS w fuel sensor bus = some r) :
    ∃ v1, v1 = w (bus.trace ++ resetPulse) % 256 ∧
      ((v1 &&& TS_INBIT ≠ 0 ∧ r.1 = -1 ∧ r.2.1 = sensor ∧
          r.2.2.trace = bus.trace ++ resetEvents v1) ∨
       (v1 &&& TS_INBIT = 0 ∧ ∃ (zeros : List Nat) (last v2 : Nat),
          zeros.length < fuel ∧ (∀ z ∈ zeros, bitOf z = 0) ∧ bitOf last = 1 ∧
          ((v2 &&& TS_INBIT ≠ 0 ∧ r.1 = -1 ∧ r.2.1 = sensor ∧
              r.2.2.trace = bus.trace ++ resetEvents v1 ++ wrBytes [SKIP_ROM, CONVERT_T] ++
                rdEvents (zeros ++ [last]) ++ resetEvents v2) ∨
           (v2 &&& TS_INBIT = 0 ∧ r.1 = 0 ∧ ∃ s8 s9 : List Nat,
              s8.length = 64 ∧ s9.length = 72 ∧
              r.2.1 = decodeTemp { sensor with addr := packBytes 8 s8,
                                               scrPad := packBytes 9 s9 } ∧
              r.2.2.trace = bus.trace ++ resetEvents v1 ++ wrBytes [SKIP_ROM, CONVERT_T] ++
                rdEvents (zeros ++ [last]) ++ resetEvents v2 ++
                wrBytes [READ_ROM] ++ rdEvents s8 ++ wrBytes [READ_SPAD] ++ rdEvents s9)))) := by
  refine ⟨_, rfl, ?_⟩
  unfold tsReadTemp_sS at hr
  by_cases h1 : (tsMstRst w bus).1 = 0
  · right
    rw [if_pos h1] at hr
    simp only at hr
    refine ⟨(tsMstRst_zero_iff w bus).mp h1, ?_⟩
    cases hw : waitReady w fuel
        (tsWriteByte CONVERT_T (tsWriteByte SKIP_ROM (tsMstRst w bus).2).2).2 with
    | none => rw [hw] at hr; simp at hr
    | some b2 =>
      rw [hw] at hr
      simp only at hr
      obtain ⟨zeros, last, hz, hall, hlast, htr⟩ := waitReady_spec _ _ _ _ hw
      have hcmd : wrBytes [SKIP_ROM, CONVERT_T] = wrEvents SKIP_ROM ++ wrEvents CONVERT_T := by
        simp [wrBytes]
      have hb2 : b2.trace = bus.trace ++ resetEvents (w (bus.trace ++ resetPulse) % 256) ++
          wrBytes [SKIP_ROM, CONVERT_T] ++ rdEvents (zeros ++ [last]) := by
        rw [htr, tsWriteByte_trace, tsWriteByte_trace, tsMstRst_trace, hcmd]
        simp only [List.append_assoc]
      refine ⟨zeros, last, w (b2.trace ++ resetPulse) % 256, hz, hall, hlast, ?_⟩
      by_cases h2 : (tsMstRst w b2).1 = 0
      · right
        rw [if_pos h2] at hr
        have hr2 := Option.some.inj hr
        obtain ⟨s8, hlen8, htr8, hval8⟩ := tsReadData_eight w sensor.addr
          (tsWriteByte READ_ROM (tsMstRst w b2).2).2 haddr
        obtain ⟨s9, hlen9, htr9, hval9⟩ := tsReadData_nine w sensor.scrPad
          (tsWriteByte READ_SPAD
            (tsReadData w sensor.addr 8 (tsWriteByte READ_ROM (tsMstRst w b2).2).2).2).2 hpad
        refine ⟨(tsMstRst_zero_iff w b2).mp h2, by rw [← hr2], s8, s9, hlen8, hlen9, ?_, ?_⟩
        · rw [← hr2, ← hval9, ← hval8]
        · rw [← hr2]
          simp only
          rw [htr9, tsWriteByte_trace, htr8, tsWriteByte_trace, tsMstRst_trace, hb2,
            wrBytes_singleton, wrBytes_singleton]
      · left
        rw [if_neg h2] at hr
        have hr2 := Option.some.inj hr
        refine ⟨fun h => h2 ((tsMstRst_zero_iff w b2).mpr h), by rw [← hr2], by rw [← hr2], ?_⟩
        rw [← hr2]
        simp only
        rw [tsMstRst_trace, hb2]
  · left
    rw [if_neg h1] at hr
    have hr2 := Option.some.inj hr
    refine ⟨fun h => h1 ((tsMstRst_zero_iff w bus).mpr h), by rw [← hr2], by rw [← hr2], ?_⟩
    rw [← hr2]
    simp only
    rw [tsMstRst_trace]

/-! ## Fail-fast behaviour of the temperature reads -/

theorem outcome_first_fail (sensor : DS18B20) (bus : Bus) (r : Int × DS18B20 × Bus) (v1 : Nat)
    (hv1 : v1 &&& TS_INBIT ≠ 0) (h1 : r.1 = -1) (hs : r.2.1 = sensor)
    (ht : r.2.2.trace = bus.trace ++ resetEvents v1) : FailFastOutcome sensor bus r := by
  refine ⟨resetEvents v1, ht, ?_, ?_, Or.inr h1, ?_, ?_, fun _ => hs, ?_⟩
  · rw [resetEvents_count]; omega
  · rw [resetEvents_count, resetEvents_presence]; rfl
  · rw [resetEvents_presence]
    exact ⟨fun _ => ⟨v1, by simp, hv1⟩, fun _ => h1⟩
  · intro h0; rw [h1] at h0; exact absurd h0 (by decide)
  · intro _ _ _
    exact resetEvents_not_slot v1

theorem outcome_second_fail (sensor : DS18B20) (bus : Bus) (r : Int × DS18B20 × Bus)
    (v1 v2 : Nat) (S1 : List BusEvent) (hS1 : ∀ e ∈ S1, isSlotEvent e = true)
    (hv1 : v1 &&& TS_INBIT = 0) (hv2 : v2 &&& TS_INBIT ≠ 0) (h1 : r.1 = -1)
    (hs : r.2.1 = sensor)
    (ht : r.2.2.trace = bus.trace ++ resetEvents v1 ++ S1 ++ resetEvents v2) :
    FailFastOutcome sensor bus r := by
  have hc := slots_no_reset S1 hS1
  have hcount : (resetEvents v1 ++ S1 ++ resetEvents v2).count .driveLow = 2 := by
    rw [List.count_append, List.count_append, resetEvents_count, resetEvents_count, hc.1]
  have hpres : presenceSamples (resetEvents v1 ++ S1 ++ resetEvents v2) = [v1, v2] := by
    rw [presenceSamples_append, presenceSamples_append, resetEvents_presence,
      resetEvents_presence, hc.2]
    rfl
  refine ⟨resetEvents v1 ++ S1 ++ resetEvents v2, by rw [ht]; simp only [List.append_assoc],
    by omega, by rw [hcount, hpres]; rfl, Or.inr h1, ?_, ?_, fun _ => hs, ?_⟩
  · rw [hpres]
    exact ⟨fun _ => ⟨v2, by simp, hv2⟩, fun _ => h1⟩
  · intro h0; rw [h1] at h0; exact absurd h0 (by decide)
  · intro v hv hne
    rw [hpres] at hv
    have : v1 = v := by simpa using hv
    rw [← this] at hne
    exact absurd hv1 hne

theorem outcome_ok (sensor : DS18B20) (bus : Bus) (r : Int × DS18B20 × Bus)
    (v1 v2 : Nat) (S1 S2 : List BusEvent) (hS1 : ∀ e ∈ S1, isSlotEvent e = true)
    (hS2 : ∀ e ∈ S2, isSlotEvent e = true)
    (hv1 : v1 &&& TS_INBIT = 0) (hv2 : v2 &&& TS_INBIT = 0) (h0 : r.1 = 0)
    (ht : r.2.2.trace = bus.trace ++ resetEvents v1 ++ S1 ++ resetEvents v2 ++ S2) :
    FailFastOutcome sensor bus r := by
  have hc1 := slots_no_reset S1 hS1
  have hc2 := slots_no_reset S2 hS2
  have hcount : (resetEvents v1 ++ S1 ++ resetEvents v2 ++ S2).count .driveLow = 2 := by
    rw [List.count_append, List.count_append, List.count_append, resetEvents_count,
      resetEvents_count, hc1.1, hc2.1]
  have hpres : presenceSamples (resetEvents v1 ++ S1 ++ resetEvents v2 ++ S2) = [v1, v2] := by
    rw [presenceSamples_append, presenceSamples_append, presenceSamples_append,
      resetEvents_presence, resetEvents_presence, hc1.2, hc2.2]
    rfl
  refine ⟨resetEvents v1 ++ S1 ++ resetEvents v2 ++ S2,
    by rw [ht]; simp only [List.append_assoc],
    by omega, by rw [hcount, hpres]; rfl, Or.inl h0, ?_, ?_, ?_, ?_⟩
  · rw [hpres]
    constructor
    · intro h1; rw [h0] at h1; exact absurd h1 (by decide)
    · rintro ⟨v, hv, hne⟩
      simp only [List.mem_cons, List.mem_singleton, List.not_mem_nil, or_false] at hv
      rcases hv with rfl | rfl
      · exact absurd hv1 hne
      · exact absurd hv2 hne
  · intro _; rw [hpres]; rfl
  · intro h1; rw [h0] at h1; exact absurd h1 (by decide)
  · intro v hv hne
    rw [hpres] at hv
    have : v1 = v := by simpa using hv
    rw [← this] at hne
    exact absurd hv1 hne

theorem tsReadTemp_outcome (w : World) (fuel : Nat) (sensor : DS18B20) (bus : Bus)
    (r : Int × DS18B20 × Bus) (haddr : sensor.addr.length = 8)
    (hpad : sensor.scrPad.length = 9) (hr : tsReadTemp w fuel sensor bus = some r) :
    FailFastOutcome sensor bus r := by
  obtain ⟨v1, _, h | ⟨hv1, zeros, last, v2, _, _, _, h | ⟨hv2, h0, samples, _, _, ht⟩⟩⟩ :=
    tsReadTemp_cases w fuel sensor bus r haddr hpad hr
  · exact outcome_first_fail sensor bus r v1 h.1 h.2.1 h.2.2.1 h.2.2.2
  · exact outcome_second_fail sensor bus r v1 v2
      (wrBytes (MATCH_ROM :: sensor.addr ++ [CONVERT_T]) ++ rdEvents (zeros ++ [last]))
      (slots_append _ _ (wrBytes_slots _) (rdEvents_slots _)) hv1 h.1 h.2.1 h.2.2.1
      (by rw [h.2.2.2]; simp only [List.append_assoc])
  · exact outcome_ok sensor bus r v1 v2
      (wrBytes (MATCH_ROM :: sensor.addr ++ [CONVERT_T]) ++ rdEvents (zeros ++ [last]))
      (wrBytes (MATCH_ROM :: sensor.addr ++ [READ_SPAD]) ++ rdEvents samples)
      (slots_append _ _ (wrBytes_slots _) (rdEvents_slots _))
      (slots_append _ _ (wrBytes_slots _) (rdEvents_slots _)) hv1 hv2 h0
      (by rw [ht]; simp only [List.append_assoc])

theorem tsReadTemp_sS_outcome (w : World) (fuel : Nat) (sensor : DS18B20) (bus : Bus)
    (r : Int × DS18B20 × Bus) (haddr : sensor.addr.length = 8)
    (hpad : sensor.scrPad.length = 9) (hr : tsReadTemp_sS w fuel sensor bus = some r) :
    FailFastOutcome sensor bus r := by
  obtain ⟨v1, _, h | ⟨hv1, zeros, last, v2, _, _, _, h | ⟨hv2, h0, s8, s9, _, _, _, ht⟩⟩⟩ :=
    tsReadTemp_sS_cases w fuel sensor bus r haddr hpad hr
  · exact outcome_first_fail sensor bus r v1 h.1 h.2.1 h.2.2.1 h.2.2.2
  · exact outcome_second_fail sensor bus r v1 v2
      (wrBytes [SKIP_ROM, CONVERT_T] ++ rdEvents (zeros ++ [last]))
      (slots_append _ _ (wrBytes_slots _) (rdEvents_slots _)) hv1 h.1 h.2.1 h.2.2.1
      (by rw [h.2.2.2]; simp only [List.append_assoc])
  · exact outcome_ok sensor bus r v1 v2
      (wrBytes [SKIP_ROM, CONVERT_T] ++ rdEvents (zeros ++ [last]))
      ((wrBytes [READ_ROM] ++ rdEvents s8) ++ (wrBytes [READ_SPAD] ++ rdEvents s9))
      (slots_append _ _ (wrBytes_slots _) (rdEvents_slots _))
      (slots_append _ _ (slots_append _ _ (wrBytes_slots _) (rdEvents_slots _))
        (slots_append _ _ (wrBytes_slots _) (rdEvents_slots _))) hv1 hv2 h0
      (by rw [ht]; simp only [List.append_assoc])

theorem tsReadTemp_fuel_mono (w : World) (fuel fuel2 : Nat) (sensor : DS18B20) (bus : Bus)
    (r : Int × DS18B20 × Bus) (hle : fuel ≤ fuel2)
    (hr : tsReadTemp w fuel sensor bus = some r) : tsReadTemp w fuel2 sensor bus = some r := by
  unfold tsReadTemp at hr ⊢
  by_cases h1 : (tsMstRst w bus).1 = 0
  · rw [if_pos h1] at hr ⊢
    simp only at hr ⊢
    cases hw : waitReady w fuel (tsWriteByte CONVERT_T (tsMatchAddr sensor (tsMstRst w bus).2)).2 with
    | none => rw [hw] at hr; simp at hr
    | some b2 =>
      rw [hw] at hr
      rw [waitReady_mono w fuel fuel2 _ b2 hle hw]
      exact hr
  · rw [if_neg h1] at hr ⊢
    exact hr

theorem tsReadTemp_sS_fuel_mono (w : World) (fuel fuel2 : Nat) (sensor : DS18B20) (bus : Bus)
    (r : Int × DS18B20 × Bus) (hle : fuel ≤ fuel2)
    (hr : tsReadTemp_sS w fuel sensor bus = some r) :
    tsReadTemp_sS w fuel2 sensor bus = some r := by
  unfold tsReadTemp_sS at hr ⊢
  by_cases h1 : (tsMstRst w bus).1 = 0
  · rw [if_pos h1] at hr ⊢
    simp only at hr ⊢
    cases hw : waitReady w fuel
        (tsWriteByte CONVERT_T (tsWriteByte SKIP_ROM (tsMstRst w bus).2).2).2 with
    | none => rw [hw] at hr; simp at hr
    | some b2 =>
      rw [hw] at hr
      rw [waitReady_mono w fuel fuel2 _ b2 hle hw]
      exact hr
  · rw [if_neg h1] at hr ⊢
    exact hr

theorem tsReadTemp_returns (w : World) (fuel : Nat) (sensor : DS18B20) (bus : Bus)
    (haddr : sensor.addr.length = 8) (h1 : (tsMstRst w bus).1 = 0)
    (hp : pollEnds w fuel (bus.trace ++ resetEvents (w (bus.trace ++ resetPulse) % 256) ++
      wrBytes (MATCH_ROM :: sensor.addr ++ [CONVERT_T])) = true) :
    (tsReadTemp w fuel sensor bus).isSome = true := by
  have hb1 : (tsWriteByte CONVERT_T (tsMatchAddr sensor (tsMstRst w bus).2)).2.trace =
      bus.trace ++ resetEvents (w (bus.trace ++ resetPulse) % 256) ++
        wrBytes (MATCH_ROM :: sensor.addr ++ [CONVERT_T]) := by
    rw [tsWriteByte_trace, tsMatchAddr_trace _ _ haddr, tsMstRst_trace, wrBytes_append,
      wrBytes_singleton]
    simp only [List.append_assoc]
  unfold tsReadTemp
  rw [if_pos h1]
  simp only
  cases hw : waitReady w fuel (tsWriteByte CONVERT_T (tsMatchAddr sensor (tsMstRst w bus).2)).2 with
  | none =>
    rw [waitReady_none_iff, hb1, hp] at hw
    exact absurd hw (by decide)
  | some b2 =>
    simp only
    split <;> rfl

theorem tsReadTemp_sS_returns (w : World) (fuel : Nat) (sensor : DS18B20) (bus : Bus)
    (h1 : (tsMstRst w bus).1 = 0)
    (hp : pollEnds w fuel (bus.trace ++ resetEvents (w (bus.trace ++ resetPulse) % 256) ++
      wrBytes [SKIP_ROM, CONVERT_T]) = true) :
    (tsReadTemp_sS w fuel sensor bus).isSome = true := by
  have hb1 : (tsWriteByte CONVERT_T (tsWriteByte SKIP_ROM (tsMstRst w bus).2).2).2.trace =
      bus.trace ++ resetEvents (w (bus.trace ++ resetPulse) % 256) ++
        wrBytes [SKIP_ROM, CONVERT_T] := by
    have hcmd : wrBytes [SKIP_ROM, CONVERT_T] = wrEvents SKIP_ROM ++ wrEvents CONVERT_T := by
      simp [wrBytes]
    rw [tsWriteByte_trace, tsWriteByte_trace, tsMstRst_trace, hcmd]
    simp only [List.append_assoc]
  unfold tsReadTemp_sS
  rw [if_pos h1]
  simp only
  cases hw : waitReady w fuel
      (tsWriteByte CONVERT_T (tsWriteByte SKIP_ROM (tsMstRst w bus).2).2).2 with
  | none =>
    rw [waitReady_none_iff, hb1, hp] at hw
    exact absurd hw (by decide)
  | some b2 =>
    simp only
    split <;> rfl

theorem tsReadTemp_first_fail (w : World) (fuel : Nat) (sensor : DS18B20) (bus : Bus)
    (h : (tsMstRst w bus).1 = -1) :
    tsReadTemp w fuel sensor bus = some (-1, sensor, (tsMstRst w bus).2) := by
  unfold tsReadTemp
  rw [if_neg (by rw [h]; decide)]

theorem tsReadTemp_sS_first_fail (w : World) (fuel : Nat) (sensor : DS18B20) (bus : Bus)
    (h : (tsMstRst w bus).1 = -1) :
    tsReadTemp_sS w fuel sensor bus = some (-1, sensor, (tsMstRst w bus).2) := by
  unfold tsReadTemp_sS
  rw [if_neg (by rw [h]; decide)]

theorem tsMstRst_fail_trace (w : World) (bus : Bus) (h : (tsMstRst w bus).1 = -1) :
    (tsMstRst w bus).2.trace =
      bus.trace ++ resetPulse ++ [.sample (w (bus.trace ++ resetPulse) % 256)] := by
  have hv : ¬ (w (bus.trace ++ resetPulse) % 256) &&& TS_INBIT = 0 := by
    intro h0
    rw [(tsMstRst_zero_iff w bus).mpr h0] at h
    exact absurd h (by decide)
  rw [tsMstRst_trace, resetEvents, if_neg hv]
  simp only [List.append_assoc, List.append_nil]

/-- C5: `tsReadTemp` and `tsReadTemp_sS` issue at most two reset pulses, each
sampled once; they return `-1` exactly when the first or the second presence
sample is high and `0` otherwise, and they do return once the ready poll ends
within the fuel; on `-1` the handle (`addr`, `scrPad`, `temp`) is the one passed
in, and when the first reset fails the history holds the reset pulse and its
sample only, no write or read slot. -/
theorem readTemp_fail_fast (w : World) (fuel : Nat) (sensor : DS18B20) (bus : Bus)
    (f : World → Nat → DS18B20 → Bus → Option (Int × DS18B20 × Bus)) (cmds : List Nat)
    (hf : (f = tsReadTemp ∧ cmds = MATCH_ROM :: sensor.addr ++ [CONVERT_T]) ∨
      (f = tsReadTemp_sS ∧ cmds = [SKIP_ROM, CONVERT_T]))
    (haddr : sensor.addr.length = 8) (hpad : sensor.scrPad.length = 9) :
    ((tsMstRst w bus).1 = -1 →
      f w fuel sensor bus = some (-1, sensor, (tsMstRst w bus).2) ∧
      (tsMstRst w bus).2.trace =
        bus.trace ++ resetPulse ++ [.sample (w (bus.trace ++ resetPulse) % 256)]) ∧
    ((tsMstRst w bus).1 = 0 →
      pollEnds w fuel (bus.trace ++ resetEvents (w (bus.trace ++ resetPulse) % 256) ++
        wrBytes cmds) = true →
      (f w fuel sensor bus).isSome = true) ∧
    (∀ r, f w fuel sensor bus = some r →
      (∀ fuel2, fuel ≤ fuel2 → f w fuel2 sensor bus = some r) ∧
      ∃ evs : List BusEvent, r.2.2.trace = bus.trace ++ evs ∧
        evs.count .driveLow ≤ 2 ∧ (presenceSamples evs).length = evs.count .driveLow ∧
        (r.1 = 0 ∨ r.1 = -1) ∧
        (r.1 = -1 ↔ ∃ v ∈ presenceSamples evs, v &&& TS_INBIT ≠ 0) ∧
        (r.1 = 0 → (presenceSamples evs).length = 2) ∧
        (r.1 = -1 → r.2.1 = sensor) ∧
        (∀ v, (presenceSamples evs).head? = some v → v &&& TS_INBIT ≠ 0 →
          ∀ e ∈ evs, isSlotEvent e = false)) := by
  rcases hf with ⟨rfl, rfl⟩ | ⟨rfl, rfl⟩
  · refine ⟨fun h => ⟨tsReadTemp_first_fail w fuel sensor bus h, tsMstRst_fail_trace w bus h⟩,
      fun h1 hp => tsReadTemp_returns w fuel sensor bus haddr h1 hp, fun r hr => ⟨?_, ?_⟩⟩
    · exact fun fuel2 hle => tsReadTemp_fuel_mono w fuel fuel2 sensor bus r hle hr
    · exact tsReadTemp_outcome w fuel sensor bus r haddr hpad hr
  · refine ⟨fun h => ⟨tsReadTemp_sS_first_fail w fuel sensor bus h,
        tsMstRst_fail_trace w bus h⟩,
      fun h1 hp => tsReadTemp_sS_returns w fuel sensor bus h1 hp, fun r hr => ⟨?_, ?_⟩⟩
    · exact fun fuel2 hle => tsReadTemp_sS_fuel_mono w fuel fuel2 sensor bus r hle hr
    · exact tsReadTemp_sS_outcome w fuel sensor bus r haddr hpad hr

/-- Witness for C5: with nothing on the bus `tsReadTemp` returns `-1` at once and
leaves the handle alone; with a device that is ready at the third read slot it
returns. -/
theorem readTemp_fail_fast_witness :
    dataSheetPad.addr.length = 8 ∧ dataSheetPad.scrPad.length = 9 ∧
    (tsMstRst idleWorld bus0).1 = -1 ∧
    tsReadTemp idleWorld 0 dataSheetPad bus0
      = some (-1, dataSheetPad, (tsMstRst idleWorld bus0).2) ∧
    (tsReadTemp (simWorld [0, 0, 1]) 3 dataSheetPad bus0).isSome = true :=
  ⟨by decide, by decide, by decide,
   ((readTemp_fail_fast idleWorld 0 dataSheetPad bus0 tsReadTemp
      (MATCH_ROM :: dataSheetPad.addr ++ [CONVERT_T]) (Or.inl ⟨rfl, rfl⟩)
      (by decide) (by decide)).1 (by decide)).1,
   (readTemp_fail_fast (simWorld [0, 0, 1]) 3 dataSheetPad bus0 tsReadTemp
      (MATCH_ROM :: dataSheetPad.addr ++ [CONVERT_T]) (Or.inl ⟨rfl, rfl⟩)
      (by decide) (by decide)).2.1 (by decide!) (by decide!)⟩

/-! ## The polling operations do return -/

/-- Once the first reset has found a device and the ready poll ends within the
fuel, `tsReadTemp` returns, and what it returns is fixed by the second presence
sample. -/
theorem tsReadTemp_runs (w : World) (fuel : Nat) (sensor : DS18B20) (bus : Bus)
    (haddr : sensor.addr.length = 8) (hpad : sensor.scrPad.length = 9)
    (h1 : (tsMstRst w bus).1 = 0)
    (hp : pollEnds w fuel (bus.trace ++ resetEvents (w (bus.trace ++ resetPulse) % 256) ++
      wrBytes (MATCH_ROM :: sensor.addr ++ [CONVERT_T])) = true) :
    ∃ (r : Int × DS18B20 × Bus) (zeros : List Nat) (last v2 : Nat),
      tsReadTemp w fuel sensor bus = some r ∧
      zeros.length < fuel ∧ (∀ z ∈ zeros, bitOf z = 0) ∧ bitOf last = 1 ∧
      v2 = w (bus.trace ++ resetEvents (w (bus.trace ++ resetPulse) % 256) ++
        wrBytes (MATCH_ROM :: sensor.addr ++ [CONVERT_T]) ++
        rdEvents (zeros ++ [last]) ++ resetPulse) % 256 ∧
      ((v2 &&& TS_INBIT ≠ 0 ∧ r.1 = -1 ∧ r.2.1 = sensor ∧
          r.2.2.trace = bus.trace ++ resetEvents (w (bus.trace ++ resetPulse) % 256) ++
            wrBytes (MATCH_ROM :: sensor.addr ++ [CONVERT_T]) ++
            rdEvents (zeros ++ [last]) ++ resetEvents v2) ∨
       (v2 &&& TS_INBIT = 0 ∧ r.1 = 0 ∧ ∃ samples : List Nat, samples.length = 72 ∧
          r.2.1 = decodeTemp { sensor with scrPad := packBytes 9 samples } ∧
          r.2.2.trace = bus.trace ++ resetEvents (w (bus.trace ++ resetPulse) % 256) ++
            wrBytes (MATCH_ROM :: sensor.addr ++ [CONVERT_T]) ++
            rdEvents (zeros ++ [last]) ++ resetEvents v2 ++
            wrBytes (MATCH_ROM :: sensor.addr ++ [READ_SPAD]) ++ rdEvents samples)) := by
  obtain ⟨r, hr0⟩ := Option.isSome_iff_exists.mp (tsReadTemp_returns w fuel sensor bus haddr h1 hp)
  have hr := hr0
  unfold tsReadTemp at hr
  rw [if_pos h1] at hr
  simp only at hr
  cases hw : waitReady w fuel (tsWriteByte CONVERT_T (tsMatchAddr sensor (tsMstRst w bus).2)).2 with
  | none => rw [hw] at hr; simp at hr
  | some b2 =>
    rw [hw] at hr
    simp only at hr
    obtain ⟨zeros, last, hz, hall, hlast, htr⟩ := waitReady_spec _ _ _ _ hw
    have hb2 : b2.trace = bus.trace ++ resetEvents (w (bus.trace ++ resetPulse) % 256) ++
        wrBytes (MATCH_ROM :: sensor.addr ++ [CONVERT_T]) ++ rdEvents (zeros ++ [last]) := by
      rw [htr, tsWriteByte_trace, tsMatchAddr_trace _ _ haddr, tsMstRst_trace, wrBytes_append,
        wrBytes_singleton]
      simp only [List.append_assoc]
    refine ⟨r, zeros, last, w (b2.trace ++ resetPulse) % 256, hr0, hz, hall, hlast,
      by rw [hb2], ?_⟩
    by_cases h2 : (tsMstRst w b2).1 = 0
    · right
      rw [if_pos h2] at hr
      have hr2 := Option.some.inj hr
      obtain ⟨samples, hlen, htr9, hval9⟩ := tsReadData_nine w sensor.scrPad
        (tsWriteByte READ_SPAD (tsMatchAddr sensor (tsMstRst w b2).2)).2 hpad
      refine ⟨(tsMstRst_zero_iff w b2).mp h2, by rw [← hr2], samples, hlen, ?_, ?_⟩
      · rw [← hr2, ← hval9]
      · rw [← hr2]
        simp only
        rw [htr9, tsWriteByte_trace, tsMatchAddr_trace _ _ haddr, tsMstRst_trace, hb2,
          wrBytes_append, wrBytes_singleton, wrBytes_append, wrBytes_singleton]
        simp only [List.append_assoc]
    · left
      rw [if_neg h2] at hr
      have hr2 := Option.some.inj hr
      refine ⟨fun h => h2 ((tsMstRst_zero_iff w b2).mpr h), by rw [← hr2], by rw [← hr2], ?_⟩
      rw [← hr2]
      simp only
      rw [tsMstRst_trace, hb2]

/-- Once the first reset has found a device and the ready poll ends within the
fuel, `tsReadTemp_sS` returns, and what it returns is fixed by the second
presence sample. -/
theorem tsReadTemp_sS_runs (w : World) (fuel : Nat) (sensor : DS18B20) (bus : Bus)
    (haddr : sensor.addr.length = 8) (hpad : sensor.scrPad.length = 9)
    (h1 : (tsMstRst w bus).1 = 0)
    (hp : pollEnds w fuel (bus.trace ++ resetEvents (w (bus.trace ++ resetPulse) % 256) ++
      wrBytes [SKIP_ROM, CONVERT_T]) = true) :
    ∃ (r : Int × DS18B20 × Bus) (zeros : List Nat) (last v2 : Nat),
      tsReadTemp_sS w fuel sensor bus = some r ∧
      zeros.length < fuel ∧ (∀ z ∈ zeros, bitOf z = 0) ∧ bitOf last = 1 ∧
      v2 = w (bus.trace ++ resetEvents (w (bus.trace ++ resetPulse) % 256) ++
        wrBytes [SKIP_ROM, CONVERT_T] ++ rdEvents (zeros ++ [last]) ++ resetPulse) % 256 ∧
      ((v2 &&& TS_INBIT ≠ 0 ∧ r.1 = -1 ∧ r.2.1 = sensor ∧
          r.2.2.trace = bus.trace ++ resetEvents (w (bus.trace ++ resetPulse) % 256) ++
            wrBytes [SKIP_ROM, CONVERT_T] ++ rdEvents (zeros ++ [last]) ++ resetEvents v2) ∨
       (v2 &&& TS_INBIT = 0 ∧ r.1 = 0 ∧ ∃ s8 s9 : List Nat,
          s8.length = 64 ∧ s9.length = 72 ∧
          r.2.1 = decodeTemp { sensor with addr := packBytes 8 s8,
                                           scrPad := packBytes 9 s9 } ∧
          r.2.2.trace = bus.trace ++ resetEvents (w (bus.trace ++ resetPulse) % 256) ++
            wrBytes [SKIP_ROM, CONVERT_T] ++ rdEvents (zeros ++ [last]) ++ resetEvents v2 ++
            wrBytes [READ_ROM] ++ rdEvents s8 ++ wrBytes [READ_SPAD] ++ rdEvents s9)) := by
  obtain ⟨r, hr0⟩ := Option.isSome_iff_exists.mp (tsReadTemp_sS_returns w fuel sensor bus h1 hp)
  have hr := hr0
  unfold tsReadTemp_sS at hr
  rw [if_pos h1] at hr
  simp only at hr
  cases hw : waitReady w fuel
      (tsWriteByte CONVERT_T (tsWriteByte SKIP_ROM (tsMstRst w bus).2).2).2 with
  | none => rw [hw] at hr; simp at hr
  | some b2 =>
    rw [hw] at hr
    simp only at hr
    obtain ⟨zeros, last, hz, hall, hlast, htr⟩ := waitReady_spec _ _ _ _ hw
    have hcmd : wrBytes [SKIP_ROM, CONVERT_T] = wrEvents SKIP_ROM ++ wrEvents CONVERT_T := by
      simp [wrBytes]
    have hb2 : b2.trace = bus.trace ++ resetEvents (w (bus.trace ++ resetPulse) % 256) ++
        wrBytes [SKIP_ROM, CONVERT_T] ++ rdEvents (zeros ++ [last]) := by
      rw [htr, tsWriteByte_trace, tsWriteByte_trace, tsMstRst_trace, hcmd]
      simp only [List.append_assoc]
    refine ⟨r, zeros, last, w (b2.trace ++ resetPulse) % 256, hr0, hz, hall, hlast,
      by rw [hb2], ?_⟩
    by_cases h2 : (tsMstRst w b2).1 = 0
    · right
      rw [if_pos h2] at hr
      have hr2 := Option.some.inj hr
      obtain ⟨s8, hlen8, htr8, hval8⟩ := tsReadData_eight w sensor.addr
        (tsWriteByte READ_ROM (tsMstRst w b2).2).2 haddr
      obtain ⟨s9, hlen9, htr9, hval9⟩ := tsReadData_nine w sensor.scrPad
        (tsWriteByte READ_SPAD
          (tsReadData w sensor.addr 8 (tsWriteByte READ_ROM (tsMstRst w b2).2).2).2).2 hpad
      refine ⟨(tsMstRst_zero_iff w b2).mp h2, by rw [← hr2], s8, s9, hlen8, hlen9, ?_, ?_⟩
      · rw [← hr2, ← hval9, ← hval8]
      · rw [← hr2]
        simp only
        rw [htr9, tsWriteByte_trace, htr8, tsWriteByte_trace, tsMstRst_trace, hb2,
          wrBytes_singleton, wrBytes_singleton]
    · left
      rw [if_neg h2] at hr
      have hr2 := Option.some.inj hr
      refine ⟨fun h => h2 ((tsMstRst_zero_iff w b2).mpr h), by rw [← hr2], by rw [← hr2], ?_⟩
      rw [← hr2]
      simp only
      rw [tsMstRst_trace, hb2]

theorem tsCopySpad_first_fail (w : World) (fuel : Nat) (sensor : DS18B20) (bus : Bus)
    (h : (tsMstRst w bus).1 = -1) :
    tsCopySpad w fuel sensor bus = some (-1, (tsMstRst w bus).2) := by
  unfold tsCopySpad
  rw [if_neg (by rw [h]; decide)]

theorem tsCopySpad_sS_first_fail (w : World) (fuel : Nat) (sensor : DS18B20) (bus : Bus)
    (h : (tsMstRst w bus).1 = -1) :
    tsCopySpad_sS w fuel sensor bus = some (-1, (tsMstRst w bus).2) := by
  unfold tsCopySpad_sS
  rw [if_neg (by rw [h]; decide)]

/-- Once its reset has found a device and the ready poll ends within the fuel,
`tsCopySpad` returns `0`. -/
theorem tsCopySpad_runs (w : World) (fuel : Nat) (sensor : DS18B20) (bus : Bus)
    (haddr : sensor.addr.length = 8) (h1 : (tsMstRst w bus).1 = 0)
    (hp : pollEnds w fuel (bus.trace ++ resetEvents (w (bus.trace ++ resetPulse) % 256) ++
      wrBytes (MATCH_ROM :: sensor.addr ++ [COPY_SPAD])) = true) :
    ∃ (b2 : Bus) (zeros : List Nat) (last : Nat),
      tsCopySpad w fuel sensor bus = some (0, b2) ∧
      zeros.length < fuel ∧ (∀ z ∈ zeros, bitOf z = 0) ∧ bitOf last = 1 ∧
      b2.trace = bus.trace ++ resetEvents (w (bus.trace ++ resetPulse) % 256) ++
        wrBytes (MATCH_ROM :: sensor.addr ++ [COPY_SPAD]) ++ rdEvents (zeros ++ [last]) := by
  have hb1 : (tsWriteByte COPY_SPAD (tsMatchAddr sensor (tsMstRst w bus).2)).2.trace =
      bus.trace ++ resetEvents (w (bus.trace ++ resetPulse) % 256) ++
        wrBytes (MATCH_ROM :: sensor.addr ++ [COPY_SPAD]) := by
    rw [tsWriteByte_trace, tsMatchAddr_trace _ _ haddr, tsMstRst_trace, wrBytes_append,
      wrBytes_singleton]
    simp only [List.append_assoc]
  cases hw : waitReady w fuel (tsWriteByte COPY_SPAD (tsMatchAddr sensor (tsMstRst w bus).2)).2 with
  | none =>
    rw [waitReady_none_iff, hb1, hp] at hw
    exact absurd hw (by decide)
  | some b2 =>
    obtain ⟨zeros, last, hz, hall, hlast, htr⟩ := waitReady_spec _ _ _ _ hw
    refine ⟨b2, zeros, last, ?_, hz, hall, hlast, by rw [htr, hb1]⟩
    unfold tsCopySpad
    rw [if_pos h1]
    simp only
    rw [hw]

/-- Once its reset has found a device and the ready poll ends within the fuel,
`tsCopySpad_sS` returns `0`. -/
theorem tsCopySpad_sS_runs (w : World) (fuel : Nat) (sensor : DS18B20) (bus : Bus)
    (h1 : (tsMstRst w bus).1 = 0)
    (hp : pollEnds w fuel (bus.trace ++ resetEvents (w (bus.trace ++ resetPulse) % 256) ++
      wrBytes [SKIP_ROM, COPY_SPAD]) = true) :
    ∃ (b2 : Bus) (zeros : List Nat) (last : Nat),
      tsCopySpad_sS w fuel sensor bus = some (0, b2) ∧
      zeros.length < fuel ∧ (∀ z ∈ zeros, bitOf z = 0) ∧ bitOf last = 1 ∧
      b2.trace = bus.trace ++ resetEvents (w (bus.trace ++ resetPulse) % 256) ++
        wrBytes [SKIP_ROM, COPY_SPAD] ++ rdEvents (zeros ++ [last]) := by
  have hb1 : (tsWriteByte COPY_SPAD (tsWriteByte SKIP_ROM (tsMstRst w bus).2).2).2.trace =
      bus.trace ++ resetEvents (w (bus.trace ++ resetPulse) % 256) ++
        wrBytes [SKIP_ROM, COPY_SPAD] := by
    have hcmd : wrBytes [SKIP_ROM, COPY_SPAD] = wrEvents SKIP_ROM ++ wrEvents COPY_SPAD := by
      simp [wrBytes]
    rw [tsWriteByte_trace, tsWriteByte_trace, tsMstRst_trace, hcmd]
    simp only [List.append_assoc]
  cases hw : waitReady w fuel
      (tsWriteByte COPY_SPAD (tsWriteByte SKIP_ROM (tsMstRst w bus).2).2).2 with
  | none =>
    rw [waitReady_none_iff, hb1, hp] at hw
    exact absurd hw (by decide)
  | some b2 =>
    obtain ⟨zeros, last, hz, hall, hlast, htr⟩ := waitReady_spec _ _ _ _ hw
    refine ⟨b2, zeros, last, ?_, hz, hall, hlast, by rw [htr, hb1]⟩
    unfold tsCopySpad_sS
    rw [if_pos h1]
    simp only
    rw [hw]

/-! ## Success without validation -/

theorem decodeTemp_scrPad (s : DS18B20) : (decodeTemp s).scrPad = s.scrPad := rfl

theorem decodeTemp_addr (s : DS18B20) : (decodeTemp s).addr = s.addr := rfl

/-- Counterexample for C6: a device that is present and then leaves the line
high makes both temperature reads return `0` with a scratch buffer of nine
`0xFF` bytes, which `tsValidateData` rejects. -/
theorem readTemp_zero_with_bad_crc :
    (tsReadTemp (simWorld [1]) 1 dataSheetPad bus0).map
        (fun r => (r.1, r.2.1.scrPad, tsValidateData r.2.1))
      = some (0, [0xFF, 0xFF, 0xFF, 0xFF, 0xFF, 0xFF, 0xFF, 0xFF, 0xFF], -1) ∧
    (tsReadTemp_sS (simWorld [1]) 1 dataSheetPad bus0).map
        (fun r => (r.1, r.2.1.scrPad, tsValidateData r.2.1))
      = some (0, [0xFF, 0xFF, 0xFF, 0xFF, 0xFF, 0xFF, 0xFF, 0xFF, 0xFF], -1) := by
  decide!

theorem outcome_zero_iff (sensor : DS18B20) (bus : Bus) (r : Int × DS18B20 × Bus)
    (h : FailFastOutcome sensor bus r) :
    ∃ evs : List BusEvent, r.2.2.trace = bus.trace ++ evs ∧
      (r.1 = 0 ↔ ∀ v ∈ presenceSamples evs, v &&& TS_INBIT = 0) := by
  obtain ⟨evs, ht, _, _, h01, hiff, _, _, _⟩ := h
  refine ⟨evs, ht, ?_, ?_⟩
  · intro h0 v hv
    by_contra hne
    have := hiff.mpr ⟨v, hv, hne⟩
    rw [h0] at this
    exact absurd this (by decide)
  · intro hall
    rcases h01 with h0 | h1
    · exact h0
    · obtain ⟨v, hv, hne⟩ := hiff.mp h1
      exact absurd (hall v hv) hne

theorem readTemp_success_pad (w : World) (fuel : Nat) (sensor : DS18B20) (bus : Bus)
    (f : World → Nat → DS18B20 → Bus → Option (Int × DS18B20 × Bus))
    (hf : f = tsReadTemp ∨ f = tsReadTemp_sS)
    (haddr : sensor.addr.length = 8) (hpad : sensor.scrPad.length = 9)
    (r : Int × DS18B20 × Bus) (hr : f w fuel sensor bus = some r) (h0 : r.1 = 0) :
    ∃ samples : List Nat, r.2.1.scrPad = packBytes 9 samples := by
  rcases hf with rfl | rfl
  · obtain ⟨v1, _, h | ⟨_, _, _, _, _, _, _, h | ⟨_, _, samples, _, hs, _⟩⟩⟩ :=
      tsReadTemp_cases w fuel sensor bus r haddr hpad hr
    · rw [h.2.1] at h0; exact absurd h0 (by decide)
    · rw [h.2.1] at h0; exact absurd h0 (by decide)
    · exact ⟨samples, by rw [hs, decodeTemp_scrPad]⟩
  · obtain ⟨v1, _, h | ⟨_, _, _, _, _, _, _, h | ⟨_, _, s8, s9, _, _, hs, _⟩⟩⟩ :=
      tsReadTemp_sS_cases w fuel sensor bus r haddr hpad hr
    · rw [h.2.1] at h0; exact absurd h0 (by decide)
    · rw [h.2.1] at h0; exact absurd h0 (by decide)
    · exact ⟨s9, by rw [hs, decodeTemp_scrPad]⟩

theorem decoded_pad_facts (s : DS18B20) (samples : List Nat)
    (hs : s.scrPad = packBytes 9 samples) :
    (decodeTemp s).scrPad = packBytes 9 samples ∧
    (decodeTemp s).temp
      = toInt16 ((packBytes 9 samples).getD 0 0 + 256 * (packBytes 9 samples).getD 1 0) ∧
    (tsValidateData (decodeTemp s) = 0 ∨ tsValidateData (decodeTemp s) = -1) ∧
    (tsValidateData (decodeTemp s) = 0 ↔
      crc8Maxim ((packBytes 9 samples).take 8) = (packBytes 9 samples).getD 8 0) := by
  have hb : ∀ b ∈ s.scrPad, b < 256 := by rw [hs]; exact packBytes_lt 9 samples
  have hlen : s.scrPad.length = 9 := by rw [hs, packBytes_length]
  refine ⟨by rw [decodeTemp_scrPad, hs], ?_, ?_, ?_⟩
  · rw [decodeTemp_eq s (getD_lt_of_all_lt _ 0 hb) (getD_lt_of_all_lt _ 1 hb), hs]
  · unfold tsValidateData
    split
    · exact Or.inl rfl
    · exact Or.inr rfl
  · rw [tsValidateData_eq_zero_iff, decodeTemp_scrPad, ← hs]
    exact crcRegister_eq_zero_iff _ hlen hb

/-- C6 (amended): the temperature reads are a convert, poll and read flow with
no validation step. Once the first reset has detected presence and the ready
poll has ended, `tsReadTemp` and `tsReadTemp_sS` return; they return `0`
exactly when the second presence sample is low as well, whatever the 72
samples of the scratchpad read are; the nine bytes packed from those samples
are stored in `scrPad` and `temp` is decoded from the first two of them,
without any check. The stored buffer passes the CRC check exactly when the
CRC-8 of its bytes 0..7 equals byte 8, which only a separate call of
`tsValidateData` on the handle tells. Every result returned at any fuel has
this shape. -/
theorem readTemp_leaves_validation_to_caller (w : World) (fuel : Nat) (sensor : DS18B20)
    (bus : Bus) (haddr : sensor.addr.length = 8) (hpad : sensor.scrPad.length = 9) :
    ((w (bus.trace ++ resetPulse) % 256) &&& TS_INBIT = 0 →
      pollEnds w fuel (bus.trace ++ resetEvents (w (bus.trace ++ resetPulse) % 256) ++
        wrBytes (MATCH_ROM :: sensor.addr ++ [CONVERT_T])) = true →
      ∃ (r : Int × DS18B20 × Bus) (zeros : List Nat) (last v2 : Nat),
        tsReadTemp w fuel sensor bus = some r ∧
        v2 = w (bus.trace ++ resetEvents (w (bus.trace ++ resetPulse) % 256) ++
          wrBytes (MATCH_ROM :: sensor.addr ++ [CONVERT_T]) ++
          rdEvents (zeros ++ [last]) ++ resetPulse) % 256 ∧
        (r.1 = 0 ↔ v2 &&& TS_INBIT = 0) ∧
        (v2 &&& TS_INBIT = 0 → ∃ samples : List Nat, samples.length = 72 ∧
          r.2.2.trace = bus.trace ++ resetEvents (w (bus.trace ++ resetPulse) % 256) ++
            wrBytes (MATCH_ROM :: sensor.addr ++ [CONVERT_T]) ++
            rdEvents (zeros ++ [last]) ++ resetEvents v2 ++
            wrBytes (MATCH_ROM :: sensor.addr ++ [READ_SPAD]) ++ rdEvents samples ∧
          r.2.1.scrPad = packBytes 9 samples ∧
          r.2.1.temp
            = toInt16 ((packBytes 9 samples).getD 0 0 + 256 * (packBytes 9 samples).getD 1 0) ∧
          (tsValidateData r.2.1 = 0 ↔
            crc8Maxim ((packBytes 9 samples).take 8) = (packBytes 9 samples).getD 8 0))) ∧
    ((w (bus.trace ++ resetPulse) % 256) &&& TS_INBIT = 0 →
      pollEnds w fuel (bus.trace ++ resetEvents (w (bus.trace ++ resetPulse) % 256) ++
        wrBytes [SKIP_ROM, CONVERT_T]) = true →
      ∃ (r : Int × DS18B20 × Bus) (zeros : List Nat) (last v2 : Nat),
        tsReadTemp_sS w fuel sensor bus = some r ∧
        v2 = w (bus.trace ++ resetEvents (w (bus.trace ++ resetPulse) % 256) ++
          wrBytes [SKIP_ROM, CONVERT_T] ++ rdEvents (zeros ++ [last]) ++ resetPulse) % 256 ∧
        (r.1 = 0 ↔ v2 &&& TS_INBIT = 0) ∧
        (v2 &&& TS_INBIT = 0 → ∃ s8 samples : List Nat, s8.length = 64 ∧
          samples.length = 72 ∧
          r.2.2.trace = bus.trace ++ resetEvents (w (bus.trace ++ resetPulse) % 256) ++
            wrBytes [SKIP_ROM, CONVERT_T] ++ rdEvents (zeros ++ [last]) ++ resetEvents v2 ++
            wrBytes [READ_ROM] ++ rdEvents s8 ++ wrBytes [READ_SPAD] ++ rdEvents samples ∧
          r.2.1.scrPad = packBytes 9 samples ∧
          r.2.1.temp
            = toInt16 ((packBytes 9 samples).getD 0 0 + 256 * (packBytes 9 samples).getD 1 0) ∧
          (tsValidateData r.2.1 = 0 ↔
            crc8Maxim ((packBytes 9 samples).take 8) = (packBytes 9 samples).getD 8 0))) ∧
    (∀ (f : World → Nat → DS18B20 → Bus → Option (Int × DS18B20 × Bus)),
      f = tsReadTemp ∨ f = tsReadTemp_sS →
      ∀ r, f w fuel sensor bus = some r →
        (∃ evs : List BusEvent, r.2.2.trace = bus.trace ++ evs ∧
          (r.1 = 0 ↔ ∀ v ∈ presenceSamples evs, v &&& TS_INBIT = 0)) ∧
        (r.1 = 0 →
          (∃ (pre : List BusEvent) (samples : List Nat), samples.length = 72 ∧
            r.2.2.trace = pre ++ rdEvents samples ∧ r.2.1.scrPad = packBytes 9 samples ∧
            r.2.1.temp = toInt16 ((packBytes 9 samples).getD 0 0 +
              256 * (packBytes 9 samples).getD 1 0)) ∧
          r.2.1.scrPad.length = 9 ∧ (∀ b ∈ r.2.1.scrPad, b < 256) ∧
          (tsValidateData r.2.1 = 0 ∨ tsValidateData r.2.1 = -1) ∧
          (tsValidateData r.2.1 = 0 ↔
            crc8Maxim (r.2.1.scrPad.take 8) = r.2.1.scrPad.getD 8 0))) := by
  refine ⟨fun h1 hp => ?_, fun h1 hp => ?_, fun f hf r hr => ⟨?_, fun h0 => ?_⟩⟩
  · obtain ⟨r, zeros, last, v2, hr, _, _, _, hv2, h⟩ :=
      tsReadTemp_runs w fuel sensor bus haddr hpad ((tsMstRst_zero_iff w bus).mpr h1) hp
    refine ⟨r, zeros, last, v2, hr, hv2, ?_, ?_⟩
    · rcases h with ⟨hne, hm, _⟩ | ⟨hlow, h0, _⟩
      · constructor
        · intro h0; rw [hm] at h0; exact absurd h0 (by decide)
        · intro hlow; exact absurd hlow hne
      · exact ⟨fun _ => hlow, fun _ => h0⟩
    · intro hlow
      rcases h with ⟨hne, _⟩ | ⟨_, _, samples, hlen, hs, ht⟩
      · exact absurd hlow hne
      · obtain ⟨f1, f2, _, f4⟩ :=
          decoded_pad_facts { sensor with scrPad := packBytes 9 samples } samples rfl
        rw [← hs] at f1 f2 f4
        exact ⟨samples, hlen, ht, f1, f2, f4⟩
  · obtain ⟨r, zeros, last, v2, hr, _, _, _, hv2, h⟩ :=
      tsReadTemp_sS_runs w fuel sensor bus haddr hpad ((tsMstRst_zero_iff w bus).mpr h1) hp
    refine ⟨r, zeros, last, v2, hr, hv2, ?_, ?_⟩
    · rcases h with ⟨hne, hm, _⟩ | ⟨hlow, h0, _⟩
      · constructor
        · intro h0; rw [hm] at h0; exact absurd h0 (by decide)
        · intro hlow; exact absurd hlow hne
      · exact ⟨fun _ => hlow, fun _ => h0⟩
    · intro hlow
      rcases h with ⟨hne, _⟩ | ⟨_, _, s8, s9, h8, h9, hs, ht⟩
      · exact absurd hlow hne
      · obtain ⟨f1, f2, _, f4⟩ :=
          decoded_pad_facts { sensor with addr := packBytes 8 s8, scrPad := packBytes 9 s9 }
            s9 rfl
        rw [← hs] at f1 f2 f4
        exact ⟨s8, s9, h8, h9, ht, f1, f2, f4⟩
  · rcases hf with rfl | rfl
    · exact outcome_zero_iff sensor bus r (tsReadTemp_outcome w fuel sensor bus r haddr hpad hr)
    · exact outcome_zero_iff sensor bus r
        (tsReadTemp_sS_outcome w fuel sensor bus r haddr hpad hr)
  · obtain ⟨samples, hs⟩ := readTemp_success_pad w fuel sensor bus f hf haddr hpad r hr h0
    have hlen : r.2.1.scrPad.length = 9 := by rw [hs, packBytes_length]
    have hb : ∀ b ∈ r.2.1.scrPad, b < 256 := by rw [hs]; exact packBytes_lt 9 samples
    refine ⟨?_, hlen, hb, ?_, ?_⟩
    · rcases hf with rfl | rfl
      · obtain ⟨v1, _, h | ⟨_, _, _, _, _, _, _, h | ⟨_, _, smp, hl, hs2, ht⟩⟩⟩ :=
          tsReadTemp_cases w fuel sensor bus r haddr hpad hr
        · rw [h.2.1] at h0; exact absurd h0 (by decide)
        · rw [h.2.1] at h0; exact absurd h0 (by decide)
        · obtain ⟨f1, f2, _, _⟩ :=
            decoded_pad_facts { sensor with scrPad := packBytes 9 smp } smp rfl
          rw [← hs2] at f1 f2
          exact ⟨_, smp, hl, ht, f1, f2⟩
      · obtain ⟨v1, _, h | ⟨_, _, _, _, _, _, _, h | ⟨_, _, s8, s9, _, h9, hs2, ht⟩⟩⟩ :=
          tsReadTemp_sS_cases w fuel sensor bus r haddr hpad hr
        · rw [h.2.1] at h0; exact absurd h0 (by decide)
        · rw [h.2.1] at h0; exact absurd h0 (by decide)
        · obtain ⟨f1, f2, _, _⟩ :=
            decoded_pad_facts { sensor with addr := packBytes 8 s8, scrPad := packBytes 9 s9 }
              s9 rfl
          rw [← hs2] at f1 f2
          exact ⟨_, s9, h9, ht, f1, f2⟩
    · unfold tsValidateData
      split
      · exact Or.inl rfl
      · exact Or.inr rfl
    · rw [tsValidateData_eq_zero_iff]
      exact crcRegister_eq_zero_iff _ hlen hb

/-- Witness for C6 (amended): on a bus whose device is present, ready at once
and then leaves the line high, `tsReadTemp` returns `0` and stores the nine
`0xFF` bytes it read. -/
theorem readTemp_leaves_validation_to_caller_witness :
    dataSheetPad.addr.length = 8 ∧ dataSheetPad.scrPad.length = 9 ∧
    tsReadTemp (simWorld [1]) 1 dataSheetPad bus0 = some readAllOnes ∧
    readAllOnes.1 = 0 ∧
    readAllOnes.2.1.scrPad = [0xFF, 0xFF, 0xFF, 0xFF, 0xFF, 0xFF, 0xFF, 0xFF, 0xFF] ∧
    (∃ (r : Int × DS18B20 × Bus) (zeros : List Nat) (last v2 : Nat),
      tsReadTemp (simWorld [1]) 1 dataSheetPad bus0 = some r ∧
      v2 = simWorld [1] (bus0.trace ++
        resetEvents (simWorld [1] (bus0.trace ++ resetPulse) % 256) ++
        wrBytes (MATCH_ROM :: dataSheetPad.addr ++ [CONVERT_T]) ++
        rdEvents (zeros ++ [last]) ++ resetPulse) % 256 ∧
      (r.1 = 0 ↔ v2 &&& TS_INBIT = 0) ∧
      (v2 &&& TS_INBIT = 0 → ∃ samples : List Nat, samples.length = 72 ∧
        r.2.2.trace = bus0.trace ++
          resetEvents (simWorld [1] (bus0.trace ++ resetPulse) % 256) ++
          wrBytes (MATCH_ROM :: dataSheetPad.addr ++ [CONVERT_T]) ++
          rdEvents (zeros ++ [last]) ++ resetEvents v2 ++
          wrBytes (MATCH_ROM :: dataSheetPad.addr ++ [READ_SPAD]) ++ rdEvents samples ∧
        r.2.1.scrPad = packBytes 9 samples ∧
        r.2.1.temp
          = toInt16 ((packBytes 9 samples).getD 0 0 + 256 * (packBytes 9 samples).getD 1 0) ∧
        (tsValidateData r.2.1 = 0 ↔
          crc8Maxim ((packBytes 9 samples).take 8) = (packBytes 9 samples).getD 8 0))) :=
  ⟨by decide, by decide, by decide!, by decide!, by decide!,
    (readTemp_leaves_validation_to_caller (simWorld [1]) 1 dataSheetPad bus0
      (by decide) (by decide)).1 (by decide) (by decide!)⟩

/-! ## Every failed reset is reported -/

theorem zero_ne_neg_one : (0 : Int) ≠ -1 := by decide

theorem slotsOnly_refl (bus : Bus) : SlotsOnly bus bus :=
  ⟨[], by simp, by simp⟩

theorem slotsOnly_trans (a b c : Bus) (h1 : SlotsOnly a b) (h2 : SlotsOnly b c) :
    SlotsOnly a c := by
  obtain ⟨S1, ht1, hs1⟩ := h1
  obtain ⟨S2, ht2, hs2⟩ := h2
  exact ⟨S1 ++ S2, by rw [ht2, ht1, List.append_assoc], slots_append S1 S2 hs1 hs2⟩

theorem slotsOnly_writeByte (byte : Nat) (bus : Bus) : SlotsOnly bus (tsWriteByte byte bus).2 :=
  ⟨wrEvents byte, tsWriteByte_trace byte bus, wrEvents_slots byte⟩

theorem slotsOnly_foldl_writeByte (l : List Nat) (bus : Bus) :
    SlotsOnly bus (l.foldl (fun b x => (tsWriteByte x b).2) bus) :=
  ⟨wrBytes l, foldl_tsWriteByte_trace l bus, wrBytes_slots l⟩

theorem slotsOnly_matchAddr (sensor : DS18B20) (bus : Bus) :
    SlotsOnly bus (tsMatchAddr sensor bus) := by
  unfold tsMatchAddr
  have e : (List.range 8).foldl (fun b i => (tsWriteByte (sensor.addr.getD i 0) b).2)
        (tsWriteByte MATCH_ROM bus).2
      = (((List.range 8).map (fun i => sensor.addr.getD i 0)).foldl
          (fun b x => (tsWriteByte x b).2) (tsWriteByte MATCH_ROM bus).2) := by
    rw [List.foldl_map]
  rw [e]
  exact slotsOnly_trans _ _ _ (slotsOnly_writeByte _ _) (slotsOnly_foldl_writeByte _ _)

theorem slotsOnly_readByte (w : World) (bus : Bus) : SlotsOnly bus (readByte w bus).2 := by
  obtain ⟨samples, _, ht, _⟩ := readByte_spec w bus
  exact ⟨rdEvents samples, ht, rdEvents_slots samples⟩

theorem slotsOnly_readData (w : World) (buf : List Nat) (n : Nat) (bus : Bus) :
    SlotsOnly bus (tsReadData w buf n bus).2 := by
  unfold tsReadData
  induction n with
  | zero => exact slotsOnly_refl bus
  | succ n ih =>
    rw [List.range_succ, List.foldl_append, List.foldl_cons, List.foldl_nil]
    exact slotsOnly_trans _ _ _ ih (slotsOnly_readByte w _)

theorem slotsOnly_waitReady (w : World) (fuel : Nat) (bus b2 : Bus)
    (h : waitReady w fuel bus = some b2) : SlotsOnly bus b2 := by
  obtain ⟨zeros, last, _, _, _, ht⟩ := waitReady_spec w fuel bus b2 h
  exact ⟨rdEvents (zeros ++ [last]), ht, rdEvents_slots _⟩

/-- An operation made of one reset followed, on presence, by time slots only. -/
theorem reports_after_reset (w : World) (bus : Bus) (val : Int) (bus2 : Bus)
    (hok : (tsMstRst w bus).1 = 0 → val ≠ -1 ∧ SlotsOnly (tsMstRst w bus).2 bus2)
    (hfail : ¬ (tsMstRst w bus).1 = 0 → val = -1 ∧ bus2 = (tsMstRst w bus).2) :
    ReportsNoPresence bus val bus2 := by
  by_cases h1 : (tsMstRst w bus).1 = 0
  · obtain ⟨hv, S, ht, hs⟩ := hok h1
    have hlow := (tsMstRst_zero_iff w bus).mp h1
    refine ⟨resetEvents (w (bus.trace ++ resetPulse) % 256) ++ S, ?_, ?_⟩
    · rw [ht, tsMstRst_trace, List.append_assoc]
    · rw [presenceSamples_append, resetEvents_presence, (slots_no_reset S hs).2]
      constructor
      · intro h; exact absurd h hv
      · rintro ⟨v, hv2, hne⟩
        simp only [List.append_nil, List.mem_singleton] at hv2
        rw [hv2] at hne
        exact absurd hlow hne
  · obtain ⟨hv, hb⟩ := hfail h1
    refine ⟨resetEvents (w (bus.trace ++ resetPulse) % 256), ?_, ?_⟩
    · rw [hb, tsMstRst_trace]
    · rw [resetEvents_presence]
      exact ⟨fun _ => ⟨_, by simp, fun h => h1 ((tsMstRst_zero_iff w bus).mpr h)⟩, fun _ => hv⟩

/-- Two operations in sequence, the second run only if the first did not fail. -/
theorem reports_seq (a b c : Bus) (v1 v2 : Int) (h1 : ReportsNoPresence a v1 b)
    (hv1 : v1 ≠ -1) (h2 : ReportsNoPresence b v2 c) : ReportsNoPresence a v2 c := by
  obtain ⟨e1, ht1, hi1⟩ := h1
  obtain ⟨e2, ht2, hi2⟩ := h2
  refine ⟨e1 ++ e2, by rw [ht2, ht1, List.append_assoc], ?_⟩
  rw [presenceSamples_append, hi2]
  constructor
  · rintro ⟨v, hv, hne⟩
    exact ⟨v, List.mem_append_right _ hv, hne⟩
  · rintro ⟨v, hv, hne⟩
    rcases List.mem_append.mp hv with h | h
    · exact absurd (hi1.mpr ⟨v, h, hne⟩) hv1
    · exact ⟨v, h, hne⟩

theorem reports_tsWrite (w : World) (byte : Nat) (bus : Bus) :
    ReportsNoPresence bus (tsWrite w byte bus).1 (tsWrite w byte bus).2 := by
  apply reports_after_reset w
  · intro h
    unfold tsWrite
    rw [if_pos h]
    refine ⟨?_, slotsOnly_writeByte _ _⟩
    simp only [tsWriteByte_val]
    omega
  · intro h
    unfold tsWrite
    rw [if_neg h]
    exact ⟨rfl, rfl⟩

theorem reports_tsGetAddr (w : World) (sensor : DS18B20) (bus : Bus) :
    ReportsNoPresence bus (tsGetAddr w sensor bus).1 (tsGetAddr w sensor bus).2.2 := by
  apply reports_after_reset w
  · intro h
    unfold tsGetAddr
    rw [if_pos h]
    exact ⟨zero_ne_neg_one, slotsOnly_trans _ _ _ (slotsOnly_writeByte _ _)
      (slotsOnly_readData _ _ _ _)⟩
  · intro h
    unfold tsGetAddr
    rw [if_neg h]
    exact ⟨rfl, rfl⟩

theorem reports_tsReadSPad (w : World) (sensor : DS18B20) (bus : Bus) :
    ReportsNoPresence bus (tsReadSPad w sensor bus).1 (tsReadSPad w sensor bus).2.2 := by
  apply reports_after_reset w
  · intro h
    unfold tsReadSPad
    rw [if_pos h]
    exact ⟨zero_ne_neg_one, slotsOnly_trans _ _ _ (slotsOnly_matchAddr _ _)
      (slotsOnly_trans _ _ _ (slotsOnly_writeByte _ _) (slotsOnly_readData _ _ _ _))⟩
  · intro h
    unfold tsReadSPad
    rw [if_neg h]
    exact ⟨rfl, rfl⟩

theorem reports_tsReadSPad_sS (w : World) (sensor : DS18B20) (bus : Bus) :
    ReportsNoPresence bus (tsReadSPad_sS w sensor bus).1 (tsReadSPad_sS w sensor bus).2.2 := by
  apply reports_after_reset w
  · intro h
    unfold tsReadSPad_sS
    rw [if_pos h]
    exact ⟨zero_ne_neg_one, slotsOnly_trans _ _ _ (slotsOnly_writeByte _ _)
      (slotsOnly_trans _ _ _ (slotsOnly_writeByte _ _) (slotsOnly_readData _ _ _ _))⟩
  · intro h
    unfold tsReadSPad_sS
    rw [if_neg h]
    exact ⟨rfl, rfl⟩

theorem slotsOnly_writeSpadBody (sensor : DS18B20) (hi lo cfg : Nat) (bus : Bus) :
    SlotsOnly bus (writeSpadBody sensor hi lo cfg bus).2 := by
  unfold writeSpadBody
  exact slotsOnly_trans _ _ _ (slotsOnly_writeByte _ _)
    (slotsOnly_trans _ _ _ (slotsOnly_writeByte _ _)
      (slotsOnly_trans _ _ _ (slotsOnly_writeByte _ _) (slotsOnly_writeByte _ _)))

theorem reports_tsWriteSpad (w : World) (sensor : DS18B20) (hi lo cfg : Nat) (bus : Bus) :
    ReportsNoPresence bus (tsWriteSpad w sensor hi lo cfg bus).1
      (tsWriteSpad w sensor hi lo cfg bus).2.2 := by
  apply reports_after_reset w
  · intro h
    unfold tsWriteSpad
    rw [if_pos h]
    exact ⟨zero_ne_neg_one, slotsOnly_trans _ _ _ (slotsOnly_matchAddr _ _)
      (slotsOnly_writeSpadBody _ _ _ _ _)⟩
  · intro h
    unfold tsWriteSpad
    rw [if_neg h]
    exact ⟨rfl, rfl⟩

theorem reports_tsWriteSpad_sS (w : World) (sensor : DS18B20) (hi lo cfg : Nat) (bus : Bus) :
    ReportsNoPresence bus (tsWriteSpad_sS w sensor hi lo cfg bus).1
      (tsWriteSpad_sS w sensor hi lo cfg bus).2.2 := by
  apply reports_after_reset w
  · intro h
    unfold tsWriteSpad_sS
    rw [if_pos h]
    exact ⟨zero_ne_neg_one, slotsOnly_trans _ _ _ (slotsOnly_writeByte _ _)
      (slotsOnly_writeSpadBody _ _ _ _ _)⟩
  · intro h
    unfold tsWriteSpad_sS
    rw [if_neg h]
    exact ⟨rfl, rfl⟩

theorem tsReadSPad_val_cases (w : World) (sensor : DS18B20) (bus : Bus) :
    (tsReadSPad w sensor bus).1 = 0 ∨ (tsReadSPad w sensor bus).1 = -1 := by
  unfold tsReadSPad
  split
  · exact Or.inl rfl
  · exact Or.inr rfl

theorem tsReadSPad_sS_val_cases (w : World) (sensor : DS18B20) (bus : Bus) :
    (tsReadSPad_sS w sensor bus).1 = 0 ∨ (tsReadSPad_sS w sensor bus).1 = -1 := by
  unfold tsReadSPad_sS
  split
  · exact Or.inl rfl
  · exact Or.inr rfl

theorem tsWriteSpad_val_cases (w : World) (sensor : DS18B20) (hi lo cfg : Nat) (bus : Bus) :
    (tsWriteSpad w sensor hi lo cfg bus).1 = 0 ∨ (tsWriteSpad w sensor hi lo cfg bus).1 = -1 := by
  unfold tsWriteSpad
  split
  · exact Or.inl rfl
  · exact Or.inr rfl

theorem tsWriteSpad_sS_val_cases (w : World) (sensor : DS18B20) (hi lo cfg : Nat) (bus : Bus) :
    (tsWriteSpad_sS w sensor hi lo cfg bus).1 = 0 ∨
      (tsWriteSpad_sS w sensor hi lo cfg bus).1 = -1 := by
  unfold tsWriteSpad_sS
  split
  · exact Or.inl rfl
  · exact Or.inr rfl

/-- A read followed, if it succeeded, by a write whose status is passed on. -/
theorem reports_read_then_write (bus : Bus) (rd : Int × DS18B20 × Bus)
    (wr : Int × DS18B20 × Bus) (val : Int) (bus2 : Bus)
    (hrd : ReportsNoPresence bus rd.1 rd.2.2) (hrdv : rd.1 = 0 ∨ rd.1 = -1)
    (hwr : ReportsNoPresence rd.2.2 wr.1 wr.2.2) (hwrv : wr.1 = 0 ∨ wr.1 = -1)
    (hval : val = if rd.1 = 0 then (if wr.1 = 0 then 0 else -1) else -1)
    (hbus : bus2 = if rd.1 = 0 then wr.2.2 else rd.2.2) :
    ReportsNoPresence bus val bus2 := by
  by_cases h : rd.1 = 0
  · rw [if_pos h] at hval hbus
    have hv : val = wr.1 := by
      rcases hwrv with h2 | h2
      · rw [hval, h2]; rfl
      · rw [hval, h2]; rfl
    rw [hv, hbus]
    exact reports_seq _ _ _ rd.1 wr.1 hrd (by rw [h]; decide) hwr
  · rw [if_neg h] at hval hbus
    have h1 : rd.1 = -1 := by
      rcases hrdv with h2 | h2
      · exact absurd h2 h
      · exact h2
    rw [hval, hbus, ← h1]
    exact hrd

theorem reports_tsConfig (w : World) (sensor : DS18B20) (config : Nat) (bus : Bus) :
    ReportsNoPresence bus (tsConfig w sensor config bus).1 (tsConfig w sensor config bus).2.2 := by
  apply reports_read_then_write bus (tsReadSPad w sensor bus)
    (tsWriteSpad w (tsReadSPad w sensor bus).2.1
      ((tsReadSPad w sensor bus).2.1.scrPad.getD TS_ALARM_HI 0)
      ((tsReadSPad w sensor bus).2.1.scrPad.getD TS_ALARM_LO 0) config
      (tsReadSPad w sensor bus).2.2)
  · exact reports_tsReadSPad w sensor bus
  · exact tsReadSPad_val_cases w sensor bus
  · exact reports_tsWriteSpad _ _ _ _ _ _
  · exact tsWriteSpad_val_cases _ _ _ _ _ _
  · unfold tsConfig
    simp only
    split <;> [split; skip] <;> rfl
  · unfold tsConfig
    simp only
    split <;> [split; skip] <;> rfl

theorem reports_tsConfig_sS (w : World) (sensor : DS18B20) (config : Nat) (bus : Bus) :
    ReportsNoPresence bus (tsConfig_sS w sensor config bus).1
      (tsConfig_sS w sensor config bus).2.2 := by
  apply reports_read_then_write bus (tsReadSPad_sS w sensor bus)
    (tsWriteSpad_sS w (tsReadSPad_sS w sensor bus).2.1
      ((tsReadSPad_sS w sensor bus).2.1.scrPad.getD TS_ALARM_HI 0)
      ((tsReadSPad_sS w sensor bus).2.1.scrPad.getD TS_ALARM_LO 0) config
      (tsReadSPad_sS w sensor bus).2.2)
  · exact reports_tsReadSPad_sS w sensor bus
  · exact tsReadSPad_sS_val_cases w sensor bus
  · exact reports_tsWriteSpad_sS _ _ _ _ _ _
  · exact tsWriteSpad_sS_val_cases _ _ _ _ _ _
  · unfold tsConfig_sS
    simp only
    split <;> [split; skip] <;> rfl
  · unfold tsConfig_sS
    simp only
    split <;> [split; skip] <;> rfl

theorem reports_tsSetAlarm (w : World) (sensor : DS18B20) (hi lo : Nat) (bus : Bus) :
    ReportsNoPresence bus (tsSetAlarm w sensor hi lo bus).1 (tsSetAlarm w sensor hi lo bus).2.2 := by
  apply reports_read_then_write bus (tsReadSPad w sensor bus)
    (tsWriteSpad w (tsReadSPad w sensor bus).2.1 hi lo
      ((tsReadSPad w sensor bus).2.1.scrPad.getD TS_CONFIG 0) (tsReadSPad w sensor bus).2.2)
  · exact reports_tsReadSPad w sensor bus
  · exact tsReadSPad_val_cases w sensor bus
  · exact reports_tsWriteSpad _ _ _ _ _ _
  · exact tsWriteSpad_val_cases _ _ _ _ _ _
  · unfold tsSetAlarm
    simp only
    split <;> [split; skip] <;> rfl
  · unfold tsSetAlarm
    simp only
    split <;> [split; skip] <;> rfl

theorem reports_tsSetAlarm_sS (w : World) (sensor : DS18B20) (hi lo : Nat) (bus : Bus) :
    ReportsNoPresence bus (tsSetAlarm_sS w sensor hi lo bus).1
      (tsSetAlarm_sS w sensor hi lo bus).2.2 := by
  apply reports_read_then_write bus (tsReadSPad_sS w sensor bus)
    (tsWriteSpad_sS w (tsReadSPad_sS w sensor bus).2.1 hi lo
      ((tsReadSPad_sS w sensor bus).2.1.scrPad.getD TS_CONFIG 0)
      (tsReadSPad_sS w sensor bus).2.2)
  · exact reports_tsReadSPad_sS w sensor bus
  · exact tsReadSPad_sS_val_cases w sensor bus
  · exact reports_tsWriteSpad_sS _ _ _ _ _ _
  · exact tsWriteSpad_sS_val_cases _ _ _ _ _ _
  · unfold tsSetAlarm_sS
    simp only
    split <;> [split; skip] <;> rfl
  · unfold tsSetAlarm_sS
    simp only
    split <;> [split; skip] <;> rfl

/-- A reset that succeeded, slots, then a second reset with slots on presence. -/
theorem reports_two_resets (w : World) (bus b1 : Bus) (val : Int) (bus2 : Bus)
    (h1 : (tsMstRst w bus).1 = 0) (hs : SlotsOnly (tsMstRst w bus).2 b1)
    (hok : (tsMstRst w b1).1 = 0 → val ≠ -1 ∧ SlotsOnly (tsMstRst w b1).2 bus2)
    (hfail : ¬ (tsMstRst w b1).1 = 0 → val = -1 ∧ bus2 = (tsMstRst w b1).2) :
    ReportsNoPresence bus val bus2 :=
  reports_seq bus b1 bus2 0 val
    (reports_after_reset w bus 0 b1 (fun _ => ⟨zero_ne_neg_one, hs⟩) (fun h => absurd h1 h))
    zero_ne_neg_one (reports_after_reset w b1 val bus2 hok hfail)

theorem reports_tsReadTemp (w : World) (fuel : Nat) (sensor : DS18B20) (bus : Bus)
    (r : Int × DS18B20 × Bus) (hr : tsReadTemp w fuel sensor bus = some r) :
    ReportsNoPresence bus r.1 r.2.2 := by
  unfold tsReadTemp at hr
  by_cases h1 : (tsMstRst w bus).1 = 0
  · rw [if_pos h1] at hr
    simp only at hr
    cases hw : waitReady w fuel (tsWriteByte CONVERT_T (tsMatchAddr sensor (tsMstRst w bus).2)).2 with
    | none => rw [hw] at hr; simp at hr
    | some b2 =>
      rw [hw] at hr
      simp only at hr
      apply reports_two_resets w bus b2 r.1 r.2.2 h1
      · exact slotsOnly_trans _ _ _ (slotsOnly_matchAddr _ _)
          (slotsOnly_trans _ _ _ (slotsOnly_writeByte _ _) (slotsOnly_waitReady _ _ _ _ hw))
      · intro h2
        rw [if_pos h2] at hr
        rw [← Option.some.inj hr]
        exact ⟨zero_ne_neg_one, slotsOnly_trans _ _ _ (slotsOnly_matchAddr _ _)
          (slotsOnly_trans _ _ _ (slotsOnly_writeByte _ _) (slotsOnly_readData _ _ _ _))⟩
      · intro h2
        rw [if_neg h2] at hr
        rw [← Option.some.inj hr]
        exact ⟨rfl, rfl⟩
  · rw [if_neg h1] at hr
    rw [← Option.some.inj hr]
    exact reports_after_reset w bus _ _ (fun h => absurd h h1) (fun _ => ⟨rfl, rfl⟩)

theorem reports_tsReadTemp_sS (w : World) (fuel : Nat) (sensor : DS18B20) (bus : Bus)
    (r : Int × DS18B20 × Bus) (hr : tsReadTemp_sS w fuel sensor bus = some r) :
    ReportsNoPresence bus r.1 r.2.2 := by
  unfold tsReadTemp_sS at hr
  by_cases h1 : (tsMstRst w bus).1 = 0
  · rw [if_pos h1] at hr
    simp only at hr
    cases hw : waitReady w fuel
        (tsWriteByte CONVERT_T (tsWriteByte SKIP_ROM (tsMstRst w bus).2).2).2 with
    | none => rw [hw] at hr; simp at hr
    | some b2 =>
      rw [hw] at hr
      simp only at hr
      apply reports_two_resets w bus b2 r.1 r.2.2 h1
      · exact slotsOnly_trans _ _ _ (slotsOnly_writeByte _ _)
          (slotsOnly_trans _ _ _ (slotsOnly_writeByte _ _) (slotsOnly_waitReady _ _ _ _ hw))
      · intro h2
        rw [if_pos h2] at hr
        rw [← Option.some.inj hr]
        exact ⟨zero_ne_neg_one, slotsOnly_trans _ _ _ (slotsOnly_writeByte _ _)
          (slotsOnly_trans _ _ _ (slotsOnly_readData _ _ _ _)
            (slotsOnly_trans _ _ _ (slotsOnly_writeByte _ _) (slotsOnly_readData _ _ _ _)))⟩
      · intro h2
        rw [if_neg h2] at hr
        rw [← Option.some.inj hr]
        exact ⟨rfl, rfl⟩
  · rw [if_neg h1] at hr
    rw [← Option.some.inj hr]
    exact reports_after_reset w bus _ _ (fun h => absurd h h1) (fun _ => ⟨rfl, rfl⟩)

theorem reports_tsCopySpad (w : World) (fuel : Nat) (sensor : DS18B20) (bus : Bus)
    (r : Int × Bus) (hr : tsCopySpad w fuel sensor bus = some r) :
    ReportsNoPresence bus r.1 r.2 := by
  unfold tsCopySpad at hr
  by_cases h1 : (tsMstRst w bus).1 = 0
  · rw [if_pos h1] at hr
    simp only at hr
    cases hw : waitReady w fuel (tsWriteByte COPY_SPAD (tsMatchAddr sensor (tsMstRst w bus).2)).2 with
    | none => rw [hw] at hr; simp at hr
    | some b2 =>
      rw [hw] at hr
      rw [← Option.some.inj hr]
      exact reports_after_reset w bus _ _
        (fun _ => ⟨zero_ne_neg_one, slotsOnly_trans _ _ _ (slotsOnly_matchAddr _ _)
          (slotsOnly_trans _ _ _ (slotsOnly_writeByte _ _) (slotsOnly_waitReady _ _ _ _ hw))⟩)
        (fun h => absurd h1 h)
  · rw [if_neg h1] at hr
    rw [← Option.some.inj hr]
    exact reports_after_reset w bus _ _ (fun h => absurd h h1) (fun _ => ⟨rfl, rfl⟩)

theorem reports_tsCopySpad_sS (w : World) (fuel : Nat) (sensor : DS18B20) (bus : Bus)
    (r : Int × Bus) (hr : tsCopySpad_sS w fuel sensor bus = some r) :
    ReportsNoPresence bus r.1 r.2 := by
  unfold tsCopySpad_sS at hr
  by_cases h1 : (tsMstRst w bus).1 = 0
  · rw [if_pos h1] at hr
    simp only at hr
    cases hw : waitReady w fuel
        (tsWriteByte COPY_SPAD (tsWriteByte SKIP_ROM (tsMstRst w bus).2).2).2 with
    | none => rw [hw] at hr; simp at hr
    | some b2 =>
      rw [hw] at hr
      rw [← Option.some.inj hr]
      exact reports_after_reset w bus _ _
        (fun _ => ⟨zero_ne_neg_one, slotsOnly_trans _ _ _ (slotsOnly_writeByte _ _)
          (slotsOnly_trans _ _ _ (slotsOnly_writeByte _ _) (slotsOnly_waitReady _ _ _ _ hw))⟩)
        (fun h => absurd h1 h)
  · rw [if_neg h1] at hr
    rw [← Option.some.inj hr]
    exact reports_after_reset w bus _ _ (fun h => absurd h h1) (fun _ => ⟨rfl, rfl⟩)

/-- Counterexample for C7: `tsConvertTemp` hands the caller the same (empty)
result whether its reset found no device or found one. -/
theorem tsConvertTemp_reports_nothing :
    (tsMstRst idleWorld bus0).1 = -1 ∧ (tsMstRst (simWorld []) bus0).1 = 0 ∧
    (tsConvertTemp idleWorld bus0).1 = (tsConvertTemp (simWorld []) bus0).1 ∧
    (tsConvertTemp idleWorld bus0).2.trace ≠ (tsConvertTemp (simWorld []) bus0).2.trace := by
  decide

theorem tsMstRst_neg_of_high (w : World) (bus : Bus)
    (h : (w (bus.trace ++ resetPulse) % 256) &&& TS_INBIT ≠ 0) : (tsMstRst w bus).1 = -1 :=
  tsMstRst_neg_of_ne w bus (fun h0 => h ((tsMstRst_zero_iff w bus).mp h0))

theorem status_of_second_sample (r1 : Int) (v2 : Nat)
    (h : (v2 &&& TS_INBIT ≠ 0 ∧ r1 = -1) ∨ (v2 &&& TS_INBIT = 0 ∧ r1 = 0)) :
    (r1 = -1 ↔ v2 &&& TS_INBIT ≠ 0) ∧ (r1 = 0 ↔ v2 &&& TS_INBIT = 0) := by
  rcases h with ⟨hne, hm⟩ | ⟨hlow, h0⟩
  · refine ⟨⟨fun _ => hne, fun _ => hm⟩, ⟨fun h0 => ?_, fun hl => absurd hl hne⟩⟩
    rw [hm] at h0
    exact absurd h0 (by decide)
  · refine ⟨⟨fun hm => ?_, fun hne => absurd hlow hne⟩, ⟨fun _ => hlow, fun _ => h0⟩⟩
    rw [h0] at hm
    exact absurd hm (by decide)

/-- C7 (amended): every operation that begins with a reset and returns a status
(`tsWrite`, `tsGetAddr`, `tsReadTemp`, `tsReadTemp_sS`, `tsReadSPad`,
`tsReadSPad_sS`, `tsWriteSpad`, `tsWriteSpad_sS`, `tsConfig`, `tsConfig_sS`,
`tsSetAlarm`, `tsSetAlarm_sS`, `tsCopySpad`, `tsCopySpad_sS`) returns `-1`
exactly when one of the presence samples taken inside it is high, so a failed
reset always gives a status different from the one returned on success. The
four operations with a ready poll return `-1` at once when their first presence
sample is high; when it is low and the poll ends within the fuel they return
too: `tsCopySpad` and `tsCopySpad_sS` return `0`, `tsReadTemp` and
`tsReadTemp_sS` return `-1` if the second presence sample is high and `0` if
it is low. -/
theorem failed_reset_is_reported (w : World) (fuel : Nat) (sensor : DS18B20) (bus : Bus)
    (byte alarmHi alarmLo config : Nat)
    (haddr : sensor.addr.length = 8) (hpad : sensor.scrPad.length = 9) :
    ReportsNoPresence bus (tsWrite w byte bus).1 (tsWrite w byte bus).2 ∧
    ReportsNoPresence bus (tsGetAddr w sensor bus).1 (tsGetAddr w sensor bus).2.2 ∧
    ReportsNoPresence bus (tsReadSPad w sensor bus).1 (tsReadSPad w sensor bus).2.2 ∧
    ReportsNoPresence bus (tsReadSPad_sS w sensor bus).1 (tsReadSPad_sS w sensor bus).2.2 ∧
    ReportsNoPresence bus (tsWriteSpad w sensor alarmHi alarmLo config bus).1
      (tsWriteSpad w sensor alarmHi alarmLo config bus).2.2 ∧
    ReportsNoPresence bus (tsWriteSpad_sS w sensor alarmHi alarmLo config bus).1
      (tsWriteSpad_sS w sensor alarmHi alarmLo config bus).2.2 ∧
    ReportsNoPresence bus (tsConfig w sensor config bus).1 (tsConfig w sensor config bus).2.2 ∧
    ReportsNoPresence bus (tsConfig_sS w sensor config bus).1
      (tsConfig_sS w sensor config bus).2.2 ∧
    ReportsNoPresence bus (tsSetAlarm w sensor alarmHi alarmLo bus).1
      (tsSetAlarm w sensor alarmHi alarmLo bus).2.2 ∧
    ReportsNoPresence bus (tsSetAlarm_sS w sensor alarmHi alarmLo bus).1
      (tsSetAlarm_sS w sensor alarmHi alarmLo bus).2.2 ∧
    ((w (bus.trace ++ resetPulse) % 256) &&& TS_INBIT ≠ 0 →
      tsReadTemp w fuel sensor bus = some (-1, sensor, (tsMstRst w bus).2) ∧
      tsReadTemp_sS w fuel sensor bus = some (-1, sensor, (tsMstRst w bus).2) ∧
      tsCopySpad w fuel sensor bus = some (-1, (tsMstRst w bus).2) ∧
      tsCopySpad_sS w fuel sensor bus = some (-1, (tsMstRst w bus).2)) ∧
    ((w (bus.trace ++ resetPulse) % 256) &&& TS_INBIT = 0 →
      pollEnds w fuel (bus.trace ++ resetEvents (w (bus.trace ++ resetPulse) % 256) ++
        wrBytes (MATCH_ROM :: sensor.addr ++ [CONVERT_T])) = true →
      ∃ (r : Int × DS18B20 × Bus) (zeros : List Nat) (last v2 : Nat),
        tsReadTemp w fuel sensor bus = some r ∧
        v2 = w (bus.trace ++ resetEvents (w (bus.trace ++ resetPulse) % 256) ++
          wrBytes (MATCH_ROM :: sensor.addr ++ [CONVERT_T]) ++
          rdEvents (zeros ++ [last]) ++ resetPulse) % 256 ∧
        (r.1 = -1 ↔ v2 &&& TS_INBIT ≠ 0) ∧ (r.1 = 0 ↔ v2 &&& TS_INBIT = 0) ∧
        ReportsNoPresence bus r.1 r.2.2) ∧
    ((w (bus.trace ++ resetPulse) % 256) &&& TS_INBIT = 0 →
      pollEnds w fuel (bus.trace ++ resetEvents (w (bus.trace ++ resetPulse) % 256) ++
        wrBytes [SKIP_ROM, CONVERT_T]) = true →
      ∃ (r : Int × DS18B20 × Bus) (zeros : List Nat) (last v2 : Nat),
        tsReadTemp_sS w fuel sensor bus = some r ∧
        v2 = w (bus.trace ++ resetEvents (w (bus.trace ++ resetPulse) % 256) ++
          wrBytes [SKIP_ROM, CONVERT_T] ++ rdEvents (zeros ++ [last]) ++ resetPulse) % 256 ∧
        (r.1 = -1 ↔ v2 &&& TS_INBIT ≠ 0) ∧ (r.1 = 0 ↔ v2 &&& TS_INBIT = 0) ∧
        ReportsNoPresence bus r.1 r.2.2) ∧
    ((w (bus.trace ++ resetPulse) % 256) &&& TS_INBIT = 0 →
      pollEnds w fuel (bus.trace ++ resetEvents (w (bus.trace ++ resetPulse) % 256) ++
        wrBytes (MATCH_ROM :: sensor.addr ++ [COPY_SPAD])) = true →
      ∃ b2 : Bus, tsCopySpad w fuel sensor bus = some (0, b2) ∧
        ReportsNoPresence bus 0 b2) ∧
    ((w (bus.trace ++ resetPulse) % 256) &&& TS_INBIT = 0 →
      pollEnds w fuel (bus.trace ++ resetEvents (w (bus.trace ++ resetPulse) % 256) ++
        wrBytes [SKIP_ROM, COPY_SPAD]) = true →
      ∃ b2 : Bus, tsCopySpad_sS w fuel sensor bus = some (0, b2) ∧
        ReportsNoPresence bus 0 b2) ∧
    (∀ r, tsReadTemp w fuel sensor bus = some r → ReportsNoPresence bus r.1 r.2.2) ∧
    (∀ r, tsReadTemp_sS w fuel sensor bus = some r → ReportsNoPresence bus r.1 r.2.2) ∧
    (∀ r, tsCopySpad w fuel sensor bus = some r → ReportsNoPresence bus r.1 r.2) ∧
    (∀ r, tsCopySpad_sS w fuel sensor bus = some r → ReportsNoPresence bus r.1 r.2) := by
  refine ⟨reports_tsWrite w byte bus, reports_tsGetAddr w sensor bus,
   reports_tsReadSPad w sensor bus, reports_tsReadSPad_sS w sensor bus,
   reports_tsWriteSpad w sensor alarmHi alarmLo config bus,
   reports_tsWriteSpad_sS w sensor alarmHi alarmLo config bus,
   reports_tsConfig w sensor config bus, reports_tsConfig_sS w sensor config bus,
   reports_tsSetAlarm w sensor alarmHi alarmLo bus,
   reports_tsSetAlarm_sS w sensor alarmHi alarmLo bus,
   fun hhigh => ?_, fun h1 hp => ?_, fun h1 hp => ?_, fun h1 hp => ?_, fun h1 hp => ?_,
   fun r hr => reports_tsReadTemp w fuel sensor bus r hr,
   fun r hr => reports_tsReadTemp_sS w fuel sensor bus r hr,
   fun r hr => reports_tsCopySpad w fuel sensor bus r hr,
   fun r hr => reports_tsCopySpad_sS w fuel sensor bus r hr⟩
  · have hneg := tsMstRst_neg_of_high w bus hhigh
    exact ⟨tsReadTemp_first_fail w fuel sensor bus hneg,
      tsReadTemp_sS_first_fail w fuel sensor bus hneg,
      tsCopySpad_first_fail w fuel sensor bus hneg,
      tsCopySpad_sS_first_fail w fuel sensor bus hneg⟩
  · obtain ⟨r, zeros, last, v2, hr, _, _, _, hv2, h⟩ :=
      tsReadTemp_runs w fuel sensor bus haddr hpad ((tsMstRst_zero_iff w bus).mpr h1) hp
    have hst := status_of_second_sample r.1 v2
      (h.imp (fun x => ⟨x.1, x.2.1⟩) (fun x => ⟨x.1, x.2.1⟩))
    exact ⟨r, zeros, last, v2, hr, hv2, hst.1, hst.2, reports_tsReadTemp w fuel sensor bus r hr⟩
  · obtain ⟨r, zeros, last, v2, hr, _, _, _, hv2, h⟩ :=
      tsReadTemp_sS_runs w fuel sensor bus haddr hpad ((tsMstRst_zero_iff w bus).mpr h1) hp
    have hst := status_of_second_sample r.1 v2
      (h.imp (fun x => ⟨x.1, x.2.1⟩) (fun x => ⟨x.1, x.2.1⟩))
    exact ⟨r, zeros, last, v2, hr, hv2, hst.1, hst.2,
      reports_tsReadTemp_sS w fuel sensor bus r hr⟩
  · obtain ⟨b2, _, _, hr, _⟩ :=
      tsCopySpad_runs w fuel sensor bus haddr ((tsMstRst_zero_iff w bus).mpr h1) hp
    exact ⟨b2, hr, reports_tsCopySpad w fuel sensor bus (0, b2) hr⟩
  · obtain ⟨b2, _, _, hr, _⟩ :=
      tsCopySpad_sS_runs w fuel sensor bus ((tsMstRst_zero_iff w bus).mpr h1) hp
    exact ⟨b2, hr, reports_tsCopySpad_sS w fuel sensor bus (0, b2) hr⟩

/-- Witness for C7 (amended): with nothing on the bus the four polling
operations return `-1` at once, and that status reports the missing presence
pulse; with a device that is ready at the third read slot `tsReadTemp` and
`tsCopySpad` return. -/
theorem failed_reset_is_reported_witness :
    dataSheetPad.addr.length = 8 ∧ dataSheetPad.scrPad.length = 9 ∧
    (idleWorld (bus0.trace ++ resetPulse) % 256) &&& TS_INBIT ≠ 0 ∧
    (tsReadTemp idleWorld 0 dataSheetPad bus0
        = some (-1, dataSheetPad, (tsMstRst idleWorld bus0).2) ∧
      tsReadTemp_sS idleWorld 0 dataSheetPad bus0
        = some (-1, dataSheetPad, (tsMstRst idleWorld bus0).2) ∧
      tsCopySpad idleWorld 0 dataSheetPad bus0 = some (-1, (tsMstRst idleWorld bus0).2) ∧
      tsCopySpad_sS idleWorld 0 dataSheetPad bus0 = some (-1, (tsMstRst idleWorld bus0).2)) ∧
    ReportsNoPresence bus0 (-1) (tsMstRst idleWorld bus0).2 ∧
    (∃ (r : Int × DS18B20 × Bus) (zeros : List Nat) (last v2 : Nat),
      tsReadTemp (simWorld [0, 0, 1]) 3 dataSheetPad bus0 = some r ∧
      v2 = simWorld [0, 0, 1] (bus0.trace ++
        resetEvents (simWorld [0, 0, 1] (bus0.trace ++ resetPulse) % 256) ++
        wrBytes (MATCH_ROM :: dataSheetPad.addr ++ [CONVERT_T]) ++
        rdEvents (zeros ++ [last]) ++ resetPulse) % 256 ∧
      (r.1 = -1 ↔ v2 &&& TS_INBIT ≠ 0) ∧ (r.1 = 0 ↔ v2 &&& TS_INBIT = 0) ∧
      ReportsNoPresence bus0 r.1 r.2.2) ∧
    (∃ b2 : Bus, tsCopySpad (simWorld [0, 0, 1]) 3 dataSheetPad bus0 = some (0, b2) ∧
      ReportsNoPresence bus0 0 b2) :=
  ⟨by decide, by decide, by decide,
   (failed_reset_is_reported idleWorld 0 dataSheetPad bus0 0 0 0 0 (by decide)
     (by decide)).2.2.2.2.2.2.2.2.2.2.1 (by decide),
   (failed_reset_is_reported idleWorld 0 dataSheetPad bus0 0 0 0 0 (by decide)
     (by decide)).2.2.2.2.2.2.2.2.2.2.2.2.2.2.2.1
     (-1, dataSheetPad, (tsMstRst idleWorld bus0).2) (by decide),
   (failed_reset_is_reported (simWorld [0, 0, 1]) 3 dataSheetPad bus0 0 0 0 0 (by decide)
     (by decide)).2.2.2.2.2.2.2.2.2.2.2.1 (by decide) (by decide!),
   (failed_reset_is_reported (simWorld [0, 0, 1]) 3 dataSheetPad bus0 0 0 0 0 (by decide)
     (by decide)).2.2.2.2.2.2.2.2.2.2.2.2.2.1 (by decide) (by decide!)⟩

/-! ## Scratchpad writes -/

theorem wrBytes_cons (b : Nat) (l : List Nat) : wrBytes (b :: l) = wrEvents b ++ wrBytes l := by
  simp [wrBytes]

theorem writeSpadBody_trace (sensor : DS18B20) (hi lo cfg : Nat) (bus : Bus) :
    (writeSpadBody sensor hi lo cfg bus).2.trace
      = bus.trace ++ wrBytes [WRITE_SPAD, hi, lo, cfg] := by
  unfold writeSpadBody
  simp only [tsWriteByte_trace, wrBytes_cons, List.append_assoc]
  simp [wrBytes]

theorem writeSpadBody_sensor (sensor : DS18B20) (hi lo cfg : Nat) (bus : Bus) :
    (writeSpadBody sensor hi lo cfg bus).1 = { sensor with
      scrPad := ((sensor.scrPad.set TS_ALARM_HI (hi % 256)).set TS_ALARM_LO (lo % 256)).set
        TS_CONFIG (cfg % 256) } := rfl

/-- The three stores of a scratchpad write, seen through `getD`. -/
theorem spad_sets_getD (pad : List Nat) (hi lo cfg : Nat) (hpad : pad.length = 9) :
    (((pad.set TS_ALARM_HI hi).set TS_ALARM_LO lo).set TS_CONFIG cfg).length = 9 ∧
    (((pad.set TS_ALARM_HI hi).set TS_ALARM_LO lo).set TS_CONFIG cfg).getD 2 0 = hi ∧
    (((pad.set TS_ALARM_HI hi).set TS_ALARM_LO lo).set TS_CONFIG cfg).getD 3 0 = lo ∧
    (((pad.set TS_ALARM_HI hi).set TS_ALARM_LO lo).set TS_CONFIG cfg).getD 4 0 = cfg ∧
    (∀ i, i ≠ 2 → i ≠ 3 → i ≠ 4 →
      (((pad.set TS_ALARM_HI hi).set TS_ALARM_LO lo).set TS_CONFIG cfg).getD i 0
        = pad.getD i 0) := by
  refine ⟨by simp [hpad], ?_, ?_, ?_, ?_⟩
  · simp [TS_ALARM_HI, TS_ALARM_LO, TS_CONFIG, List.getD_eq_getElem?_getD, List.getElem?_set,
      hpad]
  · simp [TS_ALARM_HI, TS_ALARM_LO, TS_CONFIG, List.getD_eq_getElem?_getD, List.getElem?_set,
      hpad]
  · simp [TS_ALARM_HI, TS_ALARM_LO, TS_CONFIG, List.getD_eq_getElem?_getD, List.getElem?_set,
      hpad]
  · intro i h2 h3 h4
    simp only [TS_ALARM_HI, TS_ALARM_LO, TS_CONFIG, List.getD_eq_getElem?_getD,
      List.getElem?_set]
    rw [if_neg (fun h => h4 h.symm), if_neg (fun h => h3 h.symm), if_neg (fun h => h2 h.symm)]

theorem tsWriteSpad_ok (w : World) (sensor : DS18B20) (hi lo cfg : Nat) (bus : Bus)
    (haddr : sensor.addr.length = 8) (h : (tsMstRst w bus).1 = 0) :
    (tsWriteSpad w sensor hi lo cfg bus).1 = 0 ∧
    (tsWriteSpad w sensor hi lo cfg bus).2.1 = { sensor with
      scrPad := ((sensor.scrPad.set TS_ALARM_HI (hi % 256)).set TS_ALARM_LO (lo % 256)).set
        TS_CONFIG (cfg % 256) } ∧
    (tsWriteSpad w sensor hi lo cfg bus).2.2.trace
      = bus.trace ++ resetEvents (w (bus.trace ++ resetPulse) % 256) ++
        wrBytes (MATCH_ROM :: sensor.addr) ++ wrBytes [WRITE_SPAD, hi, lo, cfg] := by
  unfold tsWriteSpad
  rw [if_pos h]
  refine ⟨rfl, writeSpadBody_sensor _ _ _ _ _, ?_⟩
  simp only
  rw [writeSpadBody_trace, tsMatchAddr_trace _ _ haddr, tsMstRst_trace]

theorem tsWriteSpad_sS_ok (w : World) (sensor : DS18B20) (hi lo cfg : Nat) (bus : Bus)
    (h : (tsMstRst w bus).1 = 0) :
    (tsWriteSpad_sS w sensor hi lo cfg bus).1 = 0 ∧
    (tsWriteSpad_sS w sensor hi lo cfg bus).2.1 = { sensor with
      scrPad := ((sensor.scrPad.set TS_ALARM_HI (hi % 256)).set TS_ALARM_LO (lo % 256)).set
        TS_CONFIG (cfg % 256) } ∧
    (tsWriteSpad_sS w sensor hi lo cfg bus).2.2.trace
      = bus.trace ++ resetEvents (w (bus.trace ++ resetPulse) % 256) ++
        wrBytes [SKIP_ROM] ++ wrBytes [WRITE_SPAD, hi, lo, cfg] := by
  unfold tsWriteSpad_sS
  rw [if_pos h]
  refine ⟨rfl, writeSpadBody_sensor _ _ _ _ _, ?_⟩
  simp only
  rw [writeSpadBody_trace, tsWriteByte_trace, tsMstRst_trace, wrBytes_singleton]

theorem tsWriteSpad_fail (w : World) (sensor : DS18B20) (hi lo cfg : Nat) (bus : Bus)
    (h : (tsMstRst w bus).1 = -1) :
    tsWriteSpad w sensor hi lo cfg bus = (-1, sensor, (tsMstRst w bus).2) := by
  unfold tsWriteSpad
  rw [if_neg (by rw [h]; decide)]

theorem tsWriteSpad_sS_fail (w : World) (sensor : DS18B20) (hi lo cfg : Nat) (bus : Bus)
    (h : (tsMstRst w bus).1 = -1) :
    tsWriteSpad_sS w sensor hi lo cfg bus = (-1, sensor, (tsMstRst w bus).2) := by
  unfold tsWriteSpad_sS
  rw [if_neg (by rw [h]; decide)]

/-- C9: when its reset detects presence, `tsWriteSpad` sends after the MatchROM
sequence exactly the bytes `0x4E`, `alarmHi`, `alarmLo`, `config`, returns `0`
and leaves `scrPad[2..4]` equal to the three bytes, everything else in the
handle unchanged; when the reset detects no presence it returns `-1`, sends
nothing and leaves the handle unchanged. `tsWriteSpad_sS` does the same with
the single byte `0xCC` in place of the MatchROM sequence. -/
theorem tsWriteSpad_transaction (w : World) (sensor : DS18B20) (alarmHi alarmLo config : Nat)
    (bus : Bus) (haddr : sensor.addr.length = 8) (hpad : sensor.scrPad.length = 9)
    (hhi : alarmHi < 256) (hlo : alarmLo < 256) (hcfg : config < 256)
    (f : World → DS18B20 → Nat → Nat → Nat → Bus → Int × DS18B20 × Bus) (rom : List Nat)
    (hf : (f = tsWriteSpad ∧ rom = 0x55 :: sensor.addr) ∨ (f = tsWriteSpad_sS ∧ rom = [0xCC])) :
    ((tsMstRst w bus).1 = 0 →
      (f w sensor alarmHi alarmLo config bus).1 = 0 ∧
      (f w sensor alarmHi alarmLo config bus).2.2.trace
        = bus.trace ++ resetEvents (w (bus.trace ++ resetPulse) % 256) ++
          wrBytes rom ++ wrBytes [0x4E, alarmHi, alarmLo, config] ∧
      (f w sensor alarmHi alarmLo config bus).2.1.scrPad.length = 9 ∧
      (f w sensor alarmHi alarmLo config bus).2.1.scrPad.getD 2 0 = alarmHi ∧
      (f w sensor alarmHi alarmLo config bus).2.1.scrPad.getD 3 0 = alarmLo ∧
      (f w sensor alarmHi alarmLo config bus).2.1.scrPad.getD 4 0 = config ∧
      (∀ i, i ≠ 2 → i ≠ 3 → i ≠ 4 →
        (f w sensor alarmHi alarmLo config bus).2.1.scrPad.getD i 0 = sensor.scrPad.getD i 0) ∧
      (f w sensor alarmHi alarmLo config bus).2.1.addr = sensor.addr ∧
      (f w sensor alarmHi alarmLo config bus).2.1.temp = sensor.temp) ∧
    ((tsMstRst w bus).1 = -1 →
      f w sensor alarmHi alarmLo config bus = (-1, sensor, (tsMstRst w bus).2) ∧
      (tsMstRst w bus).2.trace =
        bus.trace ++ resetPulse ++ [.sample (w (bus.trace ++ resetPulse) % 256)]) := by
  have hs := spad_sets_getD sensor.scrPad alarmHi alarmLo config hpad
  have e1 : alarmHi % 256 = alarmHi := Nat.mod_eq_of_lt hhi
  have e2 : alarmLo % 256 = alarmLo := Nat.mod_eq_of_lt hlo
  have e3 : config % 256 = config := Nat.mod_eq_of_lt hcfg
  rcases hf with ⟨rfl, rfl⟩ | ⟨rfl, rfl⟩
  · constructor
    · intro h
      obtain ⟨h0, hsen, htr⟩ := tsWriteSpad_ok w sensor alarmHi alarmLo config bus haddr h
      rw [e1, e2, e3] at hsen
      rw [hsen]
      exact ⟨h0, htr, hs.1, hs.2.1, hs.2.2.1, hs.2.2.2.1, hs.2.2.2.2, rfl, rfl⟩
    · intro h
      exact ⟨tsWriteSpad_fail w sensor alarmHi alarmLo config bus h, tsMstRst_fail_trace w bus h⟩
  · constructor
    · intro h
      obtain ⟨h0, hsen, htr⟩ := tsWriteSpad_sS_ok w sensor alarmHi alarmLo config bus h
      rw [e1, e2, e3] at hsen
      rw [hsen]
      exact ⟨h0, htr, hs.1, hs.2.1, hs.2.2.1, hs.2.2.2.1, hs.2.2.2.2, rfl, rfl⟩
    · intro h
      exact ⟨tsWriteSpad_sS_fail w sensor alarmHi alarmLo config bus h,
        tsMstRst_fail_trace w bus h⟩

/-- Witness for C9: a write of `0x46`, `0x0A`, `0x1F` to a device that is present. -/
theorem tsWriteSpad_transaction_witness :
    dataSheetPad.addr.length = 8 ∧ dataSheetPad.scrPad.length = 9 ∧
    (tsMstRst (simWorld []) bus0).1 = 0 ∧
    (tsWriteSpad (simWorld []) dataSheetPad 0x46 0x0A 0x1F bus0).1 = 0 ∧
    (tsWriteSpad (simWorld []) dataSheetPad 0x46 0x0A 0x1F bus0).2.1.scrPad
      = [0x50, 0x05, 0x46, 0x0A, 0x1F, 0xFF, 0x0C, 0x10, 0x1C] :=
  ⟨by decide, by decide, by decide,
   ((tsWriteSpad_transaction (simWorld []) dataSheetPad 0x46 0x0A 0x1F bus0 (by decide)
      (by decide) (by decide) (by decide) (by decide) tsWriteSpad (0x55 :: dataSheetPad.addr)
      (Or.inl ⟨rfl, rfl⟩)).1 (by decide)).1,
   by decide⟩

/-! ## Read-modify-write of the scratchpad and the addressed temperature read -/

theorem presence_low_iff_zero (bus : Bus) (val : Int) (bus2 : Bus)
    (h : ReportsNoPresence bus val bus2) (hv : val = 0 ∨ val = -1) :
    val = 0 ↔ ∀ v ∈ presenceSamples (bus2.trace.drop bus.trace.length),
      v &&& TS_INBIT = 0 := by
  obtain ⟨evs, ht, hiff⟩ := h
  rw [ht, List.drop_left]
  constructor
  · intro h0 v hvm
    by_contra hne
    have := hiff.mpr ⟨v, hvm, hne⟩
    rw [h0] at this
    exact absurd this (by decide)
  · intro hall
    rcases hv with h0 | h1
    · exact h0
    · obtain ⟨v, hvm, hne⟩ := hiff.mp h1
      exact absurd (hall v hvm) hne

theorem tsReadSPad_ok (w : World) (sensor : DS18B20) (bus : Bus)
    (haddr : sensor.addr.length = 8) (hpad : sensor.scrPad.length = 9)
    (h : (tsMstRst w bus).1 = 0) :
    ∃ samples : List Nat, samples.length = 72 ∧
      (tsReadSPad w sensor bus).1 = 0 ∧
      (tsReadSPad w sensor bus).2.1 = decodeTemp { sensor with scrPad := packBytes 9 samples } ∧
      (tsReadSPad w sensor bus).2.2.trace
        = bus.trace ++ resetEvents (w (bus.trace ++ resetPulse) % 256) ++
          wrBytes (MATCH_ROM :: sensor.addr ++ [READ_SPAD]) ++ rdEvents samples := by
  obtain ⟨samples, hlen, htr, hval⟩ := tsReadData_nine w sensor.scrPad
    (tsWriteByte READ_SPAD (tsMatchAddr sensor (tsMstRst w bus).2)).2 hpad
  refine ⟨samples, hlen, ?_, ?_, ?_⟩
  · unfold tsReadSPad; rw [if_pos h]
  · unfold tsReadSPad; rw [if_pos h]; simp only; rw [hval]
  · unfold tsReadSPad; rw [if_pos h]; simp only
    rw [htr, tsWriteByte_trace, tsMatchAddr_trace _ _ haddr, tsMstRst_trace, wrBytes_append,
      wrBytes_singleton]
    simp only [List.append_assoc]

theorem tsReadSPad_sS_ok (w : World) (sensor : DS18B20) (bus : Bus)
    (hpad : sensor.scrPad.length = 9) (h : (tsMstRst w bus).1 = 0) :
    ∃ samples : List Nat, samples.length = 72 ∧
      (tsReadSPad_sS w sensor bus).1 = 0 ∧
      (tsReadSPad_sS w sensor bus).2.1
        = decodeTemp { sensor with scrPad := packBytes 9 samples } ∧
      (tsReadSPad_sS w sensor bus).2.2.trace
        = bus.trace ++ resetEvents (w (bus.trace ++ resetPulse) % 256) ++
          wrBytes ([SKIP_ROM] ++ [READ_SPAD]) ++ rdEvents samples := by
  obtain ⟨samples, hlen, htr, hval⟩ := tsReadData_nine w sensor.scrPad
    (tsWriteByte READ_SPAD (tsWriteByte SKIP_ROM (tsMstRst w bus).2).2).2 hpad
  refine ⟨samples, hlen, ?_, ?_, ?_⟩
  · unfold tsReadSPad_sS; rw [if_pos h]
  · unfold tsReadSPad_sS; rw [if_pos h]; simp only; rw [hval]
  · unfold tsReadSPad_sS; rw [if_pos h]; simp only
    rw [htr, tsWriteByte_trace, tsWriteByte_trace, tsMstRst_trace, wrBytes_append,
      wrBytes_singleton, wrBytes_singleton]
    simp only [List.append_assoc]

theorem tsReadSPad_zero (w : World) (sensor : DS18B20) (bus : Bus)
    (h : (tsReadSPad w sensor bus).1 = 0) : (tsMstRst w bus).1 = 0 := by
  by_contra hne
  unfold tsReadSPad at h
  rw [if_neg hne] at h
  simp at h

theorem tsReadSPad_sS_zero (w : World) (sensor : DS18B20) (bus : Bus)
    (h : (tsReadSPad_sS w sensor bus).1 = 0) : (tsMstRst w bus).1 = 0 := by
  by_contra hne
  unfold tsReadSPad_sS at h
  rw [if_neg hne] at h
  simp at h

theorem tsWriteSpad_zero (w : World) (sensor : DS18B20) (hi lo cfg : Nat) (bus : Bus)
    (h : (tsWriteSpad w sensor hi lo cfg bus).1 = 0) : (tsMstRst w bus).1 = 0 := by
  by_contra hne
  unfold tsWriteSpad at h
  rw [if_neg hne] at h
  simp at h

theorem tsWriteSpad_sS_zero (w : World) (sensor : DS18B20) (hi lo cfg : Nat) (bus : Bus)
    (h : (tsWriteSpad_sS w sensor hi lo cfg bus).1 = 0) : (tsMstRst w bus).1 = 0 := by
  by_contra hne
  unfold tsWriteSpad_sS at h
  rw [if_neg hne] at h
  simp at h

/-- The history of a successful addressed read followed by a successful addressed write. -/
theorem read_write_trace (w : World) (sensor : DS18B20) (bus : Bus) (hi lo cfg : Nat)
    (haddr : sensor.addr.length = 8) (hpad : sensor.scrPad.length = 9)
    (h1 : (tsReadSPad w sensor bus).1 = 0)
    (h2 : (tsWriteSpad w (tsReadSPad w sensor bus).2.1 hi lo cfg
      (tsReadSPad w sensor bus).2.2).1 = 0) :
    ∃ (v1 v2 : Nat) (samples : List Nat), samples.length = 72 ∧
      v1 &&& TS_INBIT = 0 ∧ v2 &&& TS_INBIT = 0 ∧
      (tsReadSPad w sensor bus).2.1.scrPad = packBytes 9 samples ∧
      (tsWriteSpad w (tsReadSPad w sensor bus).2.1 hi lo cfg
          (tsReadSPad w sensor bus).2.2).2.2.trace
        = bus.trace ++ resetEvents v1 ++ wrBytes (0x55 :: sensor.addr ++ [0xBE]) ++
          rdEvents samples ++ resetEvents v2 ++ wrBytes (0x55 :: sensor.addr) ++
          wrBytes [0x4E, hi, lo, cfg] := by
  have hr1 := tsReadSPad_zero w sensor bus h1
  obtain ⟨samples, hlen, _, hsen, htr⟩ := tsReadSPad_ok w sensor bus haddr hpad hr1
  have hr2 := tsWriteSpad_zero _ _ _ _ _ _ h2
  have haddr2 : (tsReadSPad w sensor bus).2.1.addr.length = 8 := by
    rw [hsen, decodeTemp_addr]; exact haddr
  obtain ⟨_, _, htr2⟩ := tsWriteSpad_ok w (tsReadSPad w sensor bus).2.1 hi lo cfg
    (tsReadSPad w sensor bus).2.2 haddr2 hr2
  refine ⟨_, _, samples, hlen, (tsMstRst_zero_iff w bus).mp hr1,
    (tsMstRst_zero_iff w _).mp hr2, by rw [hsen, decodeTemp_scrPad], ?_⟩
  rw [htr2, htr]
  have ha : (tsReadSPad w sensor bus).2.1.addr = sensor.addr := by
    rw [hsen, decodeTemp_addr]
  rw [ha]
  rfl

/-- The history of a successful broadcast read followed by a successful broadcast write. -/
theorem read_write_trace_sS (w : World) (sensor : DS18B20) (bus : Bus) (hi lo cfg : Nat)
    (hpad : sensor.scrPad.length = 9)
    (h1 : (tsReadSPad_sS w sensor bus).1 = 0)
    (h2 : (tsWriteSpad_sS w (tsReadSPad_sS w sensor bus).2.1 hi lo cfg
      (tsReadSPad_sS w sensor bus).2.2).1 = 0) :
    ∃ (v1 v2 : Nat) (samples : List Nat), samples.length = 72 ∧
      v1 &&& TS_INBIT = 0 ∧ v2 &&& TS_INBIT = 0 ∧
      (tsReadSPad_sS w sensor bus).2.1.scrPad = packBytes 9 samples ∧
      (tsWriteSpad_sS w (tsReadSPad_sS w sensor bus).2.1 hi lo cfg
          (tsReadSPad_sS w sensor bus).2.2).2.2.trace
        = bus.trace ++ resetEvents v1 ++ wrBytes ([0xCC] ++ [0xBE]) ++
          rdEvents samples ++ resetEvents v2 ++ wrBytes [0xCC] ++
          wrBytes [0x4E, hi, lo, cfg] := by
  have hr1 := tsReadSPad_sS_zero w sensor bus h1
  obtain ⟨samples, hlen, _, hsen, htr⟩ := tsReadSPad_sS_ok w sensor bus hpad hr1
  have hr2 := tsWriteSpad_sS_zero _ _ _ _ _ _ h2
  obtain ⟨_, _, htr2⟩ := tsWriteSpad_sS_ok w (tsReadSPad_sS w sensor bus).2.1 hi lo cfg
    (tsReadSPad_sS w sensor bus).2.2 hr2
  refine ⟨_, _, samples, hlen, (tsMstRst_zero_iff w bus).mp hr1,
    (tsMstRst_zero_iff w _).mp hr2, by rw [hsen, decodeTemp_scrPad], ?_⟩
  rw [htr2, htr]
  rfl

theorem tsConfig_unfold (w : World) (sensor : DS18B20) (config : Nat) (bus : Bus) :
    ((tsConfig w sensor config bus).1 = 0 ∨ (tsConfig w sensor config bus).1 = -1) ∧
    ((tsConfig w sensor config bus).1 = 0 →
      (tsReadSPad w sensor bus).1 = 0 ∧
      (tsWriteSpad w (tsReadSPad w sensor bus).2.1
        ((tsReadSPad w sensor bus).2.1.scrPad.getD TS_ALARM_HI 0)
        ((tsReadSPad w sensor bus).2.1.scrPad.getD TS_ALARM_LO 0) config
        (tsReadSPad w sensor bus).2.2).1 = 0 ∧
      (tsConfig w sensor config bus).2.2 =
        (tsWriteSpad w (tsReadSPad w sensor bus).2.1
          ((tsReadSPad w sensor bus).2.1.scrPad.getD TS_ALARM_HI 0)
          ((tsReadSPad w sensor bus).2.1.scrPad.getD TS_ALARM_LO 0) config
          (tsReadSPad w sensor bus).2.2).2.2) := by
  unfold tsConfig
  simp only
  split
  · split
    · rename_i h1 h2
      exact ⟨Or.inl rfl, fun _ => ⟨h1, h2, rfl⟩⟩
    · exact ⟨Or.inr rfl, fun h => by simp at h⟩
  · exact ⟨Or.inr rfl, fun h => by simp at h⟩

theorem tsConfig_sS_unfold (w : World) (sensor : DS18B20) (config : Nat) (bus : Bus) :
    ((tsConfig_sS w sensor config bus).1 = 0 ∨ (tsConfig_sS w sensor config bus).1 = -1) ∧
    ((tsConfig_sS w sensor config bus).1 = 0 →
      (tsReadSPad_sS w sensor bus).1 = 0 ∧
      (tsWriteSpad_sS w (tsReadSPad_sS w sensor bus).2.1
        ((tsReadSPad_sS w sensor bus).2.1.scrPad.getD TS_ALARM_HI 0)
        ((tsReadSPad_sS w sensor bus).2.1.scrPad.getD TS_ALARM_LO 0) config
        (tsReadSPad_sS w sensor bus).2.2).1 = 0 ∧
      (tsConfig_sS w sensor config bus).2.2 =
        (tsWriteSpad_sS w (tsReadSPad_sS w sensor bus).2.1
          ((tsReadSPad_sS w sensor bus).2.1.scrPad.getD TS_ALARM_HI 0)
          ((tsReadSPad_sS w sensor bus).2.1.scrPad.getD TS_ALARM_LO 0) config
          (tsReadSPad_sS w sensor bus).2.2).2.2) := by
  unfold tsConfig_sS
  simp only
  split
  · split
    · rename_i h1 h2
      exact ⟨Or.inl rfl, fun _ => ⟨h1, h2, rfl⟩⟩
    · exact ⟨Or.inr rfl, fun h => by simp at h⟩
  · exact ⟨Or.inr rfl, fun h => by simp at h⟩

theorem tsSetAlarm_unfold (w : World) (sensor : DS18B20) (hi lo : Nat) (bus : Bus) :
    ((tsSetAlarm w sensor hi lo bus).1 = 0 ∨ (tsSetAlarm w sensor hi lo bus).1 = -1) ∧
    ((tsSetAlarm w sensor hi lo bus).1 = 0 →
      (tsReadSPad w sensor bus).1 = 0 ∧
      (tsWriteSpad w (tsReadSPad w sensor bus).2.1 hi lo
        ((tsReadSPad w sensor bus).2.1.scrPad.getD TS_CONFIG 0)
        (tsReadSPad w sensor bus).2.2).1 = 0 ∧
      (tsSetAlarm w sensor hi lo bus).2.2 =
        (tsWriteSpad w (tsReadSPad w sensor bus).2.1 hi lo
          ((tsReadSPad w sensor bus).2.1.scrPad.getD TS_CONFIG 0)
          (tsReadSPad w sensor bus).2.2).2.2) := by
  unfold tsSetAlarm
  simp only
  split
  · split
    · rename_i h1 h2
      exact ⟨Or.inl rfl, fun _ => ⟨h1, h2, rfl⟩⟩
    · exact ⟨Or.inr rfl, fun h => by simp at h⟩
  · exact ⟨Or.inr rfl, fun h => by simp at h⟩

theorem tsSetAlarm_sS_unfold (w : World) (sensor : DS18B20) (hi lo : Nat) (bus : Bus) :
    ((tsSetAlarm_sS w sensor hi lo bus).1 = 0 ∨ (tsSetAlarm_sS w sensor hi lo bus).1 = -1) ∧
    ((tsSetAlarm_sS w sensor hi lo bus).1 = 0 →
      (tsReadSPad_sS w sensor bus).1 = 0 ∧
      (tsWriteSpad_sS w (tsReadSPad_sS w sensor bus).2.1 hi lo
        ((tsReadSPad_sS w sensor bus).2.1.scrPad.getD TS_CONFIG 0)
        (tsReadSPad_sS w sensor bus).2.2).1 = 0 ∧
      (tsSetAlarm_sS w sensor hi lo bus).2.2 =
        (tsWriteSpad_sS w (tsReadSPad_sS w sensor bus).2.1 hi lo
          ((tsReadSPad_sS w sensor bus).2.1.scrPad.getD TS_CONFIG 0)
          (tsReadSPad_sS w sensor bus).2.2).2.2) := by
  unfold tsSetAlarm_sS
  simp only
  split
  · split
    · rename_i h1 h2
      exact ⟨Or.inl rfl, fun _ => ⟨h1, h2, rfl⟩⟩
    · exact ⟨Or.inr rfl, fun h => by simp at h⟩
  · exact ⟨Or.inr rfl, fun h => by simp at h⟩

/-- C8: when both resets detect presence (equivalently, when the result is `0`),
`tsConfig` sends after the write-scratchpad code `0x4E` exactly the three bytes
(alarm-high byte just read, alarm-low byte just read, `config`), and
`tsSetAlarm` exactly (`alarmHi`, `alarmLo`, configuration byte just read); the
`_sS` variants do the same with `0xCC` as ROM command. The bytes kept are those
packed from the 72 samples of the read that precedes the write, not those the
handle held before the call. -/
theorem config_alarm_write_back (w : World) (sensor : DS18B20) (bus : Bus)
    (config alarmHi alarmLo : Nat)
    (haddr : sensor.addr.length = 8) (hpad : sensor.scrPad.length = 9)
    (r : Int × DS18B20 × Bus) (rom : List Nat) (sent : List Nat → List Nat)
    (hop : (r = tsConfig w sensor config bus ∧ rom = 0x55 :: sensor.addr ∧
          sent = fun pad => [pad.getD 2 0, pad.getD 3 0, config]) ∨
        (r = tsConfig_sS w sensor config bus ∧ rom = [0xCC] ∧
          sent = fun pad => [pad.getD 2 0, pad.getD 3 0, config]) ∨
        (r = tsSetAlarm w sensor alarmHi alarmLo bus ∧ rom = 0x55 :: sensor.addr ∧
          sent = fun pad => [alarmHi, alarmLo, pad.getD 4 0]) ∨
        (r = tsSetAlarm_sS w sensor alarmHi alarmLo bus ∧ rom = [0xCC] ∧
          sent = fun pad => [alarmHi, alarmLo, pad.getD 4 0])) :
    (r.1 = 0 ↔ ∀ v ∈ presenceSamples (r.2.2.trace.drop bus.trace.length),
      v &&& TS_INBIT = 0) ∧
    (r.1 = 0 → ∃ (v1 v2 : Nat) (samples : List Nat), samples.length = 72 ∧
      v1 &&& TS_INBIT = 0 ∧ v2 &&& TS_INBIT = 0 ∧
      r.2.2.trace = bus.trace ++ resetEvents v1 ++ wrBytes (rom ++ [0xBE]) ++
        rdEvents samples ++ resetEvents v2 ++ wrBytes rom ++
        wrBytes (0x4E :: sent (packBytes 9 samples))) := by
  rcases hop with ⟨rfl, rfl, rfl⟩ | ⟨rfl, rfl, rfl⟩ | ⟨rfl, rfl, rfl⟩ | ⟨rfl, rfl, rfl⟩
  · obtain ⟨hv, hu⟩ := tsConfig_unfold w sensor config bus
    refine ⟨presence_low_iff_zero _ _ _ (reports_tsConfig w sensor config bus) hv, fun h0 => ?_⟩
    obtain ⟨h1, h2, hb⟩ := hu h0
    obtain ⟨v1, v2, samples, hlen, hv1, hv2, hp, ht⟩ :=
      read_write_trace w sensor bus _ _ _ haddr hpad h1 h2
    refine ⟨v1, v2, samples, hlen, hv1, hv2, ?_⟩
    rw [hb, ht, hp]
    rfl
  · obtain ⟨hv, hu⟩ := tsConfig_sS_unfold w sensor config bus
    refine ⟨presence_low_iff_zero _ _ _ (reports_tsConfig_sS w sensor config bus) hv,
      fun h0 => ?_⟩
    obtain ⟨h1, h2, hb⟩ := hu h0
    obtain ⟨v1, v2, samples, hlen, hv1, hv2, hp, ht⟩ :=
      read_write_trace_sS w sensor bus _ _ _ hpad h1 h2
    refine ⟨v1, v2, samples, hlen, hv1, hv2, ?_⟩
    rw [hb, ht, hp]
    rfl
  · obtain ⟨hv, hu⟩ := tsSetAlarm_unfold w sensor alarmHi alarmLo bus
    refine ⟨presence_low_iff_zero _ _ _ (reports_tsSetAlarm w sensor alarmHi alarmLo bus) hv,
      fun h0 => ?_⟩
    obtain ⟨h1, h2, hb⟩ := hu h0
    obtain ⟨v1, v2, samples, hlen, hv1, hv2, hp, ht⟩ :=
      read_write_trace w sensor bus _ _ _ haddr hpad h1 h2
    refine ⟨v1, v2, samples, hlen, hv1, hv2, ?_⟩
    rw [hb, ht, hp]
    rfl
  · obtain ⟨hv, hu⟩ := tsSetAlarm_sS_unfold w sensor alarmHi alarmLo bus
    refine ⟨presence_low_iff_zero _ _ _ (reports_tsSetAlarm_sS w sensor alarmHi alarmLo bus) hv,
      fun h0 => ?_⟩
    obtain ⟨h1, h2, hb⟩ := hu h0
    obtain ⟨v1, v2, samples, hlen, hv1, hv2, hp, ht⟩ :=
      read_write_trace_sS w sensor bus _ _ _ hpad h1 h2
    refine ⟨v1, v2, samples, hlen, hv1, hv2, ?_⟩
    rw [hb, ht, hp]
    rfl

/-- Witness for C8: the handle holds zeros, the device returns the data sheet
scratchpad, and `tsConfig` sends `0x4E`, `0x4B`, `0x46` and the new
configuration byte. -/
theorem config_alarm_write_back_witness :
    blankHandle.addr.length = 8 ∧ blankHandle.scrPad.length = 9 ∧
    (tsConfig (simWorld dataSheetBits) blankHandle 0x1F bus0).1 = 0 ∧
    ((tsConfig (simWorld dataSheetBits) blankHandle 0x1F bus0).2.2.trace.reverse.take 32
      = (wrBytes [0x4E, 0x4B, 0x46, 0x1F]).reverse) ∧
    (∀ v ∈ presenceSamples
        ((tsConfig (simWorld dataSheetBits) blankHandle 0x1F bus0).2.2.trace.drop
          bus0.trace.length),
      v &&& TS_INBIT = 0) :=
  ⟨by decide, by decide, by decide!, by decide!,
   (config_alarm_write_back (simWorld dataSheetBits) blankHandle bus0 0x1F 0 0 (by decide)
      (by decide) (tsConfig (simWorld dataSheetBits) blankHandle 0x1F bus0)
      (0x55 :: blankHandle.addr) (fun pad => [pad.getD 2 0, pad.getD 3 0, 0x1F])
      (Or.inl ⟨rfl, rfl, rfl⟩)).1.mp (by decide!)⟩

theorem tsReadTemp_result_shape (w : World) (fuel : Nat) (sensor : DS18B20) (bus : Bus)
    (r : Int × DS18B20 × Bus) (haddr : sensor.addr.length = 8)
    (hpad : sensor.scrPad.length = 9) (hr : tsReadTemp w fuel sensor bus = some r) :
    (r.1 = 0 ↔ ∀ v ∈ presenceSamples (r.2.2.trace.drop bus.trace.length),
      v &&& TS_INBIT = 0) ∧
    (r.1 = 0 → ∃ (v1 v2 : Nat) (zeros : List Nat) (last : Nat) (samples : List Nat),
      v1 &&& TS_INBIT = 0 ∧ v2 &&& TS_INBIT = 0 ∧
      (∀ z ∈ zeros, bitOf z = 0) ∧ bitOf last = 1 ∧ samples.length = 72 ∧
      (0x55 :: sensor.addr ++ [0x44]).length = 10 ∧
      (0x55 :: sensor.addr ++ [0xBE]).length = 10 ∧
      r.2.2.trace = bus.trace ++ resetEvents v1 ++ wrBytes (0x55 :: sensor.addr ++ [0x44]) ++
        rdEvents (zeros ++ [last]) ++ resetEvents v2 ++
        wrBytes (0x55 :: sensor.addr ++ [0xBE]) ++ rdEvents samples ∧
      r.2.1.scrPad = packBytes 9 samples ∧ r.2.1.addr = sensor.addr) := by
  have hout := tsReadTemp_outcome w fuel sensor bus r haddr hpad hr
  have hv : r.1 = 0 ∨ r.1 = -1 := by
    obtain ⟨_, _, _, _, h, _⟩ := hout
    exact h
  refine ⟨presence_low_iff_zero _ _ _ (reports_tsReadTemp w fuel sensor bus r hr) hv,
    fun h0 => ?_⟩
  obtain ⟨v1, _, h | ⟨hv1, zeros, last, v2, _, hz, hl, h | ⟨hv2, _, samples, hlen, hs, ht⟩⟩⟩ :=
    tsReadTemp_cases w fuel sensor bus r haddr hpad hr
  · rw [h.2.1] at h0; exact absurd h0 (by decide)
  · rw [h.2.1] at h0; exact absurd h0 (by decide)
  · exact ⟨v1, v2, zeros, last, samples, hv1, hv2, hz, hl, hlen, by simp [haddr],
      by simp [haddr], ht, by rw [hs, decodeTemp_scrPad], by rw [hs, decodeTemp_addr]⟩

/-- C10: when the first reset detects presence and the ready poll ends (a read
slot delivers 1 within the fuel), `tsReadTemp` returns; when the second reset
detects presence as well it returns `0`, and the history it leaves is exactly:
reset; the ten bytes `0x55`, `addr[0]`, ..., `addr[7]`, `0x44`; read slots that
deliver 0 and then one that delivers 1; reset; the ten bytes `0x55`,
`addr[0]`, ..., `addr[7]`, `0xBE`; 72 read slots, whose nine bytes become
`scrPad[0..8]` in order. It returns `0` only on that path, and every result it
returns at any fuel has this shape. -/
theorem tsReadTemp_transaction (w : World) (fuel : Nat) (sensor : DS18B20) (bus : Bus)
    (haddr : sensor.addr.length = 8) (hpad : sensor.scrPad.length = 9) :
    ((w (bus.trace ++ resetPulse) % 256) &&& TS_INBIT = 0 →
      pollEnds w fuel (bus.trace ++ resetEvents (w (bus.trace ++ resetPulse) % 256) ++
        wrBytes (0x55 :: sensor.addr ++ [0x44])) = true →
      ∃ (r : Int × DS18B20 × Bus) (zeros : List Nat) (last v2 : Nat),
        tsReadTemp w fuel sensor bus = some r ∧
        zeros.length < fuel ∧ (∀ z ∈ zeros, bitOf z = 0) ∧ bitOf last = 1 ∧
        v2 = w (bus.trace ++ resetEvents (w (bus.trace ++ resetPulse) % 256) ++
          wrBytes (0x55 :: sensor.addr ++ [0x44]) ++
          rdEvents (zeros ++ [last]) ++ resetPulse) % 256 ∧
        (r.1 = 0 ↔ v2 &&& TS_INBIT = 0) ∧
        (v2 &&& TS_INBIT = 0 → ∃ samples : List Nat, samples.length = 72 ∧
          (0x55 :: sensor.addr ++ [0x44]).length = 10 ∧
          (0x55 :: sensor.addr ++ [0xBE]).length = 10 ∧
          r.2.2.trace = bus.trace ++ resetEvents (w (bus.trace ++ resetPulse) % 256) ++
            wrBytes (0x55 :: sensor.addr ++ [0x44]) ++
            rdEvents (zeros ++ [last]) ++ resetEvents v2 ++
            wrBytes (0x55 :: sensor.addr ++ [0xBE]) ++ rdEvents samples ∧
          r.2.1.scrPad = packBytes 9 samples ∧ r.2.1.addr = sensor.addr ∧ r.1 = 0)) ∧
    (∀ r, tsReadTemp w fuel sensor bus = some r →
      (r.1 = 0 ↔ ∀ v ∈ presenceSamples (r.2.2.trace.drop bus.trace.length),
        v &&& TS_INBIT = 0) ∧
      (r.1 = 0 → ∃ (v1 v2 : Nat) (zeros : List Nat) (last : Nat) (samples : List Nat),
        v1 &&& TS_INBIT = 0 ∧ v2 &&& TS_INBIT = 0 ∧
        (∀ z ∈ zeros, bitOf z = 0) ∧ bitOf last = 1 ∧ samples.length = 72 ∧
        (0x55 :: sensor.addr ++ [0x44]).length = 10 ∧
        (0x55 :: sensor.addr ++ [0xBE]).length = 10 ∧
        r.2.2.trace = bus.trace ++ resetEvents v1 ++
          wrBytes (0x55 :: sensor.addr ++ [0x44]) ++
          rdEvents (zeros ++ [last]) ++ resetEvents v2 ++
          wrBytes (0x55 :: sensor.addr ++ [0xBE]) ++ rdEvents samples ∧
        r.2.1.scrPad = packBytes 9 samples ∧ r.2.1.addr = sensor.addr)) := by
  refine ⟨fun h1 hp => ?_,
    fun r hr => tsReadTemp_result_shape w fuel sensor bus r haddr hpad hr⟩
  obtain ⟨r, zeros, last, v2, hr, hz, hall, hlast, hv2, h⟩ :=
    tsReadTemp_runs w fuel sensor bus haddr hpad ((tsMstRst_zero_iff w bus).mpr h1) hp
  refine ⟨r, zeros, last, v2, hr, hz, hall, hlast, hv2, ?_, ?_⟩
  · rcases h with ⟨hne, hm, _⟩ | ⟨hlow, h0, _⟩
    · constructor
      · intro h0; rw [hm] at h0; exact absurd h0 (by decide)
      · intro hlow; exact absurd hlow hne
    · exact ⟨fun _ => hlow, fun _ => h0⟩
  · intro hlow
    rcases h with ⟨hne, _⟩ | ⟨_, h0, samples, hlen, hs, ht⟩
    · exact absurd hlow hne
    · exact ⟨samples, hlen, by simp [haddr], by simp [haddr], ht,
        by rw [hs, decodeTemp_scrPad], by rw [hs, decodeTemp_addr], h0⟩

/-- Witness for C10: a device that is ready at the third read slot and then
sends the data sheet scratchpad; `tsReadTemp` returns `0` with that scratchpad
in the handle. -/
theorem tsReadTemp_transaction_witness :
    blankHandle.addr.length = 8 ∧ blankHandle.scrPad.length = 9 ∧
    tsReadTemp (simWorld ([0, 0, 1] ++ dataSheetBits)) 3 blankHandle bus0
      = some readDataSheet ∧
    readDataSheet.1 = 0 ∧ readDataSheet.2.1.scrPad = dataSheetPad.scrPad ∧
    (∃ (r : Int × DS18B20 × Bus) (zeros : List Nat) (last v2 : Nat),
      tsReadTemp (simWorld ([0, 0, 1] ++ dataSheetBits)) 3 blankHandle bus0 = some r ∧
      zeros.length < 3 ∧ (∀ z ∈ zeros, bitOf z = 0) ∧ bitOf last = 1 ∧
      v2 = simWorld ([0, 0, 1] ++ dataSheetBits) (bus0.trace ++
        resetEvents (simWorld ([0, 0, 1] ++ dataSheetBits) (bus0.trace ++ resetPulse) % 256) ++
        wrBytes (0x55 :: blankHandle.addr ++ [0x44]) ++
        rdEvents (zeros ++ [last]) ++ resetPulse) % 256 ∧
      (r.1 = 0 ↔ v2 &&& TS_INBIT = 0) ∧
      (v2 &&& TS_INBIT = 0 → ∃ samples : List Nat, samples.length = 72 ∧
        (0x55 :: blankHandle.addr ++ [0x44]).length = 10 ∧
        (0x55 :: blankHandle.addr ++ [0xBE]).length = 10 ∧
        r.2.2.trace = bus0.trace ++
          resetEvents (simWorld ([0, 0, 1] ++ dataSheetBits) (bus0.trace ++ resetPulse) % 256) ++
          wrBytes (0x55 :: blankHandle.addr ++ [0x44]) ++
          rdEvents (zeros ++ [last]) ++ resetEvents v2 ++
          wrBytes (0x55 :: blankHandle.addr ++ [0xBE]) ++ rdEvents samples ∧
        r.2.1.scrPad = packBytes 9 samples ∧ r.2.1.addr = blankHandle.addr ∧ r.1 = 0)) :=
  ⟨by decide, by decide, by decide!, by decide!, by decide!,
   (tsReadTemp_transaction (simWorld ([0, 0, 1] ++ dataSheetBits)) 3 blankHandle bus0
      (by decide) (by decide)).1 (by decide) (by decide!)⟩

/-! ## Stuck lines and double-bit errors -/

/-- C16: `tsValidateData` returns `0` on the scratch buffer of nine `0x00`
bytes, which is what nine bytes read from a line stuck low are, and `-1` on the
buffer of nine `0xFF` bytes, which is what nine bytes read from an idle line
with no device are. -/
theorem tsValidateData_stuck_lines (addr : List Nat) (temp : Int) :
    tsValidateData ⟨addr, [0x00, 0x00, 0x00, 0x00, 0x00, 0x00, 0x00, 0x00, 0x00], temp⟩ = 0 ∧
    tsValidateData ⟨addr, [0xFF, 0xFF, 0xFF, 0xFF, 0xFF, 0xFF, 0xFF, 0xFF, 0xFF], temp⟩ = -1 ∧
    (tsReadData stuckLowWorld dataSheetPad.scrPad 9 bus0).1
      = [0x00, 0x00, 0x00, 0x00, 0x00, 0x00, 0x00, 0x00, 0x00] ∧
    (tsReadData idleWorld dataSheetPad.scrPad 9 bus0).1
      = [0xFF, 0xFF, 0xFF, 0xFF, 0xFF, 0xFF, 0xFF, 0xFF, 0xFF] := by
  refine ⟨?_, ?_, ?_, ?_⟩
  · have h : crcRegister [0x00, 0x00, 0x00, 0x00, 0x00, 0x00, 0x00, 0x00, 0x00] = 0 := by
      decide!
    rw [tsValidateData_eq_zero_iff]
    exact h
  · have h : crcRegister [0xFF, 0xFF, 0xFF, 0xFF, 0xFF, 0xFF, 0xFF, 0xFF, 0xFF] ≠ 0 := by
      decide!
    rw [tsValidateData_eq_neg_one_iff]
    exact h
  · decide!
  · decide!

theorem crcRegister_flipBit (buf : List Nat) (hlen : buf.length = 9)
    (hbytes : ∀ b ∈ buf, b < 256) (pos : Nat) (hpos : pos < 72) :
    crcRegister (flipBit buf pos) = crcRegister buf ^^^ bitSyndrome pos := by
  have hk : pos / 8 < buf.length := by omega
  rw [crcRegister_eq_crc8 _ (by rw [flipBit_length, hlen]) (flipBit_bytes buf pos hbytes hk),
    crcRegister_eq_crc8 buf hlen hbytes]
  unfold flipBit bitSyndrome
  rw [foldl_crc8Update_set buf _ _ 0 hk, hlen]

/-- The 72 single-bit syndromes are pairwise different. -/
theorem bitSyndrome_nodup : ((List.range 72).map bitSyndrome).Nodup := by
  decide!

theorem bitSyndrome_injective (p q : Nat) (hp : p < 72) (hq : q < 72)
    (h : bitSyndrome p = bitSyndrome q) : p = q :=
  List.inj_on_of_nodup_map bitSyndrome_nodup (List.mem_range.mpr hp) (List.mem_range.mpr hq) h

/-- C15: inverting two different bits of a 9-byte scratch buffer that
`tsValidateData` accepts gives a buffer that it rejects. -/
theorem tsValidateData_double_bit_error (sensor : DS18B20) (hlen : sensor.scrPad.length = 9)
    (hbytes : ∀ b ∈ sensor.scrPad, b < 256) (hok : tsValidateData sensor = 0)
    (p q : Nat) (hp : p < 72) (hq : q < 72) (hpq : p ≠ q) :
    tsValidateData { sensor with scrPad := flipBit (flipBit sensor.scrPad p) q } = -1 := by
  rw [tsValidateData_eq_zero_iff] at hok
  rw [tsValidateData_eq_neg_one_iff]
  have h1 : (flipBit sensor.scrPad p).length = 9 := by rw [flipBit_length, hlen]
  have h2 : ∀ b ∈ flipBit sensor.scrPad p, b < 256 :=
    flipBit_bytes sensor.scrPad p hbytes (by omega)
  show crcRegister (flipBit (flipBit sensor.scrPad p) q) ≠ 0
  rw [crcRegister_flipBit _ h1 h2 q hq, crcRegister_flipBit _ hlen hbytes p hp, hok,
    Nat.zero_xor]
  intro h
  exact hpq (bitSyndrome_injective p q hp hq (Nat.xor_eq_zero.mp h))

/-- Witness for C15: bits 3 and 70 of the data sheet scratchpad inverted. -/
theorem tsValidateData_double_bit_error_witness :
    dataSheetPad.scrPad.length = 9 ∧ (∀ b ∈ dataSheetPad.scrPad, b < 256) ∧
    tsValidateData dataSheetPad = 0 ∧ 3 < 72 ∧ 70 < 72 ∧ 3 ≠ 70 ∧
    tsValidateData { dataSheetPad with scrPad := flipBit (flipBit dataSheetPad.scrPad 3) 70 }
      = -1 :=
  ⟨by decide, by decide, by decide!, by decide, by decide, by decide,
   tsValidateData_double_bit_error dataSheetPad (by decide) (by decide) (by decide!) 3 70
     (by decide) (by decide) (by decide)⟩

/-! ## Pin directions and the timing of the reset -/

theorem low_byte_masks : ∀ x < 256,
    ((x &&& (0xFFFF ^^^ 4)) % 256) &&& 4 = 0 ∧
    (((x &&& (0xFFFF ^^^ 8)) % 256 ||| 4) % 256).testBit 2 = true ∧
    (((x &&& (0xFFFF ^^^ 8)) % 256 ||| 4) % 256).testBit 3 = false := by
  decide!

theorem and_mod_256 (x m : Nat) : (x &&& m) % 256 = ((x % 256) &&& m) % 256 := by
  apply Nat.eq_of_testBit_eq
  intro i
  have h256 : (256 : Nat) = 2 ^ 8 := by norm_num
  rw [h256, Nat.testBit_mod_two_pow, Nat.testBit_mod_two_pow, Nat.testBit_and,
    Nat.testBit_and, Nat.testBit_mod_two_pow]
  by_cases hi : i < 8 <;> simp [hi]

/-- The code at the failing input of C13, and for every register state: after
`tsInit` the direction register has bit 2 set (output) and bit 3 cleared
(input), the reverse of the pins named in the header documentation. -/
theorem tsInit_direction_bits (bus : Bus) :
    (tsInit bus).P2DIR.testBit 2 = true ∧ (tsInit bus).P2DIR.testBit 3 = false ∧
    (tsInit ⟨0, 0x08, []⟩).P2DIR = 0x04 := by
  have h := low_byte_masks (bus.P2DIR % 256) (Nat.mod_lt _ (by norm_num))
  have e : (tsInit bus).P2DIR
      = ((bus.P2DIR &&& (0xFFFF ^^^ 8)) % 256 ||| 4) % 256 := rfl
  rw [e, and_mod_256]
  exact ⟨h.2.1, h.2.2, by decide⟩

/-- Counterexample for C14: on a bus that answers the reset, the wait after the
sample is 500 cycles, not 63. -/
theorem tsMstRst_waits_reset_interval_on_presence :
    (tsMstRst (simWorld []) bus0).1 = 0 ∧
    (tsMstRst (simWorld []) bus0).2.trace
      = [.driveLow, .delay 500, .release, .delay 63, .sample 0, .delay 500] ∧
    (tsMstRst (simWorld []) bus0).2.trace
      ≠ [.driveLow, .delay 500, .release, .delay 63, .sample 0, .delay 63] := by
  decide

/-- C14 (amended): the line actions and delays of `tsMstRst` are, in order: drive
low; wait `TS_480us - 3 = 500` cycles; release; wait `TS_60us = 63` cycles;
sample once. On presence it then waits the reset interval of 500 cycles again
and returns `0`; on absence it returns `-1` with no further delay. In both
outcomes the output bit is cleared, so the line is left released. -/
theorem tsMstRst_sequence (w : World) (bus : Bus) :
    TS_480us - 3 = 500 ∧ TS_60us = 63 ∧
    (tsMstRst w bus).2.trace
      = bus.trace ++ [.driveLow, .delay 500, .release, .delay 63,
          .sample (w (bus.trace ++ [.driveLow, .delay 500, .release, .delay 63]) % 256)] ++
        (if (w (bus.trace ++ [.driveLow, .delay 500, .release, .delay 63]) % 256) &&& 8 = 0
          then [.delay 500] else []) ∧
    (tsMstRst w bus).1
      = (if (w (bus.trace ++ [.driveLow, .delay 500, .release, .delay 63]) % 256) &&& 8 = 0
          then 0 else -1) ∧
    (tsMstRst w bus).2.P2OUT &&& TS_OUTBIT = 0 := by
  refine ⟨rfl, rfl, ?_, ?_, ?_⟩
  · rw [tsMstRst_trace]
    simp only [resetEvents, resetPulse, List.append_assoc]
    rfl
  · rw [tsMstRst_val]
    rfl
  · have e : (tsMstRst w bus).2.P2OUT
        = (((bus.P2OUT ||| 4) % 256) &&& (0xFFFF ^^^ 4)) % 256 := by
      unfold tsMstRst
      simp only [TS_BUS_IS_LOW, readP2IN, delayCycles, TS_BUS_H, TS_BUS_L]
      split <;> rfl
    rw [e]
    exact (low_byte_masks ((bus.P2OUT ||| 4) % 256) (Nat.mod_lt _ (by norm_num))).1

/-! ## Who writes the ROM address -/

theorem tsGetAddr_ok (w : World) (sensor : DS18B20) (bus : Bus)
    (haddr : sensor.addr.length = 8) (h : (tsMstRst w bus).1 = 0) :
    ∃ samples : List Nat, samples.length = 64 ∧
      (tsGetAddr w sensor bus).1 = 0 ∧
      (tsGetAddr w sensor bus).2.1 = { sensor with addr := packBytes 8 samples } ∧
      (tsGetAddr w sensor bus).2.2.trace
        = bus.trace ++ resetEvents (w (bus.trace ++ resetPulse) % 256) ++
          wrBytes [0x33] ++ rdEvents samples := by
  obtain ⟨samples, hlen, htr, hval⟩ := tsReadData_eight w sensor.addr
    (tsWriteByte READ_ROM (tsMstRst w bus).2).2 haddr
  refine ⟨samples, hlen, ?_, ?_, ?_⟩
  · unfold tsGetAddr; rw [if_pos h]
  · unfold tsGetAddr; rw [if_pos h]; simp only; rw [hval]
  · unfold tsGetAddr; rw [if_pos h]; simp only
    rw [htr, tsWriteByte_trace, tsMstRst_trace, wrBytes_singleton]
    rfl

theorem tsGetAddr_fail (w : World) (sensor : DS18B20) (bus : Bus)
    (h : (tsMstRst w bus).1 = -1) :
    tsGetAddr w sensor bus = (-1, sensor, (tsMstRst w bus).2) := by
  unfold tsGetAddr
  rw [if_neg (by rw [h]; decide)]

theorem tsReadSPad_addr (w : World) (sensor : DS18B20) (bus : Bus) :
    (tsReadSPad w sensor bus).2.1.addr = sensor.addr := by
  unfold tsReadSPad
  split <;> rfl

theorem tsReadSPad_sS_addr (w : World) (sensor : DS18B20) (bus : Bus) :
    (tsReadSPad_sS w sensor bus).2.1.addr = sensor.addr := by
  unfold tsReadSPad_sS
  split <;> rfl

theorem tsWriteSpad_addr (w : World) (sensor : DS18B20) (hi lo cfg : Nat) (bus : Bus) :
    (tsWriteSpad w sensor hi lo cfg bus).2.1.addr = sensor.addr := by
  unfold tsWriteSpad
  split <;> rfl

theorem tsWriteSpad_sS_addr (w : World) (sensor : DS18B20) (hi lo cfg : Nat) (bus : Bus) :
    (tsWriteSpad_sS w sensor hi lo cfg bus).2.1.addr = sensor.addr := by
  unfold tsWriteSpad_sS
  split <;> rfl

theorem tsConfig_addr (w : World) (sensor : DS18B20) (config : Nat) (bus : Bus) :
    (tsConfig w sensor config bus).2.1.addr = sensor.addr := by
  unfold tsConfig
  simp only
  split
  · split
    · exact (tsWriteSpad_addr w _ _ _ _ _).trans (tsReadSPad_addr w sensor bus)
    · exact (tsWriteSpad_addr w _ _ _ _ _).trans (tsReadSPad_addr w sensor bus)
  · exact tsReadSPad_addr w sensor bus

theorem tsConfig_sS_addr (w : World) (sensor : DS18B20) (config : Nat) (bus : Bus) :
    (tsConfig_sS w sensor config bus).2.1.addr = sensor.addr := by
  unfold tsConfig_sS
  simp only
  split
  · split
    · exact (tsWriteSpad_sS_addr w _ _ _ _ _).trans (tsReadSPad_sS_addr w sensor bus)
    · exact (tsWriteSpad_sS_addr w _ _ _ _ _).trans (tsReadSPad_sS_addr w sensor bus)
  · exact tsReadSPad_sS_addr w sensor bus

theorem tsSetAlarm_addr (w : World) (sensor : DS18B20) (hi lo : Nat) (bus : Bus) :
    (tsSetAlarm w sensor hi lo bus).2.1.addr = sensor.addr := by
  unfold tsSetAlarm
  simp only
  split
  · split
    · exact (tsWriteSpad_addr w _ _ _ _ _).trans (tsReadSPad_addr w sensor bus)
    · exact (tsWriteSpad_addr w _ _ _ _ _).trans (tsReadSPad_addr w sensor bus)
  · exact tsReadSPad_addr w sensor bus

theorem tsSetAlarm_sS_addr (w : World) (sensor : DS18B20) (hi lo : Nat) (bus : Bus) :
    (tsSetAlarm_sS w sensor hi lo bus).2.1.addr = sensor.addr := by
  unfold tsSetAlarm_sS
  simp only
  split
  · split
    · exact (tsWriteSpad_sS_addr w _ _ _ _ _).trans (tsReadSPad_sS_addr w sensor bus)
    · exact (tsWriteSpad_sS_addr w _ _ _ _ _).trans (tsReadSPad_sS_addr w sensor bus)
  · exact tsReadSPad_sS_addr w sensor bus

theorem tsReadTemp_addr (w : World) (fuel : Nat) (sensor : DS18B20) (bus : Bus)
    (r : Int × DS18B20 × Bus) (hr : tsReadTemp w fuel sensor bus = some r) :
    r.2.1.addr = sensor.addr := by
  unfold tsReadTemp at hr
  by_cases h1 : (tsMstRst w bus).1 = 0
  · rw [if_pos h1] at hr
    simp only at hr
    cases hw : waitReady w fuel (tsWriteByte CONVERT_T (tsMatchAddr sensor (tsMstRst w bus).2)).2 with
    | none => rw [hw] at hr; simp at hr
    | some b2 =>
      rw [hw] at hr
      simp only at hr
      by_cases h2 : (tsMstRst w b2).1 = 0
      · rw [if_pos h2] at hr
        rw [← Option.some.inj hr]
        rfl
      · rw [if_neg h2] at hr
        rw [← Option.some.inj hr]
  · rw [if_neg h1] at hr
    rw [← Option.some.inj hr]

/-- C12: the address field is written only on the ReadROM path. After a
successful reset `tsGetAddr` sends `0x33` and stores the next eight bytes read
into `addr`, and so does `tsReadTemp_sS` after its second successful reset;
`tsGetAddr` with a failed reset, `tsReadTemp_sS` on failure, and `tsReadTemp`,
`tsReadSPad`, `tsReadSPad_sS`, `tsWriteSpad`, `tsWriteSpad_sS`, `tsConfig`,
`tsConfig_sS`, `tsSetAlarm`, `tsSetAlarm_sS` on every handle and every bus leave
`addr` as it was. `tsReadTemp_sS` does return: at once with the handle
untouched when the first presence sample is high, and, when it is low and the
ready poll ends within the fuel, with `0` and the eight bytes read after `0x33`
in `addr` if the second presence sample is low, with `-1` and `addr` unchanged
if it is high. (`tsCopySpad`, `tsCopySpad_sS`, `tsMatchAddr` and
`tsValidateData` take the handle by value and return none.) -/
theorem rom_address_written_only_by_read_rom (w : World) (fuel : Nat) (sensor : DS18B20)
    (bus : Bus) (alarmHi alarmLo config : Nat) :
    (sensor.addr.length = 8 → (tsMstRst w bus).1 = 0 →
      ∃ samples : List Nat, samples.length = 64 ∧
        (tsGetAddr w sensor bus).1 = 0 ∧
        (tsGetAddr w sensor bus).2.2.trace
          = bus.trace ++ resetEvents (w (bus.trace ++ resetPulse) % 256) ++
            wrBytes [0x33] ++ rdEvents samples ∧
        (tsGetAddr w sensor bus).2.1.addr = packBytes 8 samples ∧
        (tsGetAddr w sensor bus).2.1.addr.length = 8) ∧
    (sensor.addr.length = 8 → sensor.scrPad.length = 9 →
      ∀ r, tsReadTemp_sS w fuel sensor bus = some r → r.1 = 0 →
        ∃ (v1 v2 : Nat) (polled s8 s9 : List Nat), s8.length = 64 ∧ v2 &&& TS_INBIT = 0 ∧
          r.2.2.trace = bus.trace ++ resetEvents v1 ++ wrBytes [0xCC, 0x44] ++
            rdEvents polled ++ resetEvents v2 ++ wrBytes [0x33] ++ rdEvents s8 ++
            wrBytes [0xBE] ++ rdEvents s9 ∧
          r.2.1.addr = packBytes 8 s8 ∧ r.2.1.addr.length = 8) ∧
    ((tsMstRst w bus).1 = -1 → tsGetAddr w sensor bus = (-1, sensor, (tsMstRst w bus).2)) ∧
    (sensor.addr.length = 8 → sensor.scrPad.length = 9 →
      ∀ r, tsReadTemp_sS w fuel sensor bus = some r → r.1 = -1 → r.2.1.addr = sensor.addr) ∧
    (∀ r, tsReadTemp w fuel sensor bus = some r → r.2.1.addr = sensor.addr) ∧
    (tsReadSPad w sensor bus).2.1.addr = sensor.addr ∧
    (tsReadSPad_sS w sensor bus).2.1.addr = sensor.addr ∧
    (tsWriteSpad w sensor alarmHi alarmLo config bus).2.1.addr = sensor.addr ∧
    (tsWriteSpad_sS w sensor alarmHi alarmLo config bus).2.1.addr = sensor.addr ∧
    (tsConfig w sensor config bus).2.1.addr = sensor.addr ∧
    (tsConfig_sS w sensor config bus).2.1.addr = sensor.addr ∧
    (tsSetAlarm w sensor alarmHi alarmLo bus).2.1.addr = sensor.addr ∧
    (tsSetAlarm_sS w sensor alarmHi alarmLo bus).2.1.addr = sensor.addr ∧
    ((w (bus.trace ++ resetPulse) % 256) &&& TS_INBIT ≠ 0 →
      tsReadTemp_sS w fuel sensor bus = some (-1, sensor, (tsMstRst w bus).2)) ∧
    (sensor.addr.length = 8 → sensor.scrPad.length = 9 →
      (w (bus.trace ++ resetPulse) % 256) &&& TS_INBIT = 0 →
      pollEnds w fuel (bus.trace ++ resetEvents (w (bus.trace ++ resetPulse) % 256) ++
        wrBytes [0xCC, 0x44]) = true →
      ∃ (r : Int × DS18B20 × Bus) (zeros : List Nat) (last v2 : Nat),
        tsReadTemp_sS w fuel sensor bus = some r ∧
        v2 = w (bus.trace ++ resetEvents (w (bus.trace ++ resetPulse) % 256) ++
          wrBytes [0xCC, 0x44] ++ rdEvents (zeros ++ [last]) ++ resetPulse) % 256 ∧
        (v2 &&& TS_INBIT ≠ 0 → r.1 = -1 ∧ r.2.1.addr = sensor.addr) ∧
        (v2 &&& TS_INBIT = 0 → r.1 = 0 ∧ ∃ s8 s9 : List Nat, s8.length = 64 ∧
          r.2.2.trace = bus.trace ++ resetEvents (w (bus.trace ++ resetPulse) % 256) ++
            wrBytes [0xCC, 0x44] ++ rdEvents (zeros ++ [last]) ++ resetEvents v2 ++
            wrBytes [0x33] ++ rdEvents s8 ++ wrBytes [0xBE] ++ rdEvents s9 ∧
          r.2.1.addr = packBytes 8 s8 ∧ r.2.1.addr.length = 8)) := by
  refine ⟨?_, ?_, tsGetAddr_fail w sensor bus, ?_, tsReadTemp_addr w fuel sensor bus,
    tsReadSPad_addr w sensor bus, tsReadSPad_sS_addr w sensor bus,
    tsWriteSpad_addr w sensor alarmHi alarmLo config bus,
    tsWriteSpad_sS_addr w sensor alarmHi alarmLo config bus,
    tsConfig_addr w sensor config bus, tsConfig_sS_addr w sensor config bus,
    tsSetAlarm_addr w sensor alarmHi alarmLo bus, tsSetAlarm_sS_addr w sensor alarmHi alarmLo bus,
    fun hhigh => tsReadTemp_sS_first_fail w fuel sensor bus
      (tsMstRst_neg_of_ne w bus (fun h0 => hhigh ((tsMstRst_zero_iff w bus).mp h0))),
    fun haddr hpad h1 hp => ?_⟩
  rotate_left 3
  · obtain ⟨r, zeros, last, v2, hr, _, _, _, hv2, h⟩ :=
      tsReadTemp_sS_runs w fuel sensor bus haddr hpad ((tsMstRst_zero_iff w bus).mpr h1) hp
    refine ⟨r, zeros, last, v2, hr, hv2, fun hne => ?_, fun hlow => ?_⟩
    · rcases h with ⟨_, hm, hs, _⟩ | ⟨hl, _⟩
      · exact ⟨hm, by rw [hs]⟩
      · exact absurd hl hne
    · rcases h with ⟨hne, _⟩ | ⟨_, h0, s8, s9, h8, _, hs, ht⟩
      · exact absurd hlow hne
      · exact ⟨h0, s8, s9, h8, ht, by rw [hs, decodeTemp_addr],
          by rw [hs, decodeTemp_addr]; exact packBytes_length 8 s8⟩
  · intro haddr h
    obtain ⟨samples, hlen, h0, hs, ht⟩ := tsGetAddr_ok w sensor bus haddr h
    exact ⟨samples, hlen, h0, ht, by rw [hs], by rw [hs]; exact packBytes_length 8 samples⟩
  · intro haddr hpad r hr h0
    obtain ⟨v1, _, h | ⟨_, zeros, last, v2, _, _, _, h | ⟨hv2, _, s8, s9, h8, _, hs, ht⟩⟩⟩ :=
      tsReadTemp_sS_cases w fuel sensor bus r haddr hpad hr
    · rw [h.2.1] at h0; exact absurd h0 (by decide)
    · rw [h.2.1] at h0; exact absurd h0 (by decide)
    · exact ⟨v1, v2, zeros ++ [last], s8, s9, h8, hv2, ht, by rw [hs, decodeTemp_addr],
        by rw [hs, decodeTemp_addr]; exact packBytes_length 8 s8⟩
  · intro haddr hpad r hr h1
    obtain ⟨v1, _, h | ⟨_, zeros, last, v2, _, _, _, h | ⟨_, h0, _⟩⟩⟩ :=
      tsReadTemp_sS_cases w fuel sensor bus r haddr hpad hr
    · rw [h.2.2.1]
    · rw [h.2.2.1]
    · rw [h0] at h1; exact absurd h1 (by decide)

/-- Witness for C12: a device that answers the reset and then leaves the line
high gives `tsGetAddr` a successful reset and eight `0xFF` address bytes; a
device that is ready at the third read slot and then leaves the line high
makes `tsReadTemp_sS` return `0` with eight `0xFF` bytes in `addr`. -/
theorem rom_address_written_only_by_read_rom_witness :
    blankHandle.addr.length = 8 ∧ (tsMstRst (simWorld []) bus0).1 = 0 ∧
    (tsGetAddr (simWorld []) blankHandle bus0).2.1.addr
      = [0xFF, 0xFF, 0xFF, 0xFF, 0xFF, 0xFF, 0xFF, 0xFF] ∧
    (∃ samples : List Nat, samples.length = 64 ∧
      (tsGetAddr (simWorld []) blankHandle bus0).1 = 0 ∧
      (tsGetAddr (simWorld []) blankHandle bus0).2.2.trace
        = bus0.trace ++ resetEvents (simWorld [] (bus0.trace ++ resetPulse) % 256) ++
          wrBytes [0x33] ++ rdEvents samples ∧
      (tsGetAddr (simWorld []) blankHandle bus0).2.1.addr = packBytes 8 samples ∧
      (tsGetAddr (simWorld []) blankHandle bus0).2.1.addr.length = 8) ∧
    (tsReadTemp_sS (simWorld [0, 0, 1]) 3 blankHandle bus0).map
        (fun r => (r.1, r.2.1.addr))
      = some (0, [0xFF, 0xFF, 0xFF, 0xFF, 0xFF, 0xFF, 0xFF, 0xFF]) ∧
    (∃ (r : Int × DS18B20 × Bus) (zeros : List Nat) (last v2 : Nat),
      tsReadTemp_sS (simWorld [0, 0, 1]) 3 blankHandle bus0 = some r ∧
      v2 = simWorld [0, 0, 1] (bus0.trace ++
        resetEvents (simWorld [0, 0, 1] (bus0.trace ++ resetPulse) % 256) ++
        wrBytes [0xCC, 0x44] ++ rdEvents (zeros ++ [last]) ++ resetPulse) % 256 ∧
      (v2 &&& TS_INBIT ≠ 0 → r.1 = -1 ∧ r.2.1.addr = blankHandle.addr) ∧
      (v2 &&& TS_INBIT = 0 → r.1 = 0 ∧ ∃ s8 s9 : List Nat, s8.length = 64 ∧
        r.2.2.trace = bus0.trace ++
          resetEvents (simWorld [0, 0, 1] (bus0.trace ++ resetPulse) % 256) ++
          wrBytes [0xCC, 0x44] ++ rdEvents (zeros ++ [last]) ++ resetEvents v2 ++
          wrBytes [0x33] ++ rdEvents s8 ++ wrBytes [0xBE] ++ rdEvents s9 ∧
        r.2.1.addr = packBytes 8 s8 ∧ r.2.1.addr.length = 8)) :=
  ⟨by decide, by decide, by decide!,
   (rom_address_written_only_by_read_rom (simWorld []) 0 blankHandle bus0 0 0 0).1
     (by decide) (by decide),
   by decide!,
   (rom_address_written_only_by_read_rom (simWorld [0, 0, 1]) 3 blankHandle bus0
     0 0 0).2.2.2.2.2.2.2.2.2.2.2.2.2.2
     (by decide) (by decide) (by decide) (by decide!)⟩

/-! ## The simulated device: time and commands -/

theorem Device.advance_idle (t : Nat) (d : Device) (h : d.busy = 0) : d.advance t = d := by
  simp [Device.advance, h]

theorem Device.advance_rom (t : Nat) (d : Device) : (d.advance t).rom = d.rom := by
  unfold Device.advance
  split
  · rfl
  · split <;> rfl

theorem Device.advance_rx (t : Nat) (d : Device) : (d.advance t).rx = d.rx := by
  unfold Device.advance
  split
  · rfl
  · split <;> rfl

theorem Device.advance_tx (t : Nat) (d : Device) : (d.advance t).tx = d.tx := by
  unfold Device.advance
  split
  · rfl
  · split <;> rfl

theorem Device.advance_tempLo (t : Nat) (d : Device) : (d.advance t).tempLo = d.tempLo := by
  unfold Device.advance
  split
  · rfl
  · split <;> rfl

theorem Device.advance_tempHi (t : Nat) (d : Device) : (d.advance t).tempHi = d.tempHi := by
  unfold Device.advance
  split
  · rfl
  · split <;> rfl

theorem Device.advance_convTime (t : Nat) (d : Device) :
    (d.advance t).convTime = d.convTime := by
  unfold Device.advance
  split
  · rfl
  · split <;> rfl

theorem Device.advance_set_rx (t : Nat) (d : Device) (r : List Nat) :
    ({ d with rx := r } : Device).advance t = { d.advance t with rx := r } := by
  unfold Device.advance
  simp only
  split
  · rfl
  · split <;> rfl

theorem Device.advance_set_tx (t : Nat) (d : Device) (r : List Nat) :
    ({ d with tx := r } : Device).advance t = { d.advance t with tx := r } := by
  unfold Device.advance
  simp only
  split
  · rfl
  · split <;> rfl

theorem Device.advance_clear (t : Nat) (d : Device) :
    d.clear.advance t = (d.advance t).clear := by
  unfold Device.advance Device.clear
  simp only
  split
  · rfl
  · split <;> rfl

/-- Time adds up. -/
theorem Device.advance_advance (s t : Nat) (d : Device) :
    (d.advance s).advance t = d.advance (s + t) := by
  by_cases h0 : d.busy = 0
  · rw [Device.advance_idle s d h0, Device.advance_idle t d h0, Device.advance_idle _ d h0]
  · by_cases hs : d.busy ≤ s
    · have e1 : d.advance s = d.finish := by
        unfold Device.advance
        rw [if_neg h0, if_pos hs]
      have e2 : d.advance (s + t) = d.finish := by
        unfold Device.advance
        rw [if_neg h0, if_pos (by omega)]
      rw [e1, e2, Device.advance_idle t _ rfl]
    · have e1 : d.advance s = { d with busy := d.busy - s } := by
        unfold Device.advance
        rw [if_neg h0, if_neg hs]
      rw [e1]
      by_cases hst : d.busy ≤ s + t
      · have e2 : d.advance (s + t) = d.finish := by
          unfold Device.advance
          rw [if_neg h0, if_pos hst]
        rw [e2]
        unfold Device.advance
        simp only
        rw [if_neg (by omega), if_pos (by omega)]
        rfl
      · have e2 : d.advance (s + t) = { d with busy := d.busy - (s + t) } := by
          unfold Device.advance
          rw [if_neg h0, if_neg hst]
        rw [e2]
        unfold Device.advance
        simp only
        rw [if_neg (by omega), if_neg (by omega), Nat.sub_sub]

theorem elapsed_nil (dur : BusEvent → Nat) : elapsed dur [] = 0 := rfl

theorem elapsed_cons (dur : BusEvent → Nat) (e : BusEvent) (l : List BusEvent) :
    elapsed dur (e :: l) = dur e + elapsed dur l := by
  simp [elapsed]

theorem elapsed_append (dur : BusEvent → Nat) (a b : List BusEvent) :
    elapsed dur (a ++ b) = elapsed dur a + elapsed dur b := by
  simp [elapsed]

theorem byteBitsNat_length (b : Nat) : (byteBitsNat b).length = 8 := by
  simp [byteBitsNat]

theorem bitsOfBytes_length (l : List Nat) : (bitsOfBytes l).length = 8 * l.length := by
  induction l with
  | nil => rfl
  | cons b bs ih =>
    rw [bitsOfBytes, List.flatMap_cons, List.length_append, byteBitsNat_length] at *
    rw [ih, List.length_cons]
    omega

theorem bitsOfBytes_append (a b : List Nat) :
    bitsOfBytes (a ++ b) = bitsOfBytes a ++ bitsOfBytes b := by
  simp [bitsOfBytes]

theorem bitsOfBytes_cons (x : Nat) (l : List Nat) :
    bitsOfBytes (x :: l) = byteBitsNat x ++ bitsOfBytes l := by
  simp [bitsOfBytes]

/-- A complete command is 16 bits that start with the first bit of SkipROM, or 80 bits. -/
theorem Device.act_noop (d : Device) (hrom : d.rom.length = 8) (h80 : d.rx.length ≠ 80)
    (h16 : d.rx.length = 16 → d.rx.head? = some 1) : d.act = d := by
  have hm : ∀ x, d.rx ≠ bitsOfBytes (MATCH_ROM :: d.rom ++ [x]) := by
    intro x h
    apply h80
    rw [h, bitsOfBytes_length]
    simp [hrom]
  have hs : ∀ x, d.rx ≠ bitsOfBytes [SKIP_ROM, x] := by
    intro x h
    have hl : d.rx.length = 16 := by rw [h, bitsOfBytes_length]; rfl
    have hh := h16 hl
    have hb : byteBitsNat SKIP_ROM = [0, 0, 1, 1, 0, 0, 1, 1] := by decide
    rw [h, bitsOfBytes_cons, hb] at hh
    simp at hh
  unfold Device.act
  rw [if_neg (not_or.mpr ⟨hs _, hm _⟩), if_neg (not_or.mpr ⟨hs _, hm _⟩)]

theorem Device.feed_noact (dur : BusEvent → Nat) (bs : List Nat) (d : Device)
    (hrom : d.rom.length = 8)
    (h : ∀ k, 1 ≤ k → k ≤ bs.length →
      (d.rx ++ bs.take k).length ≠ 80 ∧
      ((d.rx ++ bs.take k).length = 16 → (d.rx ++ bs.take k).head? = some 1)) :
    d.feed dur bs
      = { d.advance (elapsed dur (bs.map BusEvent.writeSlot)) with rx := d.rx ++ bs } := by
  induction bs generalizing d with
  | nil =>
    have e : d.advance (elapsed dur ([].map BusEvent.writeSlot)) = d.advance 0 := rfl
    have e0 : d.advance 0 = d := by
      unfold Device.advance
      split
      · rfl
      · rw [if_neg (by omega)]
        rfl
    rw [e, e0]
    simp [Device.feed]
  | cons b bs ih =>
    have h1 := h 1 (le_refl 1) (by simp)
    simp only [List.take_succ_cons, List.take_zero] at h1
    have hstep : Device.step dur d (.writeSlot b)
        = { d.advance (dur (.writeSlot b)) with rx := d.rx ++ [b] } := by
      show ({ d.advance (dur (.writeSlot b)) with
        rx := (d.advance (dur (.writeSlot b))).rx ++ [b] } : Device).act = _
      rw [Device.advance_rx]
      exact Device.act_noop _ (by simp only; rw [Device.advance_rom]; exact hrom) h1.1 h1.2
    have hfeed : d.feed dur (b :: bs) = (Device.step dur d (.writeSlot b)).feed dur bs := rfl
    rw [hfeed, hstep, ih _ (by simp only; rw [Device.advance_rom]; exact hrom)]
    · simp only [List.append_assoc, List.singleton_append, List.map_cons]
      rw [Device.advance_set_rx, Device.advance_advance, elapsed_cons]
    · intro k hk1 hk2
      have := h (k + 1) (by omega) (by simp; omega)
      simpa using this

/-- Writing a complete command to a device that has just been reset. -/
theorem Device.feed_cmd (dur : BusEvent → Nat) (d : Device) (c : List Nat)
    (hrom : d.rom.length = 8) (hrx : d.rx = [])
    (hne : c ≠ []) (hlen : c.length ≤ 80) (h16 : 16 < c.length → c.head? = some 1) :
    d.feed dur c
      = ({ d.advance (elapsed dur (c.map BusEvent.writeSlot)) with rx := c } : Device).act := by
  obtain ⟨init, last, rfl⟩ : ∃ init last, c = init ++ [last] :=
    ⟨c.dropLast, c.getLast hne, (List.dropLast_append_getLast hne).symm⟩
  have hlen2 : init.length < 80 := by simp at hlen; omega
  have hinit : d.feed dur init
      = { d.advance (elapsed dur (init.map BusEvent.writeSlot)) with rx := init } := by
    rw [Device.feed_noact dur init d hrom, hrx, List.nil_append]
    intro k hk1 hk2
    rw [hrx, List.nil_append, List.length_take]
    refine ⟨by omega, fun hk => ?_⟩
    have hk16 : k = 16 := by omega
    have hh := h16 (by simp; omega)
    rw [List.head?_append_of_ne_nil _ (by intro h0; rw [h0] at hlen2 hk2; simp at hk2; omega)]
      at hh
    rw [List.head?_take, if_neg (by omega)]
    exact hh
  have hsplit : d.feed dur (init ++ [last])
      = Device.step dur (d.feed dur init) (.writeSlot last) := by
    unfold Device.feed
    rw [List.foldl_append]
    rfl
  rw [hsplit, hinit]
  show ({ ({ d.advance (elapsed dur (init.map BusEvent.writeSlot)) with rx := init }
        : Device).advance (dur (.writeSlot last)) with
      rx := (({ d.advance (elapsed dur (init.map BusEvent.writeSlot)) with rx := init }
        : Device).advance (dur (.writeSlot last))).rx ++ [last] } : Device).act = _
  rw [Device.advance_rx, Device.advance_set_rx, Device.advance_advance, List.map_append,
    elapsed_append]
  rfl

/-! ## The driver primitives on the simulated bus -/

theorem Device.act_convert_skip (d : Device) (h : d.rx = bitsOfBytes [SKIP_ROM, CONVERT_T]) :
    d.act = d.start := by
  unfold Device.act
  rw [if_pos (Or.inl h)]

theorem Device.act_convert_match (d : Device)
    (h : d.rx = bitsOfBytes (MATCH_ROM :: d.rom ++ [CONVERT_T])) : d.act = d.start := by
  unfold Device.act
  rw [if_pos (Or.inr h)]

theorem Device.act_read_match (d : Device) (hrom : d.rom.length = 8)
    (h : d.rx = bitsOfBytes (MATCH_ROM :: d.rom ++ [READ_SPAD])) :
    d.act = { d with tx := bitsOfBytes d.pad } := by
  have h1 : d.rx ≠ bitsOfBytes [SKIP_ROM, CONVERT_T] := by
    intro h2
    have hl : (bitsOfBytes (MATCH_ROM :: d.rom ++ [READ_SPAD])).length
        = (bitsOfBytes [SKIP_ROM, CONVERT_T]).length := by rw [← h, h2]
    rw [bitsOfBytes_length, bitsOfBytes_length] at hl
    simp [hrom] at hl
  have h2 : d.rx ≠ bitsOfBytes (MATCH_ROM :: d.rom ++ [CONVERT_T]) := by
    intro h2
    rw [h, bitsOfBytes_append, bitsOfBytes_append] at h2
    have h3 := List.append_cancel_left h2
    revert h3
    decide
  unfold Device.act
  rw [if_neg (not_or.mpr ⟨h1, h2⟩), if_pos (Or.inr h)]

theorem devState_append (dur : BusEvent → Nat) (d0 : Device) (a b : List BusEvent) :
    devState dur d0 (a ++ b) = b.foldl (Device.step dur) (devState dur d0 a) := by
  simp [devState]

theorem simDevice_reset (dur : BusEvent → Nat) (d0 : Device) (t : List BusEvent) :
    simDevice dur d0 (t ++ resetPulse) = 0 := by
  have h : (t ++ resetPulse).getLast? = some (.delay TS_60us) := by
    simp [resetPulse]
  unfold simDevice
  simp only [h]

theorem simDevice_read (dur : BusEvent → Nat) (d0 : Device) (t : List BusEvent) :
    simDevice dur d0 (t ++ [.readSlot])
      = if ((devState dur d0 t).advance (dur .readSlot)).nextBit = 0 then 0 else TS_INBIT := by
  unfold simDevice
  simp

/-- A reset that is answered: the device lets its time pass and clears what it
had received and queued. -/
theorem devState_reset (dur : BusEvent → Nat) (d : Device) :
    (resetEvents 0).foldl (Device.step dur) d
      = (d.advance (elapsed dur (resetEvents 0))).clear := by
  have e : resetEvents 0 = [.driveLow, .delay TS_RST_DELAY, .release, .delay TS_60us,
      .sample 0, .delay TS_RST_DELAY] := by decide
  rw [e]
  simp only [List.foldl_cons, List.foldl_nil, elapsed_cons, elapsed_nil]
  show (((((d.advance (dur .driveLow)).clear.advance (dur (.delay TS_RST_DELAY))).advance
    (dur .release)).advance (dur (.delay TS_60us))).advance (dur (.sample 0))).advance
    (dur (.delay TS_RST_DELAY)) = _
  rw [Device.advance_advance, Device.advance_advance, Device.advance_advance,
    Device.advance_advance, Device.advance_clear, Device.advance_advance, Nat.add_zero]

/-- On the simulated bus every reset finds the device. -/
theorem sim_tsMstRst (dur : BusEvent → Nat) (d0 : Device) (b : Bus) :
    (tsMstRst (simDevice dur d0) b).1 = 0 ∧
    (tsMstRst (simDevice dur d0) b).2.trace = b.trace ++ resetEvents 0 ∧
    devState dur d0 (tsMstRst (simDevice dur d0) b).2.trace
      = ((devState dur d0 b.trace).advance (elapsed dur (resetEvents 0))).clear := by
  have ht : (tsMstRst (simDevice dur d0) b).2.trace = b.trace ++ resetEvents 0 := by
    rw [tsMstRst_trace, simDevice_reset]
  refine ⟨?_, ht, ?_⟩
  · rw [tsMstRst_val, simDevice_reset]
    rfl
  · rw [ht, devState_append, devState_reset]

theorem wrEvents_eq_map (x : Nat) : wrEvents x = (byteBitsNat x).map BusEvent.writeSlot := by
  simp [wrEvents, byteBitsNat]

theorem wrBytes_eq_map (l : List Nat) : wrBytes l = (bitsOfBytes l).map BusEvent.writeSlot := by
  induction l with
  | nil => rfl
  | cons x xs ih =>
    have hc : wrBytes (x :: xs) = wrEvents x ++ wrBytes xs := by simp [wrBytes]
    rw [hc, bitsOfBytes_cons, List.map_append, ih, wrEvents_eq_map]

theorem devState_wrBytes (dur : BusEvent → Nat) (d0 : Device) (t : List BusEvent)
    (l : List Nat) :
    devState dur d0 (t ++ wrBytes l) = (devState dur d0 t).feed dur (bitsOfBytes l) := by
  rw [devState_append, wrBytes_eq_map, List.foldl_map]
  rfl

/-- A command written to a device that has just been reset. -/
theorem devState_command (dur : BusEvent → Nat) (d0 : Device) (t : List BusEvent)
    (l : List Nat) (hrom : (devState dur d0 t).rom.length = 8)
    (hrx : (devState dur d0 t).rx = []) (hne : l ≠ []) (hlen : l.length ≤ 10)
    (h16 : 2 < l.length → (bitsOfBytes l).head? = some 1) :
    devState dur d0 (t ++ wrBytes l)
      = ({ (devState dur d0 t).advance (elapsed dur (wrBytes l)) with
          rx := bitsOfBytes l } : Device).act := by
  rw [devState_wrBytes, wrBytes_eq_map]
  apply Device.feed_cmd dur _ _ hrom hrx
  · intro h
    have := congrArg List.length h
    rw [bitsOfBytes_length] at this
    simp at this
    exact hne this
  · rw [bitsOfBytes_length]; omega
  · intro h
    rw [bitsOfBytes_length] at h
    exact h16 (by omega)

theorem sim_tsReadBit (dur : BusEvent → Nat) (d0 : Device) (b : Bus) :
    (tsReadBit (simDevice dur d0) b).1
      = (if ((devState dur d0 b.trace).advance (dur .readSlot)).nextBit = 0 then 0 else 1) ∧
    ∃ v, (tsReadBit (simDevice dur d0) b).2.trace = b.trace ++ [.readSlot, .readSample v] ∧
      devState dur d0 (tsReadBit (simDevice dur d0) b).2.trace
        = ({ (devState dur d0 b.trace).advance (dur .readSlot) with
            tx := ((devState dur d0 b.trace).advance (dur .readSlot)).tx.tail }
            : Device).advance (dur (.readSample v)) := by
  constructor
  · rw [tsReadBit_val, simDevice_read]
    split <;> rfl
  · have ht : (tsReadBit (simDevice dur d0) b).2.trace = b.trace ++
        [.readSlot, .readSample (simDevice dur d0 (b.trace ++ [.readSlot]) % 256)] := rfl
    refine ⟨simDevice dur d0 (b.trace ++ [.readSlot]) % 256, ht, ?_⟩
    rw [ht, devState_append]
    rfl

/-! ## Reading from the simulated device -/

theorem bitsValue_append (bs : List Nat) (x : Nat) :
    bitsValue (bs ++ [x]) = bitsValue bs + 2 ^ bs.length * x := by
  induction bs with
  | nil => simp [bitsValue]
  | cons b bs ih =>
    have e : ∀ l : List Nat, bitsValue (b :: l) = b + 2 * bitsValue l := fun _ => rfl
    rw [List.cons_append, e, e, ih, List.length_cons, pow_succ]
    ring

theorem bitsValue_lt (bs : List Nat) (h : ∀ x ∈ bs, x ≤ 1) : bitsValue bs < 2 ^ bs.length := by
  induction bs with
  | nil => simp [bitsValue]
  | cons b bs ih =>
    have e : bitsValue (b :: bs) = b + 2 * bitsValue bs := rfl
    have hb := h b (List.mem_cons_self _ _)
    have ih2 := ih (fun x hx => h x (List.mem_cons_of_mem _ hx))
    rw [e, List.length_cons, pow_succ]
    omega

theorem byteBitsNat_le_one (b : Nat) : ∀ x ∈ byteBitsNat b, x ≤ 1 := by
  intro x hx
  simp only [byteBitsNat, List.mem_map] at hx
  obtain ⟨i, _, rfl⟩ := hx
  cases b.testBit i <;> simp

theorem bitsValue_byteBitsNat : ∀ b < 256, bitsValue (byteBitsNat b) = b := by
  decide!

theorem Device.nextBit_cons (d : Device) (x : Nat) (rest : List Nat)
    (htx : d.tx = x :: rest) : d.nextBit = x := by
  unfold Device.nextBit
  rw [htx]

/-- One read slot takes the first queued bit, whether or not a conversion is
running. -/
theorem sim_readQueued (dur : BusEvent → Nat) (d0 : Device) (b : Bus) (x : Nat)
    (rest : List Nat) (hx : x ≤ 1) (htx : (devState dur d0 b.trace).tx = x :: rest) :
    (tsReadBit (simDevice dur d0) b).1 = x ∧
    (devState dur d0 (tsReadBit (simDevice dur d0) b).2.trace).tx = rest := by
  obtain ⟨hbit, v, _, hstate⟩ := sim_tsReadBit dur d0 b
  have hn : ((devState dur d0 b.trace).advance (dur .readSlot)).nextBit = x :=
    Device.nextBit_cons _ x rest (by rw [Device.advance_tx, htx])
  constructor
  · rw [hbit, hn]
    rcases Nat.le_one_iff_eq_zero_or_eq_one.mp hx with h | h <;> simp [h]
  · rw [hstate, Device.advance_tx]
    simp only
    rw [Device.advance_tx, htx]
    rfl

/-- Read slots deliver the queued bits of the device in order. -/
theorem sim_readBits (dur : BusEvent → Nat) (d0 : Device) (n : Nat) :
    ∀ (b : Bus) (bs rest : List Nat), bs.length = n → (∀ x ∈ bs, x ≤ 1) →
      (devState dur d0 b.trace).tx = bs ++ rest →
      ((List.range n).foldl (fun (st : Nat × Bus) i =>
          (st.1 ||| ((tsReadBit (simDevice dur d0) st.2).1 <<< i),
            (tsReadBit (simDevice dur d0) st.2).2)) (0, b)).1 = bitsValue bs ∧
      (devState dur d0 ((List.range n).foldl (fun (st : Nat × Bus) i =>
          (st.1 ||| ((tsReadBit (simDevice dur d0) st.2).1 <<< i),
            (tsReadBit (simDevice dur d0) st.2).2)) (0, b)).2.trace).tx = rest := by
  induction n with
  | zero =>
    intro b bs rest hlen _ htx
    have hnil : bs = [] := List.eq_nil_of_length_eq_zero hlen
    subst hnil
    have h2 : (devState dur d0 b.trace).tx = rest := by simpa using htx
    exact ⟨rfl, h2⟩
  | succ n ih =>
    intro b bs rest hlen hle htx
    have hne : bs ≠ [] := by intro h; rw [h] at hlen; simp at hlen
    obtain ⟨init, x, rfl⟩ : ∃ init x, bs = init ++ [x] :=
      ⟨bs.dropLast, bs.getLast hne, (List.dropLast_append_getLast hne).symm⟩
    have hlen2 : init.length = n := by simpa using hlen
    have hx : x ≤ 1 := hle x (by simp)
    obtain ⟨hv, hs⟩ := ih b init (x :: rest) hlen2
      (fun y hy => hle y (List.mem_append_left _ hy)) (by rw [htx]; simp)
    rw [List.range_succ, List.foldl_append, List.foldl_cons, List.foldl_nil]
    generalize (List.range n).foldl (fun (st : Nat × Bus) i =>
          (st.1 ||| ((tsReadBit (simDevice dur d0) st.2).1 <<< i),
            (tsReadBit (simDevice dur d0) st.2).2)) (0, b) = st at hv hs
    obtain ⟨hbit2, hstate⟩ := sim_readQueued dur d0 st.2 x rest hx hs
    constructor
    · simp only
      rw [hbit2, hv, bitsValue_append, hlen2, Nat.shiftLeft_eq, Nat.or_comm, Nat.mul_comm,
        ← Nat.mul_add_lt_is_or (by
          rw [← hlen2]
          exact bitsValue_lt init (fun y hy => hle y (List.mem_append_left _ hy)))]
      ring
    · exact hstate

theorem sim_readByte (dur : BusEvent → Nat) (d0 : Device) (b : Bus) (x : Nat)
    (rest : List Nat) (hx : x < 256)
    (htx : (devState dur d0 b.trace).tx = byteBitsNat x ++ rest) :
    (readByte (simDevice dur d0) b).1 = x ∧
    (devState dur d0 (readByte (simDevice dur d0) b).2.trace).tx = rest := by
  obtain ⟨hv, hs⟩ := sim_readBits dur d0 8 b (byteBitsNat x) rest (byteBitsNat_length x)
    (byteBitsNat_le_one x) htx
  rw [bitsValue_byteBitsNat x hx] at hv
  exact ⟨hv, hs⟩

/-- Reading `n` bytes from a device that has queued the bytes `l`. -/
theorem sim_tsReadData (dur : BusEvent → Nat) (d0 : Device) (buf : List Nat) (n : Nat) :
    ∀ (b : Bus) (l : List Nat) (rest : List Nat), l.length = n → n ≤ buf.length →
      (∀ x ∈ l, x < 256) →
      (devState dur d0 b.trace).tx = bitsOfBytes l ++ rest →
      (tsReadData (simDevice dur d0) buf n b).1 = l ++ buf.drop n ∧
      (devState dur d0 (tsReadData (simDevice dur d0) buf n b).2.trace).tx = rest := by
  induction n with
  | zero =>
    intro b l rest hlen _ _ htx
    have hnil : l = [] := List.eq_nil_of_length_eq_zero hlen
    subst hnil
    have h2 : (devState dur d0 b.trace).tx = rest := by simpa [bitsOfBytes] using htx
    exact ⟨by simp [tsReadData], h2⟩
  | succ n ih =>
    intro b l rest hlen hn hle htx
    have hne : l ≠ [] := by intro h; rw [h] at hlen; simp at hlen
    obtain ⟨init, x, rfl⟩ : ∃ init x, l = init ++ [x] :=
      ⟨l.dropLast, l.getLast hne, (List.dropLast_append_getLast hne).symm⟩
    have hlen2 : init.length = n := by simpa using hlen
    have hx : x < 256 := hle x (by simp)
    obtain ⟨hv, hs⟩ := ih b init (byteBitsNat x ++ rest) hlen2 (by omega)
      (fun y hy => hle y (List.mem_append_left _ hy))
      (by rw [htx, bitsOfBytes_append, List.append_assoc]; simp [bitsOfBytes])
    unfold tsReadData at hv hs ⊢
    rw [List.range_succ, List.foldl_append, List.foldl_cons, List.foldl_nil]
    generalize (List.range n).foldl (fun (st : List Nat × Bus) i =>
          (st.1.set i (readByte (simDevice dur d0) st.2).1, (readByte (simDevice dur d0) st.2).2))
          (buf, b) = st at hv hs
    obtain ⟨hbyte, hstate⟩ := sim_readByte dur d0 st.2 x rest hx hs
    constructor
    · simp only
      rw [hbyte, hv, List.set_append_right n _ (le_of_eq hlen2), hlen2, Nat.sub_self,
        List.drop_eq_getElem_cons (show n < buf.length by omega), List.set_cons_zero,
        List.append_assoc, List.singleton_append]
    · exact hstate

/-! ## The ready poll and the scratchpad read on the simulated bus -/

theorem Device.finish_tx (d : Device) : d.finish.tx = d.tx := rfl

theorem Device.advance_zero (d : Device) : d.advance 0 = d := by
  unfold Device.advance
  split
  · rfl
  · rw [if_neg (by omega)]
    rfl

/-- A read slot on an idle device with nothing queued samples 1 and leaves the
device as it was. -/
theorem Device.poll_idle (a c : Nat) (s : Device) (htx : s.tx = []) (hb : s.busy = 0) :
    (s.advance a).nextBit = 1 ∧
    ({ s.advance a with tx := (s.advance a).tx.tail } : Device).advance c = s := by
  rw [Device.advance_idle a s hb]
  obtain ⟨rom, pad, lo, hi, ct, busy, rx, tx⟩ := s
  simp only at htx hb
  subst htx hb
  exact ⟨rfl, rfl⟩

/-- A read slot during which the conversion finishes samples 1 and leaves the
device with the result. -/
theorem Device.poll_last (a c : Nat) (s : Device) (htx : s.tx = []) (hb : 0 < s.busy)
    (ha : s.busy ≤ a) :
    (s.advance a).nextBit = 1 ∧
    ({ s.advance a with tx := (s.advance a).tx.tail } : Device).advance c = s.finish := by
  have e : s.advance a = s.finish := by
    unfold Device.advance
    rw [if_neg (by omega), if_pos ha]
  rw [e]
  obtain ⟨rom, pad, lo, hi, ct, busy, rx, tx⟩ := s
  simp only at htx
  subst htx
  exact ⟨rfl, rfl⟩

/-- A read slot that ends while the conversion is running samples 0; the
conversion goes on and will leave the same result. -/
theorem Device.poll_wait (a c : Nat) (s : Device) (htx : s.tx = []) (ha : a < s.busy) :
    (s.advance a).nextBit = 0 ∧
    (({ s.advance a with tx := (s.advance a).tx.tail } : Device).advance c).tx = [] ∧
    (({ s.advance a with tx := (s.advance a).tx.tail } : Device).advance c).busy
      ≤ s.busy - a ∧
    (if (({ s.advance a with tx := (s.advance a).tx.tail } : Device).advance c).busy = 0
      then ({ s.advance a with tx := (s.advance a).tx.tail } : Device).advance c
      else (({ s.advance a with tx := (s.advance a).tx.tail } : Device).advance c).finish)
      = s.finish := by
  have e : s.advance a = { s with busy := s.busy - a } := by
    unfold Device.advance
    rw [if_neg (by omega), if_neg (by omega)]
  rw [e]
  obtain ⟨rom, pad, lo, hi, ct, busy, rx, tx⟩ := s
  simp only at htx ha
  subst htx
  have hk : busy - a ≠ 0 := by omega
  refine ⟨?_, ?_, ?_, ?_⟩
  · unfold Device.nextBit
    simp only
    rw [if_neg hk]
  · rw [Device.advance_tx]
    rfl
  · unfold Device.advance
    simp only [List.tail_nil]
    rw [if_neg hk]
    split
    · simp [Device.finish]
    · simp
  · unfold Device.advance
    simp only [List.tail_nil]
    rw [if_neg hk]
    by_cases hc : busy - a ≤ c
    · rw [if_pos hc]
      rfl
    · rw [if_neg hc]
      simp only
      rw [if_neg (by omega)]
      rfl

/-- On the simulated bus the ready poll ends, provided time passes in a read
slot: at the first read slot when no conversion is running, and otherwise
when the running conversion has finished. -/
theorem sim_poll (dur : BusEvent → Nat) (d0 : Device) (hdur : 0 < dur .readSlot) (m : Nat) :
    ∀ (b : Bus) (fuel : Nat), (devState dur d0 b.trace).busy ≤ m → m < fuel →
      (devState dur d0 b.trace).tx = [] →
      ∃ b2, waitReady (simDevice dur d0) fuel b = some b2 ∧
        devState dur d0 b2.trace
          = (if (devState dur d0 b.trace).busy = 0 then devState dur d0 b.trace
              else (devState dur d0 b.trace).finish) := by
  induction m with
  | zero =>
    intro b fuel hb hf htx
    obtain ⟨f, rfl⟩ : ∃ f, fuel = f + 1 := ⟨fuel - 1, by omega⟩
    have hb0 : (devState dur d0 b.trace).busy = 0 := by omega
    obtain ⟨hbit, v, _, hstate⟩ := sim_tsReadBit dur d0 b
    obtain ⟨hn, hs⟩ := Device.poll_idle (dur .readSlot) (dur (.readSample v)) _ htx hb0
    rw [hn] at hbit
    refine ⟨(tsReadBit (simDevice dur d0) b).2, ?_, ?_⟩
    · unfold waitReady
      rw [if_pos (by rw [hbit]; decide)]
    · rw [hstate, hs, if_pos hb0]
  | succ m ih =>
    intro b fuel hb hf htx
    obtain ⟨f, rfl⟩ : ∃ f, fuel = f + 1 := ⟨fuel - 1, by omega⟩
    obtain ⟨hbit, v, _, hstate⟩ := sim_tsReadBit dur d0 b
    by_cases hb0 : (devState dur d0 b.trace).busy = 0
    · obtain ⟨hn, hs⟩ := Device.poll_idle (dur .readSlot) (dur (.readSample v)) _ htx hb0
      rw [hn] at hbit
      refine ⟨(tsReadBit (simDevice dur d0) b).2, ?_, ?_⟩
      · unfold waitReady
        rw [if_pos (by rw [hbit]; decide)]
      · rw [hstate, hs, if_pos hb0]
    · by_cases ha : (devState dur d0 b.trace).busy ≤ dur .readSlot
      · obtain ⟨hn, hs⟩ := Device.poll_last (dur .readSlot) (dur (.readSample v)) _ htx
          (by omega) ha
        rw [hn] at hbit
        refine ⟨(tsReadBit (simDevice dur d0) b).2, ?_, ?_⟩
        · unfold waitReady
          rw [if_pos (by rw [hbit]; decide)]
        · rw [hstate, hs, if_neg hb0]
      · obtain ⟨hn, htx2, hle, hfin⟩ := Device.poll_wait (dur .readSlot)
          (dur (.readSample v)) _ htx (by omega)
        rw [hn] at hbit
        rw [← hstate] at htx2 hle hfin
        obtain ⟨b2, hw, hs2⟩ := ih (tsReadBit (simDevice dur d0) b).2 f (by omega) (by omega)
          htx2
        refine ⟨b2, ?_, ?_⟩
        · unfold waitReady
          rw [if_neg (by rw [hbit]; decide)]
          exact hw
        · rw [hs2, hfin, if_neg hb0]

theorem Device.finish_pad_facts (d : Device) (hpad : d.pad.length = 9)
    (hb : ∀ x ∈ d.pad, x < 256) (hlo : d.tempLo < 256) (hhi : d.tempHi < 256) :
    d.finish.pad.length = 9 ∧ (∀ x ∈ d.finish.pad, x < 256) ∧
    d.finish.pad.getD 0 0 = d.tempLo ∧ d.finish.pad.getD 1 0 = d.tempHi := by
  have hl : ([d.tempLo, d.tempHi] ++ (d.pad.drop 2).take 6).length = 8 := by
    simp [hpad]
  have hby : ∀ x ∈ [d.tempLo, d.tempHi] ++ (d.pad.drop 2).take 6, x < 256 := by
    intro x hx
    rcases List.mem_append.mp hx with h | h
    · simp only [List.mem_cons, List.mem_singleton, List.not_mem_nil, or_false] at h
      rcases h with rfl | rfl
      · exact hlo
      · exact hhi
    · exact hb x (List.mem_of_mem_drop (List.mem_of_mem_take h))
  obtain ⟨h9, hlt, _⟩ := crcRegister_withCrc _ hl hby
  exact ⟨h9, hlt, by simp [Device.finish, withCrc], by simp [Device.finish, withCrc]⟩

theorem bitsOfBytes_match_head (l : List Nat) :
    (bitsOfBytes (MATCH_ROM :: l)).head? = some 1 := by
  rw [bitsOfBytes_cons]
  have hb : byteBitsNat MATCH_ROM = [1, 0, 1, 0, 1, 0, 1, 0] := by decide
  rw [hb]
  rfl

/-- A scratchpad read of the device whose address the handle holds: the handle
receives the scratch buffer the device has when the read command is complete,
that is once the reset and the 80 write slots of the MatchROM sequence and the
command have passed. -/
theorem sim_tsReadSPad (dur : BusEvent → Nat) (d0 : Device) (sensor : DS18B20) (b : Bus)
    (hrom : (devState dur d0 b.trace).rom.length = 8)
    (haddr : sensor.addr = (devState dur d0 b.trace).rom) (hpad : sensor.scrPad.length = 9)
    (hlen : ((devState dur d0 b.trace).advance
      (elapsed dur (readCommand sensor.addr))).pad.length = 9)
    (hlt : ∀ x ∈ ((devState dur d0 b.trace).advance
      (elapsed dur (readCommand sensor.addr))).pad, x < 256) :
    (tsReadSPad (simDevice dur d0) sensor b).1 = 0 ∧
    (tsReadSPad (simDevice dur d0) sensor b).2.1 = decodeTemp { sensor with
      scrPad := ((devState dur d0 b.trace).advance
        (elapsed dur (readCommand sensor.addr))).pad } := by
  obtain ⟨hr0, _, hrs⟩ := sim_tsMstRst dur d0 b
  have haddr8 : sensor.addr.length = 8 := by rw [haddr]; exact hrom
  have htr : (tsWriteByte READ_SPAD (tsMatchAddr sensor
        (tsMstRst (simDevice dur d0) b).2)).2.trace
      = (tsMstRst (simDevice dur d0) b).2.trace ++
        wrBytes (MATCH_ROM :: sensor.addr ++ [READ_SPAD]) := by
    rw [tsWriteByte_trace, tsMatchAddr_trace _ _ haddr8, wrBytes_append, wrBytes_singleton,
      List.append_assoc]
  have hcmd := devState_command dur d0 (tsMstRst (simDevice dur d0) b).2.trace
    (MATCH_ROM :: sensor.addr ++ [READ_SPAD])
    (by rw [hrs]; show ((devState dur d0 b.trace).advance _).rom.length = 8
        rw [Device.advance_rom]; exact hrom)
    (by rw [hrs]; rfl) (by simp) (by simp [haddr8]) (fun _ => bitsOfBytes_match_head _)
  have hrc : resetEvents 0 ++ wrBytes (MATCH_ROM :: sensor.addr ++ [READ_SPAD])
      = readCommand sensor.addr := rfl
  rw [hrs, Device.advance_clear, Device.advance_advance, ← elapsed_append, hrc] at hcmd
  have hact := Device.act_read_match
    ({ ((devState dur d0 b.trace).advance (elapsed dur (readCommand sensor.addr))).clear with
      rx := bitsOfBytes (MATCH_ROM :: sensor.addr ++ [READ_SPAD]) } : Device)
    (by show ((devState dur d0 b.trace).advance _).rom.length = 8
        rw [Device.advance_rom]; exact hrom)
    (by show _ = bitsOfBytes (MATCH_ROM :: ((devState dur d0 b.trace).advance _).rom ++ _)
        rw [Device.advance_rom, haddr])
  have hst : (devState dur d0 (tsWriteByte READ_SPAD (tsMatchAddr sensor
        (tsMstRst (simDevice dur d0) b).2)).2.trace).tx
      = bitsOfBytes ((devState dur d0 b.trace).advance
          (elapsed dur (readCommand sensor.addr))).pad := by
    rw [htr, hcmd]
    show (Device.act _).tx = _
    rw [hact]
    rfl
  obtain ⟨hv, _⟩ := sim_tsReadData dur d0 sensor.scrPad 9
    (tsWriteByte READ_SPAD (tsMatchAddr sensor (tsMstRst (simDevice dur d0) b).2)).2
    ((devState dur d0 b.trace).advance (elapsed dur (readCommand sensor.addr))).pad []
    hlen (le_of_eq hpad.symm) hlt (by rw [hst, List.append_nil])
  rw [← hpad, List.drop_length, List.append_nil, hpad] at hv
  constructor
  · unfold tsReadSPad
    rw [if_pos hr0]
  · unfold tsReadSPad
    rw [if_pos hr0]
    simp only
    rw [hv]

/-! ## Broadcast conversion and addressed read against the addressed temperature read -/

/-- The second half of `tsReadTemp` is `tsReadSPad`. -/
theorem tsReadTemp_eq (w : World) (fuel : Nat) (sensor : DS18B20) (bus : Bus) :
    tsReadTemp w fuel sensor bus =
      if (tsMstRst w bus).1 = 0 then
        (waitReady w fuel (tsWriteByte CONVERT_T
          (tsMatchAddr sensor (tsMstRst w bus).2)).2).map (tsReadSPad w sensor)
      else some (-1, sensor, (tsMstRst w bus).2) := by
  unfold tsReadTemp
  split
  · simp only
    cases waitReady w fuel (tsWriteByte CONVERT_T (tsMatchAddr sensor (tsMstRst w bus).2)).2 with
    | none => rfl
    | some b2 =>
      simp only [Option.map_some']
      unfold tsReadSPad
      split <;> rfl
  · rfl

theorem Device.start_zero (d : Device) (h : d.convTime = 0) : d.start = d.finish := by
  unfold Device.start
  rw [if_pos h]

theorem Device.start_pos (d : Device) (h : ¬ d.convTime = 0) :
    d.start = { d with busy := d.convTime } := by
  unfold Device.start
  rw [if_neg h]

theorem Device.start_rom (d : Device) : d.start.rom = d.rom := by
  unfold Device.start
  split <;> rfl

theorem Device.start_tx (d : Device) : d.start.tx = d.tx := by
  unfold Device.start
  split <;> rfl

theorem Device.start_busy_le (d : Device) : d.start.busy ≤ d.convTime := by
  unfold Device.start
  split
  · exact Nat.zero_le _
  · exact le_refl _

/-- A finished conversion that is finished again leaves the same scratch buffer. -/
theorem Device.finish_finish_pad (d : Device) (hpad : d.pad.length = 9) :
    d.finish.finish.pad = d.finish.pad := by
  obtain ⟨rom, pad, lo, hi, ct, busy, rx, tx⟩ := d
  simp only at hpad
  rcases pad with _ | ⟨p0, _ | ⟨p1, _ | ⟨p2, _ | ⟨p3, _ | ⟨p4, _ | ⟨p5, _ | ⟨p6, _ | ⟨p7,
    _ | ⟨p8, _ | ⟨p9, l⟩⟩⟩⟩⟩⟩⟩⟩⟩⟩ <;> simp at hpad
  simp [Device.finish, withCrc]

/-- Whatever time has passed, the next conversion leaves the same scratch buffer. -/
theorem Device.advance_finish_pad (t : Nat) (d : Device) (hpad : d.pad.length = 9) :
    (d.advance t).finish.pad = d.finish.pad := by
  unfold Device.advance
  split
  · rfl
  · split
    · exact Device.finish_finish_pad d hpad
    · rfl

/-- A conversion that takes at most the time `t` has left its result after `t`. -/
theorem Device.start_advance_done (t : Nat) (d : Device) (h : d.convTime ≤ t) :
    (d.start.advance t).pad = d.finish.pad := by
  by_cases h0 : d.convTime = 0
  · rw [Device.start_zero d h0, Device.advance_idle t _ rfl]
  · rw [Device.start_pos d h0]
    unfold Device.advance
    simp only
    rw [if_neg h0, if_pos h]
    rfl

/-- A conversion that takes more than the time `t` has not touched the scratch
buffer after `t`. -/
theorem Device.start_advance_running (t : Nat) (d : Device) (h : t < d.convTime) :
    (d.start.advance t).pad = d.pad := by
  rw [Device.start_pos d (by omega)]
  unfold Device.advance
  simp only
  rw [if_neg (by omega), if_neg (by omega)]

/-- The poll that follows a convert command ends with the conversion finished. -/
theorem Device.start_polled (d : Device) :
    (if d.start.busy = 0 then d.start else d.start.finish) = d.finish := by
  by_cases h0 : d.convTime = 0
  · rw [Device.start_zero d h0]
    exact if_pos rfl
  · rw [Device.start_pos d h0]
    show (if d.convTime = 0 then _ else _) = _
    rw [if_neg h0]
    rfl

/-- The device state once `tsConvertTemp` has run. -/
theorem sim_tsConvertTemp (dur : BusEvent → Nat) (d0 : Device) (b : Bus)
    (hrom : (devState dur d0 b.trace).rom.length = 8) :
    devState dur d0 (tsConvertTemp (simDevice dur d0) b).2.trace
      = ({ ((devState dur d0 b.trace).advance
            (elapsed dur (resetEvents 0 ++ wrBytes [SKIP_ROM, CONVERT_T]))).clear with
          rx := bitsOfBytes [SKIP_ROM, CONVERT_T] } : Device).start := by
  obtain ⟨hr0, _, hrs⟩ := sim_tsMstRst dur d0 b
  have htr : (tsConvertTemp (simDevice dur d0) b).2.trace
      = (tsMstRst (simDevice dur d0) b).2.trace ++ wrBytes [SKIP_ROM, CONVERT_T] := by
    unfold tsConvertTemp
    rw [if_pos hr0]
    simp only
    rw [tsWriteByte_trace, tsWriteByte_trace, List.append_assoc]
    simp [wrBytes]
  have hcmd := devState_command dur d0 (tsMstRst (simDevice dur d0) b).2.trace
    [SKIP_ROM, CONVERT_T]
    (by rw [hrs]; show ((devState dur d0 b.trace).advance _).rom.length = 8
        rw [Device.advance_rom]; exact hrom)
    (by rw [hrs]; rfl) (by simp) (by simp) (fun h => absurd h (by simp))
  rw [hrs, Device.advance_clear, Device.advance_advance, ← elapsed_append] at hcmd
  rw [htr, hcmd]
  exact Device.act_convert_skip _ rfl

/-- The device state once the convert half of `tsReadTemp` and its poll have
run: the conversion has finished. -/
theorem sim_convert_and_poll (dur : BusEvent → Nat) (d0 : Device) (sensor : DS18B20)
    (b : Bus) (fuel : Nat) (hdur : 0 < dur .readSlot)
    (hrom : (devState dur d0 b.trace).rom.length = 8)
    (haddr : sensor.addr = (devState dur d0 b.trace).rom)
    (hf : (devState dur d0 b.trace).convTime < fuel) :
    ∃ b2, waitReady (simDevice dur d0) fuel (tsWriteByte CONVERT_T
        (tsMatchAddr sensor (tsMstRst (simDevice dur d0) b).2)).2 = some b2 ∧
      devState dur d0 b2.trace = ({ ((devState dur d0 b.trace).advance
          (elapsed dur (resetEvents 0 ++
            wrBytes (MATCH_ROM :: sensor.addr ++ [CONVERT_T])))).clear with
        rx := bitsOfBytes (MATCH_ROM :: sensor.addr ++ [CONVERT_T]) } : Device).finish := by
  obtain ⟨hr0, _, hrs⟩ := sim_tsMstRst dur d0 b
  have haddr8 : sensor.addr.length = 8 := by rw [haddr]; exact hrom
  have htr : (tsWriteByte CONVERT_T (tsMatchAddr sensor
        (tsMstRst (simDevice dur d0) b).2)).2.trace
      = (tsMstRst (simDevice dur d0) b).2.trace ++
        wrBytes (MATCH_ROM :: sensor.addr ++ [CONVERT_T]) := by
    rw [tsWriteByte_trace, tsMatchAddr_trace _ _ haddr8, wrBytes_append, wrBytes_singleton,
      List.append_assoc]
  have hcmd := devState_command dur d0 (tsMstRst (simDevice dur d0) b).2.trace
    (MATCH_ROM :: sensor.addr ++ [CONVERT_T])
    (by rw [hrs]; show ((devState dur d0 b.trace).advance _).rom.length = 8
        rw [Device.advance_rom]; exact hrom)
    (by rw [hrs]; rfl) (by simp) (by simp [haddr8]) (fun _ => bitsOfBytes_match_head _)
  rw [hrs, Device.advance_clear, Device.advance_advance, ← elapsed_append] at hcmd
  have hact := Device.act_convert_match
    ({ ((devState dur d0 b.trace).advance (elapsed dur (resetEvents 0 ++
          wrBytes (MATCH_ROM :: sensor.addr ++ [CONVERT_T])))).clear with
      rx := bitsOfBytes (MATCH_ROM :: sensor.addr ++ [CONVERT_T]) } : Device)
    (by show _ = bitsOfBytes (MATCH_ROM :: ((devState dur d0 b.trace).advance _).rom ++ _)
        rw [Device.advance_rom, haddr])
  have hst : devState dur d0 (tsWriteByte CONVERT_T (tsMatchAddr sensor
        (tsMstRst (simDevice dur d0) b).2)).2.trace
      = ({ ((devState dur d0 b.trace).advance (elapsed dur (resetEvents 0 ++
            wrBytes (MATCH_ROM :: sensor.addr ++ [CONVERT_T])))).clear with
          rx := bitsOfBytes (MATCH_ROM :: sensor.addr ++ [CONVERT_T]) } : Device).start := by
    rw [htr, hcmd]
    exact hact
  have hct : (({ ((devState dur d0 b.trace).advance (elapsed dur (resetEvents 0 ++
            wrBytes (MATCH_ROM :: sensor.addr ++ [CONVERT_T])))).clear with
          rx := bitsOfBytes (MATCH_ROM :: sensor.addr ++ [CONVERT_T]) } : Device)).convTime
      = (devState dur d0 b.trace).convTime := by
    show ((devState dur d0 b.trace).advance _).convTime = _
    rw [Device.advance_convTime]
  obtain ⟨b2, hw, hs2⟩ := sim_poll dur d0 hdur (devState dur d0 b.trace).convTime
    (tsWriteByte CONVERT_T (tsMatchAddr sensor (tsMstRst (simDevice dur d0) b).2)).2 fuel
    (by rw [hst, ← hct]; exact Device.start_busy_le _) hf
    (by rw [hst, Device.start_tx]; rfl)
  refine ⟨b2, hw, ?_⟩
  rw [hs2, hst]
  exact Device.start_polled _

theorem sim_tsReadSPad_status (dur : BusEvent → Nat) (d0 : Device) (sensor : DS18B20)
    (b : Bus) : (tsReadSPad (simDevice dur d0) sensor b).1 = 0 := by
  unfold tsReadSPad
  rw [if_pos (sim_tsMstRst dur d0 b).1]

/-- Counterexample for C11: on a simulated bus with the sample clock (a time
slot of 70 cycles) whose single device needs 7000 cycles for a conversion,
started idle with the previous result `0x0550` in its scratch buffer and the
new measurement `0x0191` pending, the broadcast `tsConvertTemp` followed by
`tsReadSPad` returns `0` and leaves the previous result `1360` in `temp`: the
read command is complete 6663 cycles after the convert command. `tsReadTemp`
with the same address, started from the same device state, polls until the
conversion is done and leaves `401`. -/
theorem broadcast_read_returns_previous_result :
    elapsed sampleClock (readCommand (sampleDevice 7000).rom) = 6663 ∧
    (tsReadSPad (simDevice sampleClock (sampleDevice 7000)) blankHandle
      (tsConvertTemp (simDevice sampleClock (sampleDevice 7000)) bus0).2).1 = 0 ∧
    (tsReadSPad (simDevice sampleClock (sampleDevice 7000)) blankHandle
      (tsConvertTemp (simDevice sampleClock (sampleDevice 7000)) bus0).2).2.1.temp = 1360 ∧
    (tsReadTemp (simDevice sampleClock (sampleDevice 7000)) 100 blankHandle bus0).map
      (fun r => (r.1, r.2.1.temp)) = some (0, 401) := by
  decide!

/-- C11 (amended): on a simulated bus with exactly one device, whatever time
each bus event takes and whatever state the device starts in, `tsReadTemp`
with the device's address returns `0` (given that time passes in a read slot
and the poll bound exceeds the conversion time) and leaves the new measurement
in `temp`. The broadcast `tsConvertTemp` followed by `tsReadSPad` with the
same address, started from the same device state, returns `0` as well; it
leaves the same handle, hence the same `temp`, whenever the conversion takes
no longer than the reset and the 80 write slots with which `tsReadSPad` sends
its read command. When the conversion takes longer and the device was idle
at the start, `tsReadSPad` leaves the previous result of the scratch buffer
in `temp`: `tsConvertTemp` does not wait for the conversion. -/
theorem broadcast_convert_then_read_matches_tsReadTemp (dur : BusEvent → Nat) (d0 : Device)
    (sensor : DS18B20) (bus : Bus) (fuel : Nat)
    (hrom : d0.rom.length = 8) (hpad : d0.pad.length = 9) (hbytes : ∀ x ∈ d0.pad, x < 256)
    (hlo : d0.tempLo < 256) (hhi : d0.tempHi < 256)
    (haddr : sensor.addr = d0.rom) (hspad : sensor.scrPad.length = 9)
    (htrace : bus.trace = []) (hdur : 0 < dur .readSlot) (hfuel : d0.convTime < fuel) :
    ∃ r, tsReadTemp (simDevice dur d0) fuel sensor bus = some r ∧ r.1 = 0 ∧
      r.2.1.temp = toInt16 (d0.tempLo + 256 * d0.tempHi) ∧
      (tsReadSPad (simDevice dur d0) sensor (tsConvertTemp (simDevice dur d0) bus).2).1 = 0 ∧
      (d0.convTime ≤ elapsed dur (readCommand d0.rom) →
        (tsReadSPad (simDevice dur d0) sensor
          (tsConvertTemp (simDevice dur d0) bus).2).2.1 = r.2.1) ∧
      (d0.busy = 0 → elapsed dur (readCommand d0.rom) < d0.convTime →
        (tsReadSPad (simDevice dur d0) sensor
          (tsConvertTemp (simDevice dur d0) bus).2).2.1.temp
          = toInt16 (d0.pad.getD 0 0 + 256 * d0.pad.getD 1 0)) := by
  have hs : devState dur d0 bus.trace = d0 := by rw [htrace]; rfl
  obtain ⟨f1, f2, f3, f4⟩ := Device.finish_pad_facts d0 hpad hbytes hlo hhi
  -- the addressed path
  obtain ⟨b2, hw, hs2⟩ := sim_convert_and_poll dur d0 sensor bus fuel hdur
    (by rw [hs]; exact hrom) (by rw [hs]; exact haddr) (by rw [hs]; exact hfuel)
  rw [hs] at hs2
  have hromA : (devState dur d0 b2.trace).rom.length = 8 := by
    rw [hs2]
    show (d0.advance _).rom.length = 8
    rw [Device.advance_rom]
    exact hrom
  have haddrA : sensor.addr = (devState dur d0 b2.trace).rom := by
    rw [hs2]
    show _ = (d0.advance _).rom
    rw [Device.advance_rom]
    exact haddr
  have hpA : ((devState dur d0 b2.trace).advance (elapsed dur (readCommand sensor.addr))).pad
      = d0.finish.pad := by
    rw [hs2, Device.advance_idle _ _ rfl]
    exact Device.advance_finish_pad _ d0 hpad
  have hRA := sim_tsReadSPad dur d0 sensor b2 hromA haddrA hspad
    (by rw [hpA]; exact f1) (by rw [hpA]; exact f2)
  rw [hpA] at hRA
  have hT : tsReadTemp (simDevice dur d0) fuel sensor bus
      = some (tsReadSPad (simDevice dur d0) sensor b2) := by
    rw [tsReadTemp_eq, if_pos (sim_tsMstRst dur d0 bus).1, hw]
    rfl
  have htemp : (decodeTemp { sensor with scrPad := d0.finish.pad }).temp
      = toInt16 (d0.tempLo + 256 * d0.tempHi) := by
    rw [decodeTemp_eq _ (by show d0.finish.pad.getD 0 0 < 256; rw [f3]; exact hlo)
      (by show d0.finish.pad.getD 1 0 < 256; rw [f4]; exact hhi)]
    show toInt16 (d0.finish.pad.getD 0 0 + 256 * d0.finish.pad.getD 1 0) = _
    rw [f3, f4]
  -- the broadcast path
  have hB := sim_tsConvertTemp dur d0 bus (by rw [hs]; exact hrom)
  rw [hs] at hB
  have hromB : (devState dur d0 (tsConvertTemp (simDevice dur d0) bus).2.trace).rom.length
      = 8 := by
    rw [hB, Device.start_rom]
    show (d0.advance _).rom.length = 8
    rw [Device.advance_rom]
    exact hrom
  have haddrB : sensor.addr
      = (devState dur d0 (tsConvertTemp (simDevice dur d0) bus).2.trace).rom := by
    rw [hB, Device.start_rom]
    show _ = (d0.advance _).rom
    rw [Device.advance_rom]
    exact haddr
  refine ⟨_, hT, hRA.1, by rw [hRA.2]; exact htemp,
    sim_tsReadSPad_status dur d0 sensor _, fun hdone => ?_, fun hidle hlate => ?_⟩
  · have hpB : ((devState dur d0 (tsConvertTemp (simDevice dur d0) bus).2.trace).advance
        (elapsed dur (readCommand sensor.addr))).pad = d0.finish.pad := by
      rw [hB, Device.start_advance_done _ _ (by
        show (d0.advance _).convTime ≤ _
        rw [Device.advance_convTime, haddr]
        exact hdone)]
      exact Device.advance_finish_pad _ d0 hpad
    have hRB := sim_tsReadSPad dur d0 sensor (tsConvertTemp (simDevice dur d0) bus).2
      hromB haddrB hspad (by rw [hpB]; exact f1) (by rw [hpB]; exact f2)
    rw [hpB] at hRB
    rw [hRB.2, hRA.2]
  · have hpB : ((devState dur d0 (tsConvertTemp (simDevice dur d0) bus).2.trace).advance
        (elapsed dur (readCommand sensor.addr))).pad = d0.pad := by
      rw [hB, Device.start_advance_running _ _ (by
        show _ < (d0.advance _).convTime
        rw [Device.advance_convTime, haddr]
        exact hlate)]
      show (d0.advance _).pad = _
      rw [Device.advance_idle _ d0 hidle]
    have hRB := sim_tsReadSPad dur d0 sensor (tsConvertTemp (simDevice dur d0) bus).2
      hromB haddrB hspad (by rw [hpB]; exact hpad) (by rw [hpB]; exact hbytes)
    rw [hpB] at hRB
    rw [hRB.2, decodeTemp_eq _ (getD_lt_of_all_lt _ 0 hbytes) (getD_lt_of_all_lt _ 1 hbytes)]

/-- Witness for C11 (amended): the sample device with a conversion of 6663
cycles on the sample clock, the blank handle with its address, and a poll
bound of 6664 slots; both sequences leave `401`. -/
theorem broadcast_convert_then_read_matches_tsReadTemp_witness :
    0 < sampleClock .readSlot ∧ (sampleDevice 6663).convTime < 6664 ∧
    (sampleDevice 6663).convTime ≤ elapsed sampleClock (readCommand (sampleDevice 6663).rom) ∧
    (tsReadSPad (simDevice sampleClock (sampleDevice 6663)) blankHandle
      (tsConvertTemp (simDevice sampleClock (sampleDevice 6663)) bus0).2).2.1.temp = 401 ∧
    ∃ r, tsReadTemp (simDevice sampleClock (sampleDevice 6663)) 6664 blankHandle bus0
        = some r ∧ r.1 = 0 ∧
      r.2.1.temp = toInt16 ((sampleDevice 6663).tempLo + 256 * (sampleDevice 6663).tempHi) ∧
      (tsReadSPad (simDevice sampleClock (sampleDevice 6663)) blankHandle
        (tsConvertTemp (simDevice sampleClock (sampleDevice 6663)) bus0).2).1 = 0 ∧
      ((sampleDevice 6663).convTime
          ≤ elapsed sampleClock (readCommand (sampleDevice 6663).rom) →
        (tsReadSPad (simDevice sampleClock (sampleDevice 6663)) blankHandle
          (tsConvertTemp (simDevice sampleClock (sampleDevice 6663)) bus0).2).2.1 = r.2.1) ∧
      ((sampleDevice 6663).busy = 0 →
        elapsed sampleClock (readCommand (sampleDevice 6663).rom)
          < (sampleDevice 6663).convTime →
        (tsReadSPad (simDevice sampleClock (sampleDevice 6663)) blankHandle
          (tsConvertTemp (simDevice sampleClock (sampleDevice 6663)) bus0).2).2.1.temp
          = toInt16 ((sampleDevice 6663).pad.getD 0 0 +
              256 * (sampleDevice 6663).pad.getD 1 0)) :=
  ⟨by decide, by decide, by decide!, by decide!,
    broadcast_convert_then_read_matches_tsReadTemp sampleClock (sampleDevice 6663)
      blankHandle bus0 6664
      (by decide) (by decide) (by decide) (by decide) (by decide) (by decide) (by decide)
      (by decide) (by decide) (by decide)⟩

end DS18B20Driver
